import Mathlib

/-!
Mural whiteboard: history store, hit-testing and the event handlers.

A shallow embedding of `src/Pages/Mural/Mural.jsx`.

* JavaScript arrays are Lean lists.  Reading an array past its end gives the
  JavaScript value `undefined`, and writing past its end pads the array with
  holes; both are modelled with the `default` element of the value type.
* The `useHistory` hook keeps two pieces of React state, `index` and
  `history`.  One call of `setState`, `undo` or `redo` is one transition of the
  pair: the closure values of the call are the current values of the pair.
* Numbers are elements of a linearly ordered field (exact arithmetic); where
  the source calls `Math.sqrt` the embedding takes the square-root function as
  an argument and the theorems about it are stated over the real numbers.
* The pure functions are given on elements whose coordinates are numbers
  (`Element`).  The event handlers are given on JavaScript objects (`Obj`) kept
  in a heap, with properties that may be absent and numeric values that may be
  `undefined`, `null` or `NaN`; one event is one transition of `MuralState`.
-/

namespace Mural

/-! ## JavaScript array primitives -/

/-- The read `xs[i]` of a JavaScript array: `undefined` past the end. -/
def jsGet {σ : Type} [Inhabited σ] (xs : List σ) (i : Nat) : σ :=
  xs.getD i default

/-- The write `xs[i] = v` on a copy of a JavaScript array: in range it replaces
the entry, past the end it pads with holes up to position `i`. -/
def jsSet {σ : Type} [Inhabited σ] (xs : List σ) (i : Nat) (v : σ) : List σ :=
  if i < xs.length then xs.set i v
  else xs ++ List.replicate (i - xs.length) default ++ [v]

/-- The call `xs.slice(0, k)` for a non-negative `k`. -/
def jsSlice0 {σ : Type} (xs : List σ) (k : Nat) : List σ :=
  xs.take k

/-! ## The history store (`useHistory`) -/

/-- The two React state cells of `useHistory`. -/
structure History (σ : Type) where
  history : List σ
  index : Nat
deriving Repr, DecidableEq

/-- The first argument of `setState`: a value, or a function of the current
snapshot. -/
inductive Action (σ : Type) where
  | value (s : σ)
  | update (f : σ → σ)

/-- The initial cells: `useState(0)` and `useState([initialState])`. -/
def useHistory {σ : Type} (initialState : σ) : History σ :=
  { history := [initialState], index := 0 }

/-- The first component of the hook's result, `history[index]`. -/
def History.current {σ : Type} [Inhabited σ] (h : History σ) : σ :=
  jsGet h.history h.index

/-- The function `setState(action, overwrite)` of `useHistory`. -/
def History.setState {σ : Type} [Inhabited σ] (h : History σ) (action : Action σ)
    (overwrite : Bool) : History σ :=
  let newState :=
    match action with
    | .update f => f (jsGet h.history h.index)
    | .value s => s
  if overwrite then
    let historyCopy := jsSet h.history h.index newState
    { h with history := historyCopy }
  else
    let updatedState := jsSlice0 h.history (h.index + 1)
    { history := updatedState ++ [newState], index := h.index + 1 }

/-- The call `commit(s, overwrite)`: `setState` with a plain snapshot. -/
def History.commit {σ : Type} [Inhabited σ] (h : History σ) (s : σ)
    (overwrite : Bool) : History σ :=
  h.setState (.value s) overwrite

/-- The function `undo`: `index > 0 && setIndex(prev => prev - 1)`. -/
def History.undo {σ : Type} (h : History σ) : History σ :=
  if h.index > 0 then { h with index := h.index - 1 } else h

/-- The function `redo`:
`index < history.length - 1 && setIndex(prev => prev + 1)`.  The subtraction is
the integer one (`-1` for an empty array). -/
def History.redo {σ : Type} (h : History σ) : History σ :=
  if (h.index : Int) < (h.history.length : Int) - 1 then
    { h with index := h.index + 1 }
  else h

/-- One call on the history store. -/
inductive HistoryOp (σ : Type) where
  | commit (s : σ) (overwrite : Bool)
  | undo
  | redo

/-- The effect of one call. -/
def History.step {σ : Type} [Inhabited σ] (h : History σ) : HistoryOp σ → History σ
  | .commit s overwrite => h.commit s overwrite
  | .undo => h.undo
  | .redo => h.redo

/-- The effect of a sequence of calls, first call first. -/
def History.run {σ : Type} [Inhabited σ] (h : History σ) (ops : List (HistoryOp σ)) :
    History σ :=
  ops.foldl History.step h

/-- The calls `commit(s, false)` for each `s` of a list, in order. -/
def History.commitAll {σ : Type} [Inhabited σ] (h : History σ) (ss : List σ) :
    History σ :=
  ss.foldl (fun acc s => acc.commit s false) h

/-- The call `undo()` repeated `n` times. -/
def History.undoN {σ : Type} (h : History σ) : Nat → History σ
  | 0 => h
  | n + 1 => (h.undo).undoN n

/-! ## Geometry utilities -/

/-- A point object `{ x, y }`. -/
structure Point (K : Type) where
  x : K
  y : K
deriving Repr, DecidableEq

/-- The function `nearPoint`: `name` when the point is less than 5 away from
`(x1, y1)` on each axis, `null` otherwise. -/
def nearPoint {K : Type} [LinearOrderedField K] (x y x1 y1 : K) (name : String) :
    Option String :=
  if abs (x - x1) < 5 ∧ abs (y - y1) < 5 then some name else none

/-- The function `distance`, with `Math.sqrt` as the argument `sqrt`. -/
def distance {K : Type} [LinearOrderedField K] (sqrt : K → K) (a b : Point K) : K :=
  sqrt ((a.x - b.x) ^ 2 + (a.y - b.y) ^ 2)

/-- The function `onLine`; the source's default `maxDistance = 1` is passed
explicitly by the callers. -/
def onLine {K : Type} [LinearOrderedField K] (sqrt : K → K)
    (x1 y1 x2 y2 x y maxDistance : K) : Option String :=
  let a : Point K := { x := x1, y := y1 }
  let b : Point K := { x := x2, y := y2 }
  let c : Point K := { x := x, y := y }
  let offset := distance sqrt a b - (distance sqrt a c + distance sqrt b c)
  if abs offset < maxDistance then some "inside" else none

/-! ## Elements and hit-testing -/

/-- An element object.  The source builds three shapes of object:
`{ id, x1, y1, x2, y2, type, roughElement }`, `{ id, type, points }` and
`{ id, type, x1, y1, x2, y2, text }`.  The record has the union of their fields;
a field that a variant does not carry is never read for that variant by the
functions below.  The cached `roughElement` is a render primitive and is left
out. -/
structure Element (K : Type) where
  id : Nat
  type : String
  x1 : K
  y1 : K
  x2 : K
  y2 : K
  points : List (Point K)
  text : String
deriving Repr, DecidableEq

/-- The operator `a || b` on values that are a string or `null`: `a` when it
is truthy (a non-empty string), `b` otherwise. -/
def jsOr (a b : Option String) : Option String :=
  match a with
  | some s => if s = "" then b else some s
  | none => b

/-- The function `positionWithinElement`.  A thrown `Error` is the `error`
case, carrying its message. -/
def positionWithinElement {K : Type} [LinearOrderedField K] (sqrt : K → K)
    (x y : K) (element : Element K) : Except String (Option String) :=
  let x1 := element.x1
  let x2 := element.x2
  let y1 := element.y1
  let y2 := element.y2
  if element.type = "line" then
    let onSegment := onLine sqrt x1 y1 x2 y2 x y 1
    let start := nearPoint x y x1 y1 "start"
    let finish := nearPoint x y x2 y2 "end"
    .ok (jsOr (jsOr start finish) onSegment)
  else if element.type = "rectangle" then
    let topLeft := nearPoint x y x1 y1 "tl"
    let topRight := nearPoint x y x2 y1 "tr"
    let bottomLeft := nearPoint x y x1 y2 "bl"
    let bottomRight := nearPoint x y x2 y2 "br"
    let inside : Option String :=
      if x ≥ x1 ∧ x ≤ x2 ∧ y ≥ y1 ∧ y ≤ y2 then some "inside" else none
    .ok (jsOr (jsOr (jsOr (jsOr topLeft topRight) bottomLeft) bottomRight) inside)
  else if element.type = "pencil" then
    let betweenAnyPoint := element.points.enum.any fun (index, point) =>
      match element.points.get? (index + 1) with
      | none => false
      | some nextPoint =>
        (onLine sqrt point.x point.y nextPoint.x nextPoint.y x y 5).isSome
    .ok (if betweenAnyPoint then some "inside" else none)
  else if element.type = "text" then
    .ok (if x ≥ x1 ∧ x ≤ x2 ∧ y ≥ y1 ∧ y ≤ y2 then some "inside" else none)
  else
    .error ("Type not recognised: " ++ element.type)

/-- The object `{ ...element, position }` built by `getElementAtPosition`. -/
structure PositionedElement (K : Type) where
  element : Element K
  position : Option String
deriving Repr, DecidableEq

/-- The `map` call of `getElementAtPosition`: elements are visited in array
order and the first throw ends the call. -/
def mapPositions {K : Type} [LinearOrderedField K] (sqrt : K → K) (x y : K) :
    List (Element K) → Except String (List (PositionedElement K))
  | [] => .ok []
  | element :: rest =>
    match positionWithinElement sqrt x y element with
    | .error err => .error err
    | .ok position =>
      match mapPositions sqrt x y rest with
      | .error err => .error err
      | .ok tail => .ok ({ element := element, position := position } :: tail)

/-- The function `getElementAtPosition`: `undefined` (here `none`) when `find`
matches nothing. -/
def getElementAtPosition {K : Type} [LinearOrderedField K] (sqrt : K → K) (x y : K)
    (elements : List (Element K)) : Except String (Option (PositionedElement K)) :=
  match mapPositions sqrt x y elements with
  | .error err => .error err
  | .ok mapped => .ok (mapped.find? fun element => element.position.isSome)

/-- The object `{ x1, y1, x2, y2 }`. -/
structure Coordinates (K : Type) where
  x1 : K
  y1 : K
  x2 : K
  y2 : K
deriving Repr, DecidableEq

/-- The function `adjustElementCoordinates` on an element whose four coordinates
are numbers.  The function on element objects, whose coordinates may be
`undefined`, `null` or `NaN`, is `adjustObjectCoordinates` below. -/
def adjustElementCoordinates {K : Type} [LinearOrderedField K] (element : Element K) :
    Coordinates K :=
  let x1 := element.x1
  let y1 := element.y1
  let x2 := element.x2
  let y2 := element.y2
  if element.type = "rectangle" then
    let minX := min x1 x2
    let maxX := max x1 x2
    let minY := min y1 y2
    let maxY := max y1 y2
    { x1 := minX, y1 := minY, x2 := maxX, y2 := maxY }
  else
    if x1 < x2 ∨ (x1 = x2 ∧ y1 < y2) then
      { x1 := x1, y1 := y1, x2 := x2, y2 := y2 }
    else
      { x1 := x2, y1 := y2, x2 := x1, y2 := y1 }

/-- The element `element` with its four coordinates replaced by `c`. -/
def Element.withCoordinates {K : Type} (element : Element K) (c : Coordinates K) :
    Element K :=
  { element with x1 := c.x1, y1 := c.y1, x2 := c.x2, y2 := c.y2 }

/-! ## JavaScript values of the component

The event handlers of the component work on JavaScript objects whose
properties may be absent and on numbers that may be `undefined`, `null` or
`NaN`.  Element objects live in a heap, because `updateElement` changes a stroke
object in place and the same object can be held by several snapshots. -/

/-- A JavaScript value in a numeric position: `undefined`, `null`, `NaN` or a
number. -/
inductive JsNum (K : Type) where
  | undefined
  | null
  | nan
  | num (v : K)
deriving Repr, DecidableEq

instance {K : Type} : Inhabited (JsNum K) := ⟨JsNum.undefined⟩

/-- The conversion `ToNumber`: `undefined` and `NaN` give `NaN` (here `none`),
`null` gives 0. -/
def JsNum.toNumber {K : Type} [LinearOrderedField K] : JsNum K → Option K
  | .num v => some v
  | .null => some 0
  | .undefined => none
  | .nan => none

/-- The operator `a - b`. -/
def jsSub {K : Type} [LinearOrderedField K] (a b : JsNum K) : JsNum K :=
  match a.toNumber, b.toNumber with
  | some u, some v => .num (u - v)
  | _, _ => .nan

/-- The operator `a + b` on operands that are not strings. -/
def jsAdd {K : Type} [LinearOrderedField K] (a b : JsNum K) : JsNum K :=
  match a.toNumber, b.toNumber with
  | some u, some v => .num (u + v)
  | _, _ => .nan

/-- The operator `a < b`: false when an operand converts to `NaN`. -/
def jsLt {K : Type} [LinearOrderedField K] (a b : JsNum K) : Bool :=
  match a.toNumber, b.toNumber with
  | some u, some v => decide (u < v)
  | _, _ => false

/-- The operator `a <= b`: false when an operand converts to `NaN`. -/
def jsLe {K : Type} [LinearOrderedField K] (a b : JsNum K) : Bool :=
  match a.toNumber, b.toNumber with
  | some u, some v => decide (u ≤ v)
  | _, _ => false

/-- The operator `a === b`: `NaN` equals nothing, no conversion is made. -/
def jsStrictEq {K : Type} [LinearOrderedField K] (a b : JsNum K) : Bool :=
  match a, b with
  | .num u, .num v => decide (u = v)
  | .undefined, .undefined => true
  | .null, .null => true
  | _, _ => false

/-- The call `Math.min(a, b)`. -/
def jsMin {K : Type} [LinearOrderedField K] (a b : JsNum K) : JsNum K :=
  match a.toNumber, b.toNumber with
  | some u, some v => .num (min u v)
  | _, _ => .nan

/-- The call `Math.max(a, b)`. -/
def jsMax {K : Type} [LinearOrderedField K] (a b : JsNum K) : JsNum K :=
  match a.toNumber, b.toNumber with
  | some u, some v => .num (max u v)
  | _, _ => .nan

/-- An element object with its properties as the source may leave them:
`none` and `JsNum.undefined` stand for an absent property. -/
structure Obj (K : Type) where
  id : Option Nat := none
  type : Option String := none
  x1 : JsNum K := JsNum.undefined
  y1 : JsNum K := JsNum.undefined
  x2 : JsNum K := JsNum.undefined
  y2 : JsNum K := JsNum.undefined
  points : Option (List (Point (JsNum K))) := none
  text : Option String := none
deriving Repr, DecidableEq

/-- The function `createElement`.  The render primitive `roughElement` is left
out; a thrown `Error` is the `error` case, carrying its message. -/
def createElement {K : Type} (id : Option Nat) (x1 y1 x2 y2 : JsNum K) (type : String) :
    Except String (Obj K) :=
  if type = "line" ∨ type = "rectangle" then
    .ok { id := id, x1 := x1, y1 := y1, x2 := x2, y2 := y2, type := some type }
  else if type = "pencil" then
    .ok { id := id, type := some type, points := some [{ x := x1, y := y1 }] }
  else if type = "text" then
    .ok { id := id, type := some type, x1 := x1, y1 := y1, x2 := x2, y2 := y2,
          text := some "" }
  else
    .error ("Tipo não reconhecido: " ++ type)

/-- The function `resizedCoordinates`; `none` is the returned `null`.  The
function does no arithmetic, so it is stated for any type of coordinate
values. -/
def resizedCoordinates {V : Type} (clientX clientY : V) (position : String)
    (coordinates : Coordinates V) : Option (Coordinates V) :=
  let x1 := coordinates.x1
  let y1 := coordinates.y1
  let x2 := coordinates.x2
  let y2 := coordinates.y2
  if position = "tl" ∨ position = "start" then
    some { x1 := clientX, y1 := clientY, x2 := x2, y2 := y2 }
  else if position = "tr" then
    some { x1 := x1, y1 := clientY, x2 := clientX, y2 := y2 }
  else if position = "bl" then
    some { x1 := clientX, y1 := y1, x2 := x2, y2 := clientY }
  else if position = "br" ∨ position = "end" then
    some { x1 := x1, y1 := y1, x2 := clientX, y2 := clientY }
  else
    none

/-- The function `adjustmentRequired`: `["line", "rectangle"].includes(type)`. -/
def adjustmentRequired (type : Option String) : Bool :=
  type = some "line" || type = some "rectangle"

/-- The path of a resize gesture on a line or rectangle: the pointer-move calls
`resizedCoordinates` with the grabbed coordinates and stores the result in the
element, the pointer-up calls `adjustElementCoordinates` on that element. -/
def resizeThenAdjust {K : Type} [LinearOrderedField K] (clientX clientY : K)
    (position : String) (element : Element K) : Option (Coordinates K) :=
  (resizedCoordinates clientX clientY position
      { x1 := element.x1, y1 := element.y1, x2 := element.x2, y2 := element.y2 }).map
    fun c => adjustElementCoordinates (element.withCoordinates c)

/-! ## The component state -/

/-- A slot of an array of elements: an empty slot, the value `undefined`, or a
reference to an element object of the heap. -/
inductive Entry where
  | hole
  | undefined
  | ref (r : Nat)
deriving Repr, DecidableEq

instance : Inhabited Entry := ⟨Entry.hole⟩

/-- The copy `[...xs]`: empty slots are read as `undefined`. -/
def spread (xs : List Entry) : List Entry :=
  xs.map fun e =>
    match e with
    | .hole => .undefined
    | other => other

/-- The object a slot holds, when it holds one. -/
def deref {K : Type} (heap : List (Obj K)) : Entry → Option (Obj K)
  | .ref r => heap[r]?
  | .hole => none
  | .undefined => none

/-- The write `xs[id] = entry` on a copy; for an `undefined` index the write
sets a property that is no array slot. -/
def setSlot (xs : List Entry) (id : Option Nat) (entry : Entry) : List Entry :=
  match id with
  | some i => jsSet xs i entry
  | none => xs

/-- The objects of a snapshot, slot by slot. -/
def snapshotView {K : Type} (heap : List (Obj K)) (snapshot : List Entry) :
    List (Option (Obj K)) :=
  snapshot.map (deref heap)

/-- The value of `selectedElement`: a copy of an element object together with
the properties `position`, `xOffsets`, `yOffsets`, `offsetX`, `offsetY` that the
handlers add.  After a pointer-down with a drawing tool the source stores the
new element object itself; the only property of it that changes later is
`points`, which is read from `selectedElement` only in the `moving` state, where
`selectedElement` is a copy. -/
structure Selected (K : Type) where
  obj : Obj K
  position : Option String := none
  xOffsets : Option (List (JsNum K)) := none
  yOffsets : Option (List (JsNum K)) := none
  offsetX : JsNum K := JsNum.undefined
  offsetY : JsNum K := JsNum.undefined
deriving Repr, DecidableEq

/-- The state of the component `Mural`: the heap of element objects, the cells
of `useHistory([])`, and the cells `action`, `tool` and `selectedElement`. -/
structure MuralState (K : Type) where
  heap : List (Obj K)
  store : History (List Entry)
  action : String
  tool : String
  selectedElement : Option (Selected K)
deriving Repr, DecidableEq

/-- The state at mount: `useHistory([])`, `"none"`, `"rectangle"`, `null`. -/
def MuralState.initial {K : Type} : MuralState K :=
  { heap := [], store := useHistory [], action := "none", tool := "rectangle",
    selectedElement := none }

/-- The value `elements` of a render, `history[index]`. -/
def MuralState.elements {K : Type} (s : MuralState K) : List Entry :=
  s.store.current

/-- A mouse event: the pointer in client coordinates and the corner
`canvas.getBoundingClientRect()` of the canvas at the time of the event. -/
structure MouseEvent (K : Type) where
  clientX : K
  clientY : K
  left : K
  top : K
deriving Repr, DecidableEq

/-! ## Hit-testing on element objects -/

/-- The function `nearPoint` on a corner whose coordinates may not be numbers:
a comparison with `NaN` is false. -/
def nearPointJs {K : Type} [LinearOrderedField K] (x y : K) (x1 y1 : JsNum K)
    (name : String) : Option String :=
  match x1.toNumber, y1.toNumber with
  | some a, some b => nearPoint x y a b name
  | _, _ => none

/-- The function `onLine` on endpoints whose coordinates may not be numbers: the
offset is `NaN` as soon as one of them is. -/
def onLineJs {K : Type} [LinearOrderedField K] (sqrt : K → K) (x1 y1 x2 y2 : JsNum K)
    (x y maxDistance : K) : Option String :=
  match x1.toNumber, y1.toNumber, x2.toNumber, y2.toNumber with
  | some a, some b, some c, some d => onLine sqrt a b c d x y maxDistance
  | _, _, _, _ => none

/-- The test `x >= x1 && x <= x2 && y >= y1 && y <= y2`. -/
def insideJs {K : Type} [LinearOrderedField K] (x y : K) (x1 y1 x2 y2 : JsNum K) : Bool :=
  jsLe x1 (.num x) && jsLe (.num x) x2 && jsLe y1 (.num y) && jsLe (.num y) y2

/-- The function `positionWithinElement` on an element object. -/
def positionWithinObject {K : Type} [LinearOrderedField K] (sqrt : K → K) (x y : K)
    (element : Obj K) : Except String (Option String) :=
  let x1 := element.x1
  let x2 := element.x2
  let y1 := element.y1
  let y2 := element.y2
  if element.type = some "line" then
    let onSegment := onLineJs sqrt x1 y1 x2 y2 x y 1
    let start := nearPointJs x y x1 y1 "start"
    let finish := nearPointJs x y x2 y2 "end"
    .ok (jsOr (jsOr start finish) onSegment)
  else if element.type = some "rectangle" then
    let topLeft := nearPointJs x y x1 y1 "tl"
    let topRight := nearPointJs x y x2 y1 "tr"
    let bottomLeft := nearPointJs x y x1 y2 "bl"
    let bottomRight := nearPointJs x y x2 y2 "br"
    let inside : Option String := if insideJs x y x1 y1 x2 y2 then some "inside" else none
    .ok (jsOr (jsOr (jsOr (jsOr topLeft topRight) bottomLeft) bottomRight) inside)
  else if element.type = some "pencil" then
    match element.points with
    | none => .error "TypeError: element.points is undefined"
    | some points =>
      let betweenAnyPoint := points.enum.any fun (index, point) =>
        match points.get? (index + 1) with
        | none => false
        | some nextPoint =>
          (onLineJs sqrt point.x point.y nextPoint.x nextPoint.y x y 5).isSome
      .ok (if betweenAnyPoint then some "inside" else none)
  else if element.type = some "text" then
    .ok (if insideJs x y x1 y1 x2 y2 then some "inside" else none)
  else
    .error ("Type not recognised: " ++ element.type.getD "undefined")

/-- The `map` call of `getElementAtPosition` on an array of slots: an empty slot
is skipped, `undefined` cannot be destructured. -/
def mapPositionsJs {K : Type} [LinearOrderedField K] (sqrt : K → K) (heap : List (Obj K))
    (x y : K) : List Entry → Except String (List (Option (Selected K)))
  | [] => .ok []
  | .hole :: rest =>
    match mapPositionsJs sqrt heap x y rest with
    | .error err => .error err
    | .ok tail => .ok (none :: tail)
  | .undefined :: _ => .error "TypeError: cannot destructure undefined"
  | .ref r :: rest =>
    match heap[r]? with
    | none => .error "TypeError: cannot destructure undefined"
    | some element =>
      match positionWithinObject sqrt x y element with
      | .error err => .error err
      | .ok position =>
        match mapPositionsJs sqrt heap x y rest with
        | .error err => .error err
        | .ok tail => .ok (some { obj := element, position := position } :: tail)

/-- The `find` call of `getElementAtPosition`: it visits empty slots as
`undefined`, whose property `position` cannot be read. -/
def findPositioned {K : Type} :
    List (Option (Selected K)) → Except String (Option (Selected K))
  | [] => .ok none
  | none :: _ => .error "TypeError: cannot read properties of undefined"
  | some element :: rest =>
    if element.position.isSome then .ok (some element) else findPositioned rest

/-- The function `getElementAtPosition` on the slots of the current array. -/
def getObjectAtPosition {K : Type} [LinearOrderedField K] (sqrt : K → K)
    (heap : List (Obj K)) (x y : K) (elements : List Entry) :
    Except String (Option (Selected K)) :=
  match mapPositionsJs sqrt heap x y elements with
  | .error err => .error err
  | .ok mapped => findPositioned mapped

/-- The function `adjustElementCoordinates` on an element object: the
comparisons and `Math.min`, `Math.max` are those of JavaScript, on coordinates
that may be `undefined`, `null` or `NaN`. -/
def adjustObjectCoordinates {K : Type} [LinearOrderedField K] (element : Obj K) :
    Coordinates (JsNum K) :=
  let x1 := element.x1
  let y1 := element.y1
  let x2 := element.x2
  let y2 := element.y2
  if element.type = some "rectangle" then
    let minX := jsMin x1 x2
    let maxX := jsMax x1 x2
    let minY := jsMin y1 y2
    let maxY := jsMax y1 y2
    { x1 := minX, y1 := minY, x2 := maxX, y2 := maxY }
  else
    if jsLt x1 x2 || (jsStrictEq x1 x2 && jsLt y1 y2) then
      { x1 := x1, y1 := y1, x2 := x2, y2 := y2 }
    else
      { x1 := x2, y1 := y2, x2 := x1, y2 := y1 }

/-! ## The event handlers

A handler reads the values of the render it was created in, here the state `s`,
and its state updates take effect together when it returns.  A handler that
throws before its first update leaves the state as it was: this is the `error`
case.  The text width `measureText(text).width` of the canvas context is the
argument `measureText`. -/

/-- The function `updateElement`. -/
def updateElement {K : Type} [LinearOrderedField K] (measureText : String → K)
    (s : MuralState K) (id : Option Nat) (x1 y1 x2 y2 : JsNum K) (type : Option String)
    (options : Option (Option String)) : Except String (MuralState K) :=
  let elementsCopy := spread s.elements
  if type = some "line" ∨ type = some "rectangle" then
    match createElement id x1 y1 x2 y2 (type.getD "undefined") with
    | .error err => .error err
    | .ok element =>
      .ok { s with
        heap := s.heap ++ [element]
        store := s.store.setState
          (.value (setSlot elementsCopy id (.ref s.heap.length))) true }
  else if type = some "pencil" then
    match id with
    | none => .error "TypeError: cannot read properties of undefined"
    | some i =>
      match jsGet elementsCopy i with
      | .ref r =>
        match s.heap[r]? with
        | none => .error "TypeError: cannot read properties of undefined"
        | some element =>
          match element.points with
          | none => .error "TypeError: element.points is not iterable"
          | some points =>
            .ok { s with
              heap := s.heap.set r
                { element with points := some (points ++ [{ x := x2, y := y2 }]) }
              store := s.store.setState (.value elementsCopy) true }
      | .hole => .error "TypeError: cannot read properties of undefined"
      | .undefined => .error "TypeError: cannot read properties of undefined"
  else if type = some "text" then
    match options with
    | none => .error "TypeError: cannot read properties of undefined"
    | some text =>
      let textWidth := measureText (text.getD "undefined")
      let textHeight : K := 24
      match createElement id x1 y1 (jsAdd x1 (.num textWidth)) (jsAdd y1 (.num textHeight))
          "text" with
      | .error err => .error err
      | .ok element =>
        .ok { s with
          heap := s.heap ++ [{ element with text := text }]
          store := s.store.setState
            (.value (setSlot elementsCopy id (.ref s.heap.length))) true }
  else
    .error ("Tipo não reconhecido: " ++ type.getD "undefined")

/-- The function `handleMouseDown`. -/
def handleMouseDown {K : Type} [LinearOrderedField K] (sqrt : K → K) (s : MuralState K)
    (event : MouseEvent K) : Except String (MuralState K) :=
  if s.action = "writing" then .ok s
  else
    let clientX := event.clientX
    let clientY := event.clientY
    let offsetX := event.clientX - event.left
    let offsetY := event.clientY - event.top
    if s.tool = "selection" then
      match getObjectAtPosition sqrt s.heap offsetX offsetY s.elements with
      | .error err => .error err
      | .ok none => .ok s
      | .ok (some element) =>
        let selected : Except String (Selected K) :=
          if element.obj.type = some "pencil" then
            match element.obj.points with
            | none => .error "TypeError: cannot read properties of undefined"
            | some points =>
              let xOffsets := points.map fun point => jsSub (.num offsetX) point.x
              let yOffsets := points.map fun point => jsSub (.num offsetY) point.y
              .ok { element with xOffsets := some xOffsets, yOffsets := some yOffsets }
          else
            let offsetX := jsSub (.num clientX) element.obj.x1
            let offsetY := jsSub (.num clientY) element.obj.y1
            .ok { element with offsetX := offsetX, offsetY := offsetY }
        match selected with
        | .error err => .error err
        | .ok selectedElement =>
          .ok { s with
            selectedElement := some selectedElement
            store := s.store.setState (.update fun prevState => prevState) false
            action := if element.position = some "inside" then "moving" else "resizing" }
    else
      let id := s.elements.length
      match createElement (some id) (.num offsetX) (.num offsetY) (.num offsetX)
          (.num offsetY) s.tool with
      | .error err => .error err
      | .ok element =>
        .ok { s with
          heap := s.heap ++ [element]
          store := s.store.setState
            (.update fun prevState => spread prevState ++ [.ref s.heap.length]) false
          selectedElement := some { obj := element }
          action := if s.tool = "text" then "writing" else "drawing" }

/-- The function `handleMouseMove`; the cursor style it sets is left out, the
hit test that computes it can throw. -/
def handleMouseMove {K : Type} [LinearOrderedField K] (sqrt : K → K)
    (measureText : String → K) (s : MuralState K) (event : MouseEvent K) :
    Except String (MuralState K) :=
  let clientX := event.clientX
  let clientY := event.clientY
  let offsetX := event.clientX - event.left
  let offsetY := event.clientY - event.top
  let cursor : Except String Unit :=
    if s.tool = "selection" then
      match getObjectAtPosition sqrt s.heap offsetX offsetY s.elements with
      | .error err => .error err
      | .ok _ => .ok ()
    else .ok ()
  match cursor with
  | .error err => .error err
  | .ok _ =>
    if s.action = "drawing" then
      if s.elements.length = 0 then
        .error "TypeError: cannot destructure undefined"
      else
        let index := s.elements.length - 1
        match deref s.heap (jsGet s.elements index) with
        | none => .error "TypeError: cannot destructure undefined"
        | some element =>
          updateElement measureText s (some index) element.x1 element.y1 (.num offsetX)
            (.num offsetY) (some s.tool) none
    else if s.action = "moving" then
      match s.selectedElement with
      | none => .error "TypeError: cannot read properties of null"
      | some selectedElement =>
        if selectedElement.obj.type = some "pencil" then
          match selectedElement.obj.points with
          | none => .error "TypeError: cannot read properties of undefined"
          | some points =>
            let newPoints : Except String (List (Point (JsNum K))) :=
              match selectedElement.xOffsets, selectedElement.yOffsets with
              | some xOffsets, some yOffsets =>
                .ok (points.enum.map fun (index, _) =>
                  { x := jsSub (.num offsetX) (jsGet xOffsets index),
                    y := jsSub (.num offsetY) (jsGet yOffsets index) })
              | _, _ =>
                if points.isEmpty then .ok []
                else .error "TypeError: cannot read properties of undefined"
            match newPoints with
            | .error err => .error err
            | .ok newPoints =>
              let elementsCopy := spread s.elements
              let previous : Obj K :=
                match selectedElement.obj.id with
                | none => {}
                | some i => (deref s.heap (jsGet elementsCopy i)).getD {}
              .ok { s with
                heap := s.heap ++ [{ previous with points := some newPoints }]
                store := s.store.setState
                  (.value (setSlot elementsCopy selectedElement.obj.id (.ref s.heap.length)))
                  true }
        else
          let id := selectedElement.obj.id
          let x1 := selectedElement.obj.x1
          let x2 := selectedElement.obj.x2
          let y1 := selectedElement.obj.y1
          let y2 := selectedElement.obj.y2
          let type := selectedElement.obj.type
          let width := jsSub x2 x1
          let height := jsSub y2 y1
          let newX1 := jsSub (.num clientX) selectedElement.offsetX
          let newY1 := jsSub (.num clientY) selectedElement.offsetY
          let options : Option String :=
            if type = some "text" then selectedElement.obj.text else none
          updateElement measureText s id newX1 newY1 (jsAdd newX1 width) (jsAdd newY1 height)
            type (some options)
    else if s.action = "resizing" then
      match s.selectedElement with
      | none => .error "TypeError: cannot destructure null"
      | some selectedElement =>
        let coordinates : Coordinates (JsNum K) :=
          { x1 := selectedElement.obj.x1, y1 := selectedElement.obj.y1,
            x2 := selectedElement.obj.x2, y2 := selectedElement.obj.y2 }
        let resized :=
          match selectedElement.position with
          | some position =>
            resizedCoordinates (JsNum.num offsetX) (JsNum.num offsetY) position coordinates
          | none => none
        match resized with
        | none => .error "TypeError: cannot destructure null"
        | some c =>
          updateElement measureText s selectedElement.obj.id c.x1 c.y1 c.x2 c.y2
            selectedElement.obj.type none
    else .ok s

/-- The function `handleMouseUp`. -/
def handleMouseUp {K : Type} [LinearOrderedField K] (measureText : String → K)
    (s : MuralState K) (event : MouseEvent K) : Except String (MuralState K) :=
  let offsetX := event.clientX - event.left
  let offsetY := event.clientY - event.top
  match s.selectedElement with
  | some selectedElement =>
    if selectedElement.obj.type = some "text" ∧
        jsStrictEq (jsSub (.num offsetX) selectedElement.offsetX) selectedElement.obj.x1 = true ∧
        jsStrictEq (jsSub (.num offsetY) selectedElement.offsetY) selectedElement.obj.y1 = true
    then .ok { s with action := "writing" }
    else
      match selectedElement.obj.id with
      | none => .error "TypeError: cannot destructure undefined"
      | some index =>
        match deref s.heap (jsGet s.elements index) with
        | none => .error "TypeError: cannot destructure undefined"
        | some element =>
          let id := element.id
          let type := element.type
          let updated : Except String (MuralState K) :=
            if (s.action = "drawing" ∨ s.action = "resizing") ∧ adjustmentRequired type = true
            then
              let c := adjustObjectCoordinates element
              updateElement measureText s id c.x1 c.y1 c.x2 c.y2 type none
            else .ok s
          match updated with
          | .error err => .error err
          | .ok s' =>
            if s.action = "writing" then .ok s'
            else .ok { s' with action := "none", selectedElement := none }
  | none =>
    if s.action = "writing" then .ok s
    else .ok { s with action := "none", selectedElement := none }

/-- The function `handleBlur`, called with `event.target.value`.  The two cell
updates come before the call of `updateElement`, so they stay when that call
throws. -/
def handleBlur {K : Type} [LinearOrderedField K] (measureText : String → K)
    (s : MuralState K) (value : String) : Except String (MuralState K) :=
  match s.selectedElement with
  | none => .error "TypeError: cannot destructure null"
  | some selectedElement =>
    match updateElement measureText s selectedElement.obj.id selectedElement.obj.x1
        selectedElement.obj.y1 .null .null selectedElement.obj.type (some (some value)) with
    | .error _ => .ok { s with action := "none", selectedElement := none }
    | .ok s' => .ok { s' with action := "none", selectedElement := none }

/-- The function `handleClearCanvas`: `setElements([])`. -/
def handleClearCanvas {K : Type} (s : MuralState K) : MuralState K :=
  { s with store := s.store.setState (.value []) false }

/-- The function `handleToolClick`. -/
def handleToolClick {K : Type} (s : MuralState K) (selectedTool : String) : MuralState K :=
  { s with tool := selectedTool }

/-- An event of the component.  The text area, and with it `blur`, exists only
while `action` is `"writing"`. -/
inductive Event (K : Type) where
  | mouseDown (event : MouseEvent K)
  | mouseMove (event : MouseEvent K)
  | mouseUp (event : MouseEvent K)
  | blur (value : String)
  | clear
  | undo
  | redo
  | toolClick (tool : String)

/-- The state after a handler: the state it returns, or the state as it was
when it threw. -/
def settle {K : Type} (s : MuralState K) : Except String (MuralState K) → MuralState K
  | .ok s' => s'
  | .error _ => s

/-- One event of the component. -/
def MuralState.step {K : Type} [LinearOrderedField K] (sqrt : K → K)
    (measureText : String → K) (s : MuralState K) : Event K → MuralState K
  | .mouseDown event => settle s (handleMouseDown sqrt s event)
  | .mouseMove event => settle s (handleMouseMove sqrt measureText s event)
  | .mouseUp event => settle s (handleMouseUp measureText s event)
  | .blur value =>
    if s.action = "writing" then settle s (handleBlur measureText s value) else s
  | .clear => handleClearCanvas s
  | .undo => { s with store := s.store.undo }
  | .redo => { s with store := s.store.redo }
  | .toolClick tool => handleToolClick s tool

/-- A sequence of events, first event first. -/
def MuralState.run {K : Type} [LinearOrderedField K] (sqrt : K → K)
    (measureText : String → K) (s : MuralState K) (events : List (Event K)) : MuralState K :=
  events.foldl (MuralState.step sqrt measureText) s

/-- Every object of the array `elements` has an `id` equal to its index. -/
def idsMatchIndex {K : Type} (heap : List (Obj K)) (elements : List Entry) : Prop :=
  ∀ (i : Nat) (element : Obj K), deref heap (jsGet elements i) = some element →
    element.id = some i

/-! ## Event sequences used in the theorems -/

/-- A mouse event at the canvas position `(x, y)`, with the canvas at the
origin of the client area. -/
def mouseAt {K : Type} [LinearOrderedField K] (x y : K) : MouseEvent K :=
  { clientX := x, clientY := y, left := 0, top := 0 }

/-- A stroke is drawn from (10,10) to (20,10); a second stroke is started at
(50,50) and, with the button still down, `undo` is pressed once. -/
def undoWhileDrawing {K : Type} [LinearOrderedField K] : List (Event K) :=
  [.toolClick "pencil", .mouseDown (mouseAt 10 10), .mouseMove (mouseAt 20 10),
   .mouseUp (mouseAt 20 10), .mouseDown (mouseAt 50 50), .undo]

/-- A stroke is drawn from (10,10) to (20,10) and grabbed at (15,10) with the
selection tool; with the button still down, `undo` is pressed twice. -/
def undoWhileMoving {K : Type} [LinearOrderedField K] : List (Event K) :=
  [.toolClick "pencil", .mouseDown (mouseAt 10 10), .mouseMove (mouseAt 20 10),
   .mouseUp (mouseAt 20 10), .toolClick "selection", .mouseDown (mouseAt 15 10),
   .undo, .undo]

/-- With the initial tool `rectangle`, a rectangle is started at (10,10) and
dragged to (5,40); the button is still down. -/
def drawingRectangle {K : Type} [LinearOrderedField K] : List (Event K) :=
  [.mouseDown (mouseAt 10 10), .mouseMove (mouseAt 5 40)]

/-- A text element is placed at (30,40); `undo` is pressed while the text area
is open, the text area loses focus with no text typed, and `redo` brings back
the snapshot made by the pointer-down. -/
def textPlacedThenRedone {K : Type} [LinearOrderedField K] : List (Event K) :=
  [.toolClick "text", .mouseDown (mouseAt 30 40), .undo, .blur "", .redo,
   .toolClick "selection"]

/-- Numeric coordinates as JavaScript values. -/
def Coordinates.toJs {K : Type} (c : Coordinates K) : Coordinates (JsNum K) :=
  { x1 := .num c.x1, y1 := .num c.y1, x2 := .num c.x2, y2 := .num c.y2 }

/-- A point with numeric coordinates as a point object. -/
def Point.toJs {K : Type} (p : Point K) : Point (JsNum K) :=
  { x := .num p.x, y := .num p.y }

/-- A state with one rectangle (0,0)-(100,100) in the collection, the
selection tool active and no gesture under way. -/
def oneRectangle {K : Type} [LinearOrderedField K] : MuralState K :=
  { heap := [{ id := some 0, type := some "rectangle", x1 := .num 0, y1 := .num 0,
               x2 := .num 100, y2 := .num 100 }],
    store := { history := [[], [.ref 0]], index := 1 },
    action := "none", tool := "selection", selectedElement := none }

/-- A state in which the rectangle started at (10,10) has been dragged to
(5,40) and the button is still down. -/
def rectangleBeingDrawn {K : Type} [LinearOrderedField K] : MuralState K :=
  { heap := [{ id := some 0, type := some "rectangle", x1 := .num 10, y1 := .num 10,
               x2 := .num 10, y2 := .num 10 },
             { id := some 0, type := some "rectangle", x1 := .num 10, y1 := .num 10,
               x2 := .num 5, y2 := .num 40 }],
    store := { history := [[], [.ref 1]], index := 1 },
    action := "drawing", tool := "rectangle",
    selectedElement := some
      { obj := { id := some 0, type := some "rectangle", x1 := .num 10, y1 := .num 10,
                 x2 := .num 10, y2 := .num 10 } } }

/-! ## Reference descriptions of the hit test

The definitions of this section follow the wording of the specification, not
the source; the theorems compare them with `positionWithinElement`. -/

/-- The point `(x, y)` is within 5 units of `(cx, cy)` on both axes, strictly. -/
def within5 {K : Type} [LinearOrderedField K] (x y cx cy : K) : Bool :=
  decide (abs (x - cx) < 5) && decide (abs (y - cy) < 5)

/-- The four corners of the box spanned by `(x1, y1)` and `(x2, y2)`, by handle
name and in the order `tl`, `tr`, `bl`, `br`; the `y` axis points down. -/
def specCorners {K : Type} [LinearOrderedField K] (e : Element K) :
    List (String × Point K) :=
  [("tl", { x := min e.x1 e.x2, y := min e.y1 e.y2 }),
   ("tr", { x := max e.x1 e.x2, y := min e.y1 e.y2 }),
   ("bl", { x := min e.x1 e.x2, y := max e.y1 e.y2 }),
   ("br", { x := max e.x1 e.x2, y := max e.y1 e.y2 })]

/-- The region of a rectangle in the words of the specification: the first
corner handle within 5 units, failing those `inside` for a point of the
bounding box, otherwise nothing. -/
def specRectangleRegion {K : Type} [LinearOrderedField K] (x y : K) (e : Element K) :
    Option String :=
  match (specCorners e).find? fun c => within5 x y c.2.x c.2.y with
  | some c => some c.1
  | none => if e.x1 ≤ x ∧ x ≤ e.x2 ∧ e.y1 ≤ y ∧ y ≤ e.y2 then some "inside" else none

/-- The region of a line in the words of the specification: `start` near the
first endpoint, otherwise `end` near the second, otherwise `inside` when
`|dist(a,b) - (dist(a,c) + dist(b,c))| < 1`, otherwise nothing. -/
def specLineRegion {K : Type} [LinearOrderedField K] (sqrt : K → K) (x y : K)
    (e : Element K) : Option String :=
  let a : Point K := { x := e.x1, y := e.y1 }
  let b : Point K := { x := e.x2, y := e.y2 }
  let c : Point K := { x := x, y := y }
  if within5 x y e.x1 e.y1 then some "start"
  else if within5 x y e.x2 e.y2 then some "end"
  else if abs (distance sqrt a b - (distance sqrt a c + distance sqrt b c)) < 1 then
    some "inside"
  else none

/-! ## Distances from a point to a line and to a segment -/

/-- The perpendicular distance from `c` to the line through `a` and `b`: the
area of the parallelogram spanned by `b - a` and `c - a` over the length of
`b - a`. -/
def perpendicularDistance {K : Type} [LinearOrderedField K] (sqrt : K → K)
    (a b c : Point K) : K :=
  abs ((b.x - a.x) * (c.y - a.y) - (b.y - a.y) * (c.x - a.x)) / distance sqrt a b

/-- The distance from `c` to the closed segment from `a` to `b`: the distance
to the foot of the perpendicular, moved to the nearer endpoint when it falls
outside the segment. -/
def segmentDistance {K : Type} [LinearOrderedField K] (sqrt : K → K)
    (a b c : Point K) : K :=
  let lengthSq := (b.x - a.x) ^ 2 + (b.y - a.y) ^ 2
  if lengthSq = 0 then distance sqrt a c
  else
    let t := max 0 (min 1
      (((c.x - a.x) * (b.x - a.x) + (c.y - a.y) * (b.y - a.y)) / lengthSq))
    distance sqrt c { x := a.x + t * (b.x - a.x), y := a.y + t * (b.y - a.y) }

/-! ## Elements with coordinates that are not numbers -/

/-- The element object `element` with its four coordinates replaced by `c`. -/
def Obj.withCoordinates {K : Type} (element : Obj K) (c : Coordinates (JsNum K)) : Obj K :=
  { element with x1 := c.x1, y1 := c.y1, x2 := c.x2, y2 := c.y2 }

/-- A stroke is started at (10,10) with the pencil tool; with the gesture still
open the line tool is chosen, and the pointer moves to (20,20). -/
def lineAfterPencilDown {K : Type} [LinearOrderedField K] : List (Event K) :=
  [.toolClick "pencil", .mouseDown (mouseAt 10 10), .toolClick "line",
   .mouseMove (mouseAt 20 20)]

/-- The line object that `handleMouseMove` makes at the end of
`lineAfterPencilDown`: `x1` and `y1` are read from the pencil object, which has
neither. -/
def lineFromPencil {K : Type} [LinearOrderedField K] : Obj K :=
  { id := some 0, type := some "line", x1 := .undefined, y1 := .undefined,
    x2 := .num 20, y2 := .num 20 }

/-! ## Shared lemmas on the history store -/

theorem commit_false_eq {σ : Type} [Inhabited σ] (h : History σ) (s : σ) :
    h.commit s false = { history := h.history.take (h.index + 1) ++ [s], index := h.index + 1 } := by
  simp [History.commit, History.setState, jsSlice0]

theorem commit_true_eq {σ : Type} [Inhabited σ] (h : History σ) (s : σ)
    (hi : h.index < h.history.length) :
    h.commit s true = { history := h.history.set h.index s, index := h.index } := by
  simp [History.commit, History.setState, jsSet, hi]

/-- C1. From a history `(S, i)` with `i < |S|`, `commit(s, false)` gives the
sequence `S[0..i]` followed by `s`, of length `i + 2`, with current index
`i + 1`; the current snapshot is `s`, the entries up to `i` are those of `S`,
and no entry exists after index `i + 1`. -/
theorem commit_append_truncates {σ : Type} [Inhabited σ] (h : History σ) (s : σ)
    (hi : h.index < h.history.length) :
    (h.commit s false).history = h.history.take (h.index + 1) ++ [s] ∧
    (h.commit s false).history.length = h.index + 2 ∧
    (h.commit s false).index = h.index + 1 ∧
    (h.commit s false).current = s ∧
    (∀ j, j ≤ h.index → (h.commit s false).history[j]? = h.history[j]?) ∧
    (∀ j, h.index + 1 < j → (h.commit s false).history[j]? = none) := by
  have hlen : (h.history.take (h.index + 1)).length = h.index + 1 := by
    rw [List.length_take]; omega
  rw [commit_false_eq]
  refine ⟨rfl, ?_, rfl, ?_, ?_, ?_⟩
  · simp [hlen]
  · simp only [History.current, jsGet]
    rw [List.getD_eq_getElem?_getD, List.getElem?_append_right (by omega)]
    simp [hlen]
  · intro j hj
    simp only
    rw [List.getElem?_append_left (by omega), List.getElem?_take_of_lt (by omega)]
  · intro j hj
    simp only
    rw [List.getElem?_eq_none]
    simp [hlen]; omega

theorem commit_append_truncates_witness :
    (History.mk [10, 20, 30] 0).index < (History.mk [10, 20, 30] 0).history.length ∧
    ((History.mk [10, 20, 30] 0).commit 7 false).history = [10, 7] ∧
    ((History.mk [10, 20, 30] 0).commit 7 false).current = 7 :=
  ⟨by decide,
   (commit_append_truncates (History.mk [10, 20, 30] 0) 7 (by decide)).1,
   (commit_append_truncates (History.mk [10, 20, 30] 0) 7 (by decide)).2.2.2.1⟩

theorem undo_eq {σ : Type} (h : History σ) :
    h.undo = { history := h.history, index := h.index - 1 } := by
  unfold History.undo
  split
  · rfl
  · have h0 : h.index = 0 := by omega
    cases h with
    | mk S i => simp only at h0; subst h0; rfl

theorem redo_eq {σ : Type} (h : History σ) :
    h.redo = { history := h.history,
               index := if h.index + 1 < h.history.length then h.index + 1 else h.index } := by
  unfold History.redo
  by_cases hlt : h.index + 1 < h.history.length
  · have hc : (h.index : Int) < (h.history.length : Int) - 1 := by omega
    rw [if_pos hc, if_pos hlt]
  · have hc : ¬ ((h.index : Int) < (h.history.length : Int) - 1) := by omega
    rw [if_neg hc, if_neg hlt]

theorem current_eq_of_getElem? {σ : Type} [Inhabited σ] (h : History σ) (s : σ)
    (hs : h.history[h.index]? = some s) : h.current = s := by
  simp [History.current, jsGet, List.getD_eq_getElem?_getD, hs]

theorem undoN_eq {σ : Type} (h : History σ) (n : Nat) :
    h.undoN n = { history := h.history, index := h.index - n } := by
  induction n generalizing h with
  | zero => rfl
  | succ n ih =>
    rw [History.undoN, ih, undo_eq]
    simp only [History.mk.injEq, true_and]
    omega

theorem commitAll_spec {σ : Type} [Inhabited σ] (ss : List σ) (h : History σ)
    (hi : h.index < h.history.length) :
    (h.commitAll ss).index = h.index + ss.length ∧
    (h.commitAll ss).index < (h.commitAll ss).history.length ∧
    (h.commitAll ss).history.take (h.index + 1) = h.history.take (h.index + 1) := by
  induction ss generalizing h with
  | nil => exact ⟨rfl, hi, rfl⟩
  | cons s ss ih =>
    have hstep : h.commitAll (s :: ss) = (h.commit s false).commitAll ss := rfl
    have hlen : (h.history.take (h.index + 1)).length = h.index + 1 := by
      rw [List.length_take]; omega
    have hi2 : (h.commit s false).index < (h.commit s false).history.length := by
      rw [commit_false_eq]; simp [hlen]
    obtain ⟨h1, h2, h3⟩ := ih (h.commit s false) hi2
    rw [hstep]
    refine ⟨?_, h2, ?_⟩
    · rw [h1, commit_false_eq]; simp only [List.length_cons]; omega
    · have hgi : (h.commit s false).index = h.index + 1 := by rw [commit_false_eq]
      have hgh : (h.commit s false).history = h.history.take (h.index + 1) ++ [s] := by
        rw [commit_false_eq]
      have h4 := congrArg (List.take (h.index + 1)) h3
      rw [List.take_take, List.take_take, hgi, Nat.min_eq_left (by omega), hgh] at h4
      rw [h4, List.take_append_of_le_length (by omega), List.take_take, Nat.min_self]

/-- C2. From a history `(S, i)` with `i < |S|`, `commit(a, true)` followed by
`commit(b, true)` keeps the length of the history and the index, keeps every
entry other than `S[i]`, and makes `b` the current snapshot; when `i = 0` a
following `undo()` changes nothing. -/
theorem commit_overwrite_twice {σ : Type} [Inhabited σ] (h : History σ) (a b : σ)
    (hi : h.index < h.history.length) :
    ((h.commit a true).commit b true).history.length = h.history.length ∧
    ((h.commit a true).commit b true).index = h.index ∧
    (∀ j, j ≠ h.index →
      ((h.commit a true).commit b true).history[j]? = h.history[j]?) ∧
    ((h.commit a true).commit b true).current = b ∧
    (h.index = 0 →
      ((h.commit a true).commit b true).undo = (h.commit a true).commit b true) := by
  have e1 : h.commit a true = { history := h.history.set h.index a, index := h.index } :=
    commit_true_eq h a hi
  have e2 : (h.commit a true).commit b true
      = { history := h.history.set h.index b, index := h.index } := by
    rw [e1, commit_true_eq _ _ (by simpa using hi)]
    simp
  rw [e2]
  refine ⟨by simp, rfl, ?_, ?_, ?_⟩
  · intro j hj
    simp only
    rw [List.getElem?_set_ne (Ne.symm hj)]
  · apply current_eq_of_getElem?
    simp [hi]
  · intro h0
    rw [undo_eq]
    simp only [History.mk.injEq, true_and]
    omega

theorem commit_overwrite_twice_witness :
    (History.mk [10, 20, 30] 1).index < (History.mk [10, 20, 30] 1).history.length ∧
    (((History.mk [10, 20, 30] 1).commit 5 true).commit 6 true).history.length = 3 ∧
    (((History.mk [10, 20, 30] 1).commit 5 true).commit 6 true).current = 6 :=
  ⟨by decide,
   (commit_overwrite_twice (History.mk [10, 20, 30] 1) 5 6 (by decide)).1,
   (commit_overwrite_twice (History.mk [10, 20, 30] 1) 5 6 (by decide)).2.2.2.1⟩

/-- C3. Starting from the initial history of `useHistory(initialState)` (one
snapshot, index 0; the whiteboard passes the empty collection), any `n` calls
`commit(s_k, false)` followed by `n` calls `undo()` leave the index at 0 and
`current()` equal to the initial snapshot. -/
theorem commits_then_undos_roundtrip {σ : Type} [Inhabited σ] (initialState : σ)
    (ss : List σ) :
    (((useHistory initialState).commitAll ss).undoN ss.length).index = 0 ∧
    (((useHistory initialState).commitAll ss).undoN ss.length).current = initialState := by
  obtain ⟨h1, h2, h3⟩ := commitAll_spec ss (useHistory initialState) (by simp [useHistory])
  rw [undoN_eq]
  have hidx : ((useHistory initialState).commitAll ss).index - ss.length = 0 := by
    rw [h1]; simp [useHistory]
  refine ⟨hidx, ?_⟩
  apply current_eq_of_getElem?
  simp only [hidx]
  have h4 : (((useHistory initialState).commitAll ss).history.take 1)[0]? = some initialState := by
    have : (useHistory initialState).index + 1 = 1 := rfl
    rw [this] at h3
    rw [h3]; rfl
  rw [List.getElem?_take_of_lt (by omega)] at h4
  exact h4

theorem commit_undo_commit_eq {σ : Type} [Inhabited σ] (h : History σ) (a b : σ)
    (hi : h.index < h.history.length) :
    ((h.commit a false).undo).commit b false
      = { history := h.history.take (h.index + 1) ++ [b], index := h.index + 1 } := by
  have hlen : (h.history.take (h.index + 1)).length = h.index + 1 := by
    rw [List.length_take]; omega
  rw [commit_false_eq h a, undo_eq, commit_false_eq]
  simp only [Nat.add_sub_cancel]
  rw [List.take_append_of_le_length (by omega), List.take_take, Nat.min_self]

/-- C4, as stated, fails when the two snapshots are the same: from the history
`([0], 0)`, after `commit(1, false); undo(); commit(1, false); redo()` the
snapshot `1` sits at index 1, which held nothing before the calls. -/
theorem redo_same_snapshot_counterexample :
    ¬ (∀ j : Nat,
        (((((History.mk [0] 0).commit 1 false).undo).commit 1 false).redo).history[j]? = some 1 →
        (History.mk [0] 0).history[j]? = some 1) := by
  intro hall
  have h1 := hall 1 (by decide)
  revert h1
  decide

/-- C4, amended. From a history `(S, i)` with `i < |S|`, after
`commit(a, false); undo(); commit(b, false)` a call of `redo()` changes neither
the history nor the index, `current()` is `b` before and after it, and `a`
occurs in the history only at an index that already held it before the three
calls, or at index `i + 1` when `b` is `a` itself. -/
theorem redo_discard {σ : Type} [Inhabited σ] (h : History σ) (a b : σ)
    (hi : h.index < h.history.length) :
    (((h.commit a false).undo).commit b false).redo
      = ((h.commit a false).undo).commit b false ∧
    (((h.commit a false).undo).commit b false).current = b ∧
    ((((h.commit a false).undo).commit b false).redo).current = b ∧
    (∀ j, ((((h.commit a false).undo).commit b false).redo).history[j]? = some a →
      h.history[j]? = some a ∨ (j = h.index + 1 ∧ a = b)) := by
  have hlen : (h.history.take (h.index + 1)).length = h.index + 1 := by
    rw [List.length_take]; omega
  have hredo : (((h.commit a false).undo).commit b false).redo
      = ((h.commit a false).undo).commit b false := by
    rw [redo_eq, commit_undo_commit_eq h a b hi]
    simp [hlen]
  have hcur : (((h.commit a false).undo).commit b false).current = b := by
    apply current_eq_of_getElem?
    rw [commit_undo_commit_eq h a b hi]
    simp only
    rw [List.getElem?_append_right (by omega)]
    simp [hlen]
  refine ⟨hredo, hcur, by rw [hredo]; exact hcur, ?_⟩
  intro j hj
  rw [hredo, commit_undo_commit_eq h a b hi] at hj
  simp only at hj
  by_cases hjl : j < h.index + 1
  · left
    rw [List.getElem?_append_left (by omega), List.getElem?_take_of_lt hjl] at hj
    exact hj
  · right
    rw [List.getElem?_append_right (by omega), hlen] at hj
    by_cases hj0 : j - (h.index + 1) = 0
    · rw [hj0] at hj
      simp only [List.getElem?_cons_zero, Option.some.injEq] at hj
      exact ⟨by omega, hj.symm⟩
    · obtain ⟨k, hk⟩ := Nat.exists_eq_succ_of_ne_zero hj0
      rw [hk] at hj
      simp at hj

theorem redo_discard_witness :
    (History.mk [10, 20, 30] 1).index < (History.mk [10, 20, 30] 1).history.length ∧
    ((((History.mk [10, 20, 30] 1).commit 5 false).undo).commit 6 false).redo
      = (((History.mk [10, 20, 30] 1).commit 5 false).undo).commit 6 false ∧
    ((((History.mk [10, 20, 30] 1).commit 5 false).undo).commit 6 false).current = 6 :=
  ⟨by decide,
   (redo_discard (History.mk [10, 20, 30] 1) 5 6 (by decide)).1,
   (redo_discard (History.mk [10, 20, 30] 1) 5 6 (by decide)).2.1⟩

theorem step_index_lt {σ : Type} [Inhabited σ] (h : History σ) (op : HistoryOp σ)
    (hi : h.index < h.history.length) :
    (h.step op).index < (h.step op).history.length := by
  cases op with
  | commit s overwrite =>
    cases overwrite with
    | false =>
      have hlen : (h.history.take (h.index + 1)).length = h.index + 1 := by
        rw [List.length_take]; omega
      simp only [History.step]
      rw [commit_false_eq]
      simp [hlen]
    | true =>
      simp only [History.step]
      rw [commit_true_eq h s hi]
      simpa using hi
  | undo =>
    simp only [History.step]
    rw [undo_eq]
    simp only
    omega
  | redo =>
    simp only [History.step]
    rw [redo_eq]
    simp only
    split <;> omega

theorem run_index_lt {σ : Type} [Inhabited σ] (ops : List (HistoryOp σ)) (h : History σ)
    (hi : h.index < h.history.length) :
    (h.run ops).index < (h.run ops).history.length := by
  induction ops generalizing h with
  | nil => exact hi
  | cons op ops ih => exact ih (h.step op) (step_index_lt h op hi)

theorem run_append {σ : Type} [Inhabited σ] (h : History σ) (ops₁ ops₂ : List (HistoryOp σ)) :
    h.run (ops₁ ++ ops₂) = (h.run ops₁).run ops₂ := by
  simp [History.run, List.foldl_append]

theorem run_commits {σ : Type} [Inhabited σ] (ss : List σ) (h : History σ) :
    h.run (ss.map fun s => HistoryOp.commit s false) = h.commitAll ss := by
  induction ss generalizing h with
  | nil => rfl
  | cons s ss ih => exact ih (h.commit s false)

theorem run_undos {σ : Type} [Inhabited σ] (k : Nat) (h : History σ) :
    h.run (List.replicate k HistoryOp.undo) = h.undoN k := by
  induction k generalizing h with
  | zero => rfl
  | succ k ih => exact ih h.undo

theorem commitAll_at_end {σ : Type} [Inhabited σ] (ss : List σ) (h : History σ)
    (hend : h.index + 1 = h.history.length) :
    h.commitAll ss = { history := h.history ++ ss, index := h.index + ss.length } := by
  induction ss generalizing h with
  | nil => simp [History.commitAll]
  | cons s ss ih =>
    have hstep : h.commitAll (s :: ss) = (h.commit s false).commitAll ss := rfl
    have htake : h.history.take (h.index + 1) = h.history := by
      rw [hend]; exact List.take_length _
    have hc : h.commit s false = { history := h.history ++ [s], index := h.index + 1 } := by
      rw [commit_false_eq, htake]
    rw [hstep, ih (h.commit s false) (by rw [hc]; simp [hend]), hc]
    simp only [List.append_assoc, List.singleton_append, List.length_cons, History.mk.injEq,
      true_and]
    omega

/-- Every pair `(S, i)` with `i < |S|` is reached from the initial history by
calls of the store: the hypothesis `index < history.length` of the theorems on
the store singles out exactly the histories the code can be in. -/
theorem wellformed_reachable {σ : Type} [Inhabited σ] (initialState : σ) (h : History σ)
    (hi : h.index < h.history.length) :
    ∃ ops : List (HistoryOp σ), (useHistory initialState).run ops = h := by
  obtain ⟨S, i⟩ := h
  cases S with
  | nil => simp at hi
  | cons x ss =>
    simp only [List.length_cons] at hi
    refine ⟨[HistoryOp.commit x true] ++ (ss.map fun s => HistoryOp.commit s false)
      ++ List.replicate (ss.length - i) HistoryOp.undo, ?_⟩
    have h0 : (useHistory initialState).run [HistoryOp.commit x true]
        = { history := [x], index := 0 } := by
      simp [History.run, History.step, useHistory, History.commit, History.setState, jsSet]
    rw [run_append, run_append, h0, run_commits, run_undos, undoN_eq,
      commitAll_at_end ss _ (by simp)]
    simp only [List.singleton_append, Nat.zero_add, History.mk.injEq, true_and]
    omega

/-- C5. In every history reached from the initial one by any sequence of
`commit` (either mode), `undo` and `redo`, the index is below the length, so
`current()` is the entry `S[i]`; `undo()` lowers the index by one exactly when
it is positive, `redo()` raises it by one exactly when `i < n - 1`, and neither
changes the sequence of snapshots. -/
theorem reachable_index_in_range {σ : Type} [Inhabited σ] (initialState : σ)
    (ops : List (HistoryOp σ)) :
    ((useHistory initialState).run ops).index
      < ((useHistory initialState).run ops).history.length ∧
    ((useHistory initialState).run ops).history[((useHistory initialState).run ops).index]?
      = some ((useHistory initialState).run ops).current ∧
    (((useHistory initialState).run ops).undo).history
      = ((useHistory initialState).run ops).history ∧
    (((useHistory initialState).run ops).redo).history
      = ((useHistory initialState).run ops).history ∧
    (0 < ((useHistory initialState).run ops).index →
      (((useHistory initialState).run ops).undo).index + 1
        = ((useHistory initialState).run ops).index) ∧
    (((useHistory initialState).run ops).index = 0 →
      (((useHistory initialState).run ops).undo).index = 0) ∧
    (((useHistory initialState).run ops).index + 1
        < ((useHistory initialState).run ops).history.length →
      (((useHistory initialState).run ops).redo).index
        = ((useHistory initialState).run ops).index + 1) ∧
    (¬ ((useHistory initialState).run ops).index + 1
        < ((useHistory initialState).run ops).history.length →
      (((useHistory initialState).run ops).redo).index
        = ((useHistory initialState).run ops).index) := by
  have hi := run_index_lt ops (useHistory initialState) (by simp [useHistory])
  generalize (useHistory initialState).run ops = g at hi ⊢
  refine ⟨hi, ?_, ?_, ?_, ?_, ?_, ?_, ?_⟩
  · simp [History.current, jsGet, List.getD_eq_getElem?_getD, List.getElem?_eq_getElem hi]
  · rw [undo_eq]
  · rw [redo_eq]
  · intro h0; rw [undo_eq]; simp only; omega
  · intro h0; rw [undo_eq]; simp only; omega
  · intro h1; rw [redo_eq]; simp only; rw [if_pos h1]
  · intro h1; rw [redo_eq]; simp only; rw [if_neg h1]

/-! ## Hit-testing and coordinate normalisation -/

theorem nearPoint_eq {K : Type} [LinearOrderedField K] (x y cx cy : K) (name : String) :
    nearPoint x y cx cy name = if within5 x y cx cy then some name else none := by
  unfold nearPoint within5
  by_cases h1 : abs (x - cx) < 5 <;> by_cases h2 : abs (y - cy) < 5 <;> simp [h1, h2]

/-- C6. For a rectangle with `x1 ≤ x2` and `y1 ≤ y2` the hit test returns the
first of `tl`, `tr`, `bl`, `br` whose corner is strictly within 5 units of the
point on both axes, otherwise `inside` for a point of the bounding box,
otherwise nothing; on the rectangle (10,10)-(50,50) it gives `tl` at (12,12),
`inside` at (30,30) and nothing at (100,100). -/
theorem rectangle_hit_test {K : Type} [LinearOrderedField K] (sqrt : K → K) (x y : K)
    (e : Element K) (ht : e.type = "rectangle") (hx : e.x1 ≤ e.x2) (hy : e.y1 ≤ e.y2) :
    positionWithinElement sqrt x y e = .ok (specRectangleRegion x y e) ∧
    (e.x1 = 10 → e.y1 = 10 → e.x2 = 50 → e.y2 = 50 →
      positionWithinElement sqrt 12 12 e = .ok (some "tl") ∧
      positionWithinElement sqrt 30 30 e = .ok (some "inside") ∧
      positionWithinElement sqrt 100 100 e = .ok none) := by
  have hgen : ∀ x y : K,
      positionWithinElement sqrt x y e = .ok (specRectangleRegion x y e) := by
    intro x y
    have hnl : ¬ ("rectangle" = "line") := by decide
    simp only [positionWithinElement, ht, hnl, if_false, if_true, nearPoint_eq,
      specRectangleRegion, specCorners, min_eq_left hx, min_eq_left hy, max_eq_right hx,
      max_eq_right hy, List.find?, ge_iff_le]
    congr 1
    cases h1 : within5 x y e.x1 e.y1 <;> cases h2 : within5 x y e.x2 e.y1 <;>
      cases h3 : within5 x y e.x1 e.y2 <;> cases h4 : within5 x y e.x2 e.y2 <;>
      by_cases h5 : (e.x1 ≤ x ∧ x ≤ e.x2 ∧ e.y1 ≤ y ∧ y ≤ e.y2) <;>
      simp [jsOr, h5]
  refine ⟨hgen x y, ?_⟩
  intro h1 h2 h3 h4
  refine ⟨?_, ?_, ?_⟩
  · rw [hgen]
    simp only [specRectangleRegion, specCorners, min_eq_left hx, min_eq_left hy,
      max_eq_right hx, max_eq_right hy, List.find?, within5, h1, h2, h3, h4]
    norm_num
  · rw [hgen]
    simp only [specRectangleRegion, specCorners, min_eq_left hx, min_eq_left hy,
      max_eq_right hx, max_eq_right hy, List.find?, within5, h1, h2, h3, h4]
    norm_num
  · rw [hgen]
    simp only [specRectangleRegion, specCorners, min_eq_left hx, min_eq_left hy,
      max_eq_right hx, max_eq_right hy, List.find?, within5, h1, h2, h3, h4]
    norm_num

theorem rectangle_hit_test_witness :
    positionWithinElement (fun v : ℚ => v) 12 12
      { id := 0, type := "rectangle", x1 := 10, y1 := 10, x2 := 50, y2 := 50,
        points := [], text := "" } = .ok (some "tl") ∧
    positionWithinElement (fun v : ℚ => v) 30 30
      { id := 0, type := "rectangle", x1 := 10, y1 := 10, x2 := 50, y2 := 50,
        points := [], text := "" } = .ok (some "inside") ∧
    positionWithinElement (fun v : ℚ => v) 100 100
      { id := 0, type := "rectangle", x1 := 10, y1 := 10, x2 := 50, y2 := 50,
        points := [], text := "" } = .ok none :=
  (rectangle_hit_test (fun v : ℚ => v) 0 0
    { id := 0, type := "rectangle", x1 := 10, y1 := 10, x2 := 50, y2 := 50,
      points := [], text := "" } rfl (by norm_num) (by norm_num)).2 rfl rfl rfl rfl

/-- On a line or rectangle `e` whose coordinates are numbers, normalising `e`
with its coordinates replaced by `adjustElementCoordinates e` gives the same
coordinates as normalising `e`. -/
theorem adjustElement_idempotent {K : Type} [LinearOrderedField K] (e : Element K)
    (ht : e.type = "line" ∨ e.type = "rectangle") :
    adjustElementCoordinates (e.withCoordinates (adjustElementCoordinates e))
      = adjustElementCoordinates e := by
  rcases ht with ht | ht
  · have hnr : ¬ ("line" = "rectangle") := by decide
    simp only [adjustElementCoordinates, Element.withCoordinates, ht, hnr, if_false]
    by_cases h1 : e.x1 < e.x2 ∨ (e.x1 = e.x2 ∧ e.y1 < e.y2)
    · simp only [if_pos h1]
    · simp only [if_neg h1]
      by_cases h2 : e.x2 < e.x1 ∨ (e.x2 = e.x1 ∧ e.y2 < e.y1)
      · simp only [if_pos h2]
      · simp only [if_neg h2]
        have hxe : e.x1 = e.x2 := by
          rcases lt_trichotomy e.x1 e.x2 with h | h | h
          · exact absurd (Or.inl h) h1
          · exact h
          · exact absurd (Or.inl h) h2
        have hye : e.y1 = e.y2 := by
          rcases lt_trichotomy e.y1 e.y2 with h | h | h
          · exact absurd (Or.inr ⟨hxe, h⟩) h1
          · exact h
          · exact absurd (Or.inr ⟨hxe.symm, h⟩) h2
        rw [hxe, hye]
  · simp only [adjustElementCoordinates, Element.withCoordinates, ht, if_true]
    simp [min_le_max]

theorem sqrt_scale (t m : ℝ) (ht : 0 ≤ t) : Real.sqrt (t ^ 2 * m) = t * Real.sqrt m := by
  rw [Real.sqrt_mul (sq_nonneg t), Real.sqrt_sq ht]

theorem onLine_on_segment (x1 y1 x2 y2 t maxDistance : ℝ) (h0 : 0 ≤ t) (h1 : t ≤ 1)
    (hm : 0 < maxDistance) :
    onLine Real.sqrt x1 y1 x2 y2 (x1 + t * (x2 - x1)) (y1 + t * (y2 - y1)) maxDistance
      = some "inside" := by
  have hab : (x1 - x2) ^ 2 + (y1 - y2) ^ 2 = 1 ^ 2 * ((x2 - x1) ^ 2 + (y2 - y1) ^ 2) := by
    ring
  have hac : (x1 - (x1 + t * (x2 - x1))) ^ 2 + (y1 - (y1 + t * (y2 - y1))) ^ 2
      = t ^ 2 * ((x2 - x1) ^ 2 + (y2 - y1) ^ 2) := by ring
  have hbc : (x2 - (x1 + t * (x2 - x1))) ^ 2 + (y2 - (y1 + t * (y2 - y1))) ^ 2
      = (1 - t) ^ 2 * ((x2 - x1) ^ 2 + (y2 - y1) ^ 2) := by ring
  have hoff : Real.sqrt ((x1 - x2) ^ 2 + (y1 - y2) ^ 2)
      - (Real.sqrt ((x1 - (x1 + t * (x2 - x1))) ^ 2 + (y1 - (y1 + t * (y2 - y1))) ^ 2)
        + Real.sqrt ((x2 - (x1 + t * (x2 - x1))) ^ 2 + (y2 - (y1 + t * (y2 - y1))) ^ 2))
      = 0 := by
    rw [hab, hac, hbc, sqrt_scale 1 _ (by norm_num), sqrt_scale t _ h0,
      sqrt_scale (1 - t) _ (by linarith)]
    ring
  simp only [onLine, distance, hoff, abs_zero, hm, if_true]

theorem line_position_eq_spec {K : Type} [LinearOrderedField K] (sqrt : K → K) (x y : K)
    (e : Element K) (ht : e.type = "line") :
    positionWithinElement sqrt x y e = .ok (specLineRegion sqrt x y e) := by
  simp only [positionWithinElement, ht, if_true, nearPoint_eq, specLineRegion, onLine]
  congr 1
  cases h1 : within5 x y e.x1 e.y1 <;> cases h2 : within5 x y e.x2 e.y2 <;>
    by_cases h3 : abs (distance sqrt { x := e.x1, y := e.y1 } { x := e.x2, y := e.y2 }
      - (distance sqrt { x := e.x1, y := e.y1 } { x := x, y := y }
        + distance sqrt { x := e.x2, y := e.y2 } { x := x, y := y })) < 1 <;>
    simp [jsOr, h3]

theorem jsOr_inside_ne_none (a : Option String) : jsOr a (some "inside") ≠ none := by
  cases a with
  | none => simp [jsOr]
  | some s => by_cases hs : s = "" <;> simp [jsOr, hs]

/-- C7. For a line the hit test returns `start` when the point is within 5
units of `(x1, y1)` on both axes, otherwise `end` when it is within 5 units of
`(x2, y2)`, otherwise `inside` when `|dist(a,b) - (dist(a,c) + dist(b,c))| < 1`,
otherwise nothing; every point of the closed segment between the endpoints is
hit, and on the line (0,0)-(10,0) the point (5,0) reports `inside` and the point
(5,4) reports nothing. -/
theorem line_hit_test (x y : ℝ) (e : Element ℝ) (ht : e.type = "line") :
    positionWithinElement Real.sqrt x y e = .ok (specLineRegion Real.sqrt x y e) ∧
    (∀ t : ℝ, 0 ≤ t → t ≤ 1 →
      positionWithinElement Real.sqrt (e.x1 + t * (e.x2 - e.x1)) (e.y1 + t * (e.y2 - e.y1)) e
        ≠ .ok none) ∧
    (e.x1 = 0 → e.y1 = 0 → e.x2 = 10 → e.y2 = 0 →
      positionWithinElement Real.sqrt 5 0 e = .ok (some "inside") ∧
      positionWithinElement Real.sqrt 5 4 e = .ok none) := by
  refine ⟨line_position_eq_spec Real.sqrt x y e ht, ?_, ?_⟩
  · intro t h0 h1
    simp only [positionWithinElement, ht, if_true,
      onLine_on_segment e.x1 e.y1 e.x2 e.y2 t 1 h0 h1 one_pos]
    intro hc
    exact jsOr_inside_ne_none _ (Except.ok.inj hc)
  · intro hx1 hy1 hx2 hy2
    have h100 : Real.sqrt 100 = 10 := by
      rw [show (100 : ℝ) = 10 ^ 2 by norm_num]
      exact Real.sqrt_sq (by norm_num)
    have h25 : Real.sqrt 25 = 5 := by
      rw [show (25 : ℝ) = 5 ^ 2 by norm_num]
      exact Real.sqrt_sq (by norm_num)
    have h41 : (6 : ℝ) ≤ Real.sqrt 41 := by
      rw [show (6 : ℝ) = Real.sqrt (6 ^ 2) from (Real.sqrt_sq (by norm_num)).symm]
      exact Real.sqrt_le_sqrt (by norm_num)
    refine ⟨?_, ?_⟩
    · rw [line_position_eq_spec Real.sqrt 5 0 e ht]
      simp only [specLineRegion, within5, distance, hx1, hy1, hx2, hy2]
      norm_num [h100, h25]
    · rw [line_position_eq_spec Real.sqrt 5 4 e ht]
      simp only [specLineRegion, within5, distance, hx1, hy1, hx2, hy2]
      norm_num [h100]
      intro habs
      exfalso
      have hlt := (abs_lt.mp habs).1
      linarith

theorem line_hit_test_witness :
    positionWithinElement Real.sqrt 5 0 (Element.mk 0 "line" (0 : ℝ) 0 10 0 [] "")
      = .ok (some "inside") ∧
    positionWithinElement Real.sqrt 5 4 (Element.mk 0 "line" (0 : ℝ) 0 10 0 [] "")
      = .ok none :=
  (line_hit_test 0 0 (Element.mk 0 "line" (0 : ℝ) 0 10 0 [] "") rfl).2.2 rfl rfl rfl rfl

theorem position_ok_of_known {K : Type} [LinearOrderedField K] (sqrt : K → K) (x y : K)
    (e : Element K)
    (hk : e.type = "line" ∨ e.type = "rectangle" ∨ e.type = "pencil" ∨ e.type = "text") :
    ∃ p, positionWithinElement sqrt x y e = .ok p := by
  have h1 : ¬ ("rectangle" = "line") := by decide
  have h2 : ¬ ("pencil" = "line") := by decide
  have h3 : ¬ ("pencil" = "rectangle") := by decide
  have h4 : ¬ ("text" = "line") := by decide
  have h5 : ¬ ("text" = "rectangle") := by decide
  have h6 : ¬ ("text" = "pencil") := by decide
  cases hres : positionWithinElement sqrt x y e with
  | ok p => exact ⟨p, rfl⟩
  | error err =>
    exfalso
    rcases hk with hk | hk | hk | hk
    · simp only [positionWithinElement, hk, if_true] at hres
      cases hres
    · simp only [positionWithinElement, hk, h1, if_false, if_true] at hres
      cases hres
    · simp only [positionWithinElement, hk, h2, h3, if_false, if_true] at hres
      cases hres
    · simp only [positionWithinElement, hk, h4, h5, h6, if_false, if_true] at hres
      cases hres

theorem mapPositions_find_spec {K : Type} [LinearOrderedField K] (sqrt : K → K) (x y : K)
    (elements : List (Element K))
    (hk : ∀ e ∈ elements,
      e.type = "line" ∨ e.type = "rectangle" ∨ e.type = "pencil" ∨ e.type = "text") :
    ∃ mapped, mapPositions sqrt x y elements = .ok mapped ∧
      ((mapped.find? fun pe => pe.position.isSome) = none ↔
        ∀ e ∈ elements, positionWithinElement sqrt x y e = .ok none) ∧
      (∀ pe, (mapped.find? fun pe => pe.position.isSome) = some pe →
        ∃ i : Nat, elements[i]? = some pe.element ∧ pe.position ≠ none ∧
          positionWithinElement sqrt x y pe.element = .ok pe.position ∧
          ∀ j : Nat, j < i → ∀ e, elements[j]? = some e →
            positionWithinElement sqrt x y e = .ok none) := by
  induction elements with
  | nil =>
    refine ⟨[], rfl, ?_, ?_⟩
    · simp
    · intro pe hpe; simp at hpe
  | cons e rest ih =>
    obtain ⟨p, hp⟩ := position_ok_of_known sqrt x y e (hk e (List.mem_cons_self _ _))
    obtain ⟨mapped, hm, hnone, hsome⟩ := ih (fun e' he' => hk e' (List.mem_cons_of_mem _ he'))
    refine ⟨{ element := e, position := p } :: mapped, ?_, ?_, ?_⟩
    · simp only [mapPositions, hp, hm]
    · cases p with
      | none =>
        simp only [List.find?, Option.isSome_none, List.mem_cons, forall_eq_or_imp, hp,
          true_and]
        exact hnone
      | some region =>
        simp only [List.find?, Option.isSome_some, List.mem_cons, forall_eq_or_imp, hp]
        simp
    · intro pe hpe
      cases p with
      | none =>
        simp only [List.find?, Option.isSome_none] at hpe
        obtain ⟨i, h1, h2, h3, h4⟩ := hsome pe hpe
        refine ⟨i + 1, by simpa using h1, h2, h3, ?_⟩
        intro j hj e' he'
        cases j with
        | zero =>
          simp only [List.getElem?_cons_zero, Option.some.injEq] at he'
          rw [← he']; exact hp
        | succ j =>
          simp only [List.getElem?_cons_succ] at he'
          exact h4 j (by omega) e' he'
      | some region =>
        simp only [List.find?, Option.isSome_some, Option.some.injEq] at hpe
        subst hpe
        refine ⟨0, by simp, by simp, hp, ?_⟩
        intro j hj
        omega

/-- C8. For a collection whose elements all have a known variant,
`getElementAtPosition` returns the element of smallest index whose hit test
gives a region, together with that region, and returns nothing exactly when
the hit test gives nothing for every element of the collection. -/
theorem element_at_first_match {K : Type} [LinearOrderedField K] (sqrt : K → K) (x y : K)
    (elements : List (Element K))
    (hk : ∀ e ∈ elements,
      e.type = "line" ∨ e.type = "rectangle" ∨ e.type = "pencil" ∨ e.type = "text") :
    ∃ r, getElementAtPosition sqrt x y elements = .ok r ∧
      (r = none ↔ ∀ e ∈ elements, positionWithinElement sqrt x y e = .ok none) ∧
      (∀ pe, r = some pe →
        ∃ i : Nat, elements[i]? = some pe.element ∧ pe.position ≠ none ∧
          positionWithinElement sqrt x y pe.element = .ok pe.position ∧
          ∀ j : Nat, j < i → ∀ e, elements[j]? = some e →
            positionWithinElement sqrt x y e = .ok none) := by
  obtain ⟨mapped, hm, hnone, hsome⟩ := mapPositions_find_spec sqrt x y elements hk
  exact ⟨mapped.find? fun pe => pe.position.isSome,
    by simp only [getElementAtPosition, hm], hnone, hsome⟩

theorem element_at_first_match_witness :
    ∃ r, getElementAtPosition (fun v : ℚ => v) 30 30
        [Element.mk 0 "rectangle" 100 100 200 200 [] "",
         Element.mk 1 "rectangle" 10 10 50 50 [] "",
         Element.mk 2 "text" 20 20 40 44 [] "note"] = .ok r ∧
      (r = none ↔ ∀ e ∈ [Element.mk 0 "rectangle" (100 : ℚ) 100 200 200 [] "",
          Element.mk 1 "rectangle" 10 10 50 50 [] "",
          Element.mk 2 "text" 20 20 40 44 [] "note"],
        positionWithinElement (fun v : ℚ => v) 30 30 e = .ok none) ∧
      (∀ pe, r = some pe →
        ∃ i : Nat, [Element.mk 0 "rectangle" (100 : ℚ) 100 200 200 [] "",
            Element.mk 1 "rectangle" 10 10 50 50 [] "",
            Element.mk 2 "text" 20 20 40 44 [] "note"][i]? = some pe.element ∧
          pe.position ≠ none ∧
          positionWithinElement (fun v : ℚ => v) 30 30 pe.element = .ok pe.position ∧
          ∀ j : Nat, j < i → ∀ e, [Element.mk 0 "rectangle" (100 : ℚ) 100 200 200 [] "",
              Element.mk 1 "rectangle" 10 10 50 50 [] "",
              Element.mk 2 "text" 20 20 40 44 [] "note"][j]? = some e →
            positionWithinElement (fun v : ℚ => v) 30 30 e = .ok none) :=
  element_at_first_match (fun v : ℚ => v) 30 30
    [Element.mk 0 "rectangle" 100 100 200 200 [] "",
     Element.mk 1 "rectangle" 10 10 50 50 [] "",
     Element.mk 2 "text" 20 20 40 44 [] "note"]
    (by
      intro e he
      simp only [List.mem_cons, List.mem_singleton, List.not_mem_nil, or_false] at he
      rcases he with rfl | rfl | rfl
      · exact Or.inr (Or.inl rfl)
      · exact Or.inr (Or.inl rfl)
      · exact Or.inr (Or.inr (Or.inr rfl)))

theorem onLine_isSome_iff {K : Type} [LinearOrderedField K] (sqrt : K → K)
    (x1 y1 x2 y2 x y maxDistance : K) :
    (onLine sqrt x1 y1 x2 y2 x y maxDistance).isSome = true ↔
      abs (distance sqrt { x := x1, y := y1 } { x := x2, y := y2 }
        - (distance sqrt { x := x1, y := y1 } { x := x, y := y }
          + distance sqrt { x := x2, y := y2 } { x := x, y := y })) < maxDistance := by
  simp only [onLine]
  split <;> simp_all

theorem betweenAnyPoint_iff {K : Type} [LinearOrderedField K] (sqrt : K → K) (x y : K)
    (points : List (Point K)) :
    (points.enum.any fun (index, point) =>
      match points.get? (index + 1) with
      | none => false
      | some nextPoint =>
        (onLine sqrt point.x point.y nextPoint.x nextPoint.y x y 5).isSome) = true ↔
    ∃ (i : Nat) (p q : Point K), points[i]? = some p ∧ points[i + 1]? = some q ∧
      abs (distance sqrt p q
        - (distance sqrt p { x := x, y := y } + distance sqrt q { x := x, y := y })) < 5 := by
  rw [List.any_eq_true]
  constructor
  · rintro ⟨⟨i, p⟩, hmem, hpq⟩
    rw [List.mk_mem_enum_iff_getElem?] at hmem
    simp only at hpq
    cases hq : points.get? (i + 1) with
    | none => rw [hq] at hpq; simp at hpq
    | some q =>
      rw [hq] at hpq
      simp only at hpq
      rw [onLine_isSome_iff] at hpq
      exact ⟨i, p, q, hmem, by simpa using hq, hpq⟩
  · rintro ⟨i, p, q, hp, hq, habs⟩
    refine ⟨(i, p), List.mk_mem_enum_iff_getElem?.mpr hp, ?_⟩
    have hq2 : points.get? (i + 1) = some q := by simpa using hq
    simp only [hq2]
    rw [onLine_isSome_iff]
    exact habs

/-- C9. For a pencil stroke the hit test returns `inside` exactly when some
pair of consecutive stroke points `p`, `q` has
`|dist(p,q) - (dist(p,c) + dist(q,c))| < 5` and nothing otherwise; it returns
no handle region, and a stroke of a single point is hit by no point. -/
theorem pencil_hit_test {K : Type} [LinearOrderedField K] (sqrt : K → K) (x y : K)
    (e : Element K) (ht : e.type = "pencil") :
    (positionWithinElement sqrt x y e = .ok (some "inside") ∨
      positionWithinElement sqrt x y e = .ok none) ∧
    (positionWithinElement sqrt x y e = .ok (some "inside") ↔
      ∃ (i : Nat) (p q : Point K), e.points[i]? = some p ∧ e.points[i + 1]? = some q ∧
        abs (distance sqrt p q
          - (distance sqrt p { x := x, y := y } + distance sqrt q { x := x, y := y })) < 5) ∧
    (∀ p, e.points = [p] → ∀ cx cy : K, positionWithinElement sqrt cx cy e = .ok none) := by
  have h2 : ¬ ("pencil" = "line") := by decide
  have h3 : ¬ ("pencil" = "rectangle") := by decide
  have hpos : ∀ cx cy : K, positionWithinElement sqrt cx cy e
      = .ok (if (e.points.enum.any fun (index, point) =>
          match e.points.get? (index + 1) with
          | none => false
          | some nextPoint =>
            (onLine sqrt point.x point.y nextPoint.x nextPoint.y cx cy 5).isSome) = true
        then some "inside" else none) := by
    intro cx cy
    simp only [positionWithinElement, ht, h2, h3, if_false, if_true]
  refine ⟨?_, ?_, ?_⟩
  · rw [hpos]
    split
    · exact Or.inl rfl
    · exact Or.inr rfl
  · rw [hpos, ← betweenAnyPoint_iff]
    split <;> simp_all
  · intro p hp cx cy
    rw [hpos, if_neg]
    rw [betweenAnyPoint_iff, hp]
    rintro ⟨i, p', q, h1, h2', -⟩
    cases i with
    | zero => simp at h2'
    | succ i => simp at h2'

theorem pencil_hit_test_witness :
    positionWithinElement (fun v : ℚ => v) 4 3
      (Element.mk 0 "pencil" 0 0 0 0 [{ x := 7, y := 7 }] "") = .ok none :=
  (pencil_hit_test (fun v : ℚ => v) 0 0
    (Element.mk 0 "pencil" 0 0 0 0 [{ x := 7, y := 7 }] "") rfl).2.2
      { x := 7, y := 7 } rfl 4 3

/-! ## Normalisation, resizing and the element factory -/

/-- On numbers: for a rectangle `adjustElementCoordinates` returns
`(min(x1,x2), min(y1,y2), max(x1,x2), max(y1,y2))`; for a line it returns the two
endpoints unchanged, or swapped as whole points when `x1 > x2` or
(`x1 = x2` and `y1 > y2`); the result has `x1 ≤ x2`, with `y1 ≤ y2` for a
rectangle and, for a line, whenever the resulting `x1` equals `x2`. -/
theorem adjustElement_spec {K : Type} [LinearOrderedField K] (e : Element K) :
    (e.type = "rectangle" →
      adjustElementCoordinates e
        = { x1 := min e.x1 e.x2, y1 := min e.y1 e.y2,
            x2 := max e.x1 e.x2, y2 := max e.y1 e.y2 } ∧
      (adjustElementCoordinates e).x1 ≤ (adjustElementCoordinates e).x2 ∧
      (adjustElementCoordinates e).y1 ≤ (adjustElementCoordinates e).y2) ∧
    (e.type = "line" →
      adjustElementCoordinates e
        = (if e.x1 > e.x2 ∨ (e.x1 = e.x2 ∧ e.y1 > e.y2) then
            { x1 := e.x2, y1 := e.y2, x2 := e.x1, y2 := e.y1 }
          else { x1 := e.x1, y1 := e.y1, x2 := e.x2, y2 := e.y2 }) ∧
      (adjustElementCoordinates e).x1 ≤ (adjustElementCoordinates e).x2 ∧
      ((adjustElementCoordinates e).x1 = (adjustElementCoordinates e).x2 →
        (adjustElementCoordinates e).y1 ≤ (adjustElementCoordinates e).y2)) := by
  constructor
  · intro ht
    simp only [adjustElementCoordinates, ht, if_true]
    exact ⟨trivial, min_le_max, min_le_max⟩
  · intro ht
    have hnr : ¬ ("line" = "rectangle") := by decide
    simp only [adjustElementCoordinates, ht, hnr, if_false]
    by_cases h1 : e.x1 < e.x2 ∨ (e.x1 = e.x2 ∧ e.y1 < e.y2)
    · have h2 : ¬ (e.x1 > e.x2 ∨ (e.x1 = e.x2 ∧ e.y1 > e.y2)) := by
        rintro (h | ⟨h, h'⟩)
        · rcases h1 with h1 | ⟨h1, -⟩
          · exact absurd h (not_lt.mpr h1.le)
          · exact absurd h (by rw [h1]; exact lt_irrefl _)
        · rcases h1 with h1 | ⟨-, h1⟩
          · exact absurd h1 (by rw [h]; exact lt_irrefl _)
          · exact absurd h' (not_lt.mpr h1.le)
      rw [if_pos h1, if_neg h2]
      refine ⟨rfl, ?_, ?_⟩
      · rcases h1 with h1 | ⟨h1, -⟩
        · exact h1.le
        · exact h1.le
      · intro hx
        rcases h1 with h1 | ⟨-, h1⟩
        · exact absurd hx h1.ne
        · exact h1.le
    · rw [if_neg h1]
      have hx : e.x2 ≤ e.x1 := not_lt.mp fun h => h1 (Or.inl h)
      have hy : e.x1 = e.x2 → e.y2 ≤ e.y1 := fun h => not_lt.mp fun h' => h1 (Or.inr ⟨h, h'⟩)
      refine ⟨?_, hx, fun h => hy h.symm⟩
      by_cases h2 : e.x1 > e.x2 ∨ (e.x1 = e.x2 ∧ e.y1 > e.y2)
      · rw [if_pos h2]
      · rw [if_neg h2]
        have hxe : e.x1 = e.x2 := le_antisymm (not_lt.mp fun h => h2 (Or.inl h)) hx
        have hye : e.y1 = e.y2 :=
          le_antisymm (not_lt.mp fun h => h2 (Or.inr ⟨hxe, h⟩)) (hy hxe)
        rw [hxe, hye]

/-- C12, as stated, fails: for the handle `inside` the function
`resizedCoordinates` returns `null` (here `none`); it has no failing outcome. -/
theorem resized_inside_counterexample :
    resizedCoordinates (3 : ℚ) 3 "inside" { x1 := 0, y1 := 0, x2 := 10, y2 := 10 } = none := by
  decide

/-- C12, amended. For every handle name that is not one of `tl`, `tr`, `bl`,
`br`, `start`, `end`, the function `resizedCoordinates` returns `null` instead of
coordinates. -/
theorem resized_other_handle_null {V : Type} (clientX clientY : V) (position : String)
    (coordinates : Coordinates V)
    (hp : position ≠ "tl" ∧ position ≠ "tr" ∧ position ≠ "bl" ∧ position ≠ "br" ∧
      position ≠ "start" ∧ position ≠ "end") :
    resizedCoordinates clientX clientY position coordinates = none := by
  obtain ⟨h1, h2, h3, h4, h5, h6⟩ := hp
  simp [resizedCoordinates, h1, h2, h3, h4, h5, h6]

theorem resized_other_handle_null_witness :
    resizedCoordinates (3 : ℚ) 4 "inside" { x1 := 0, y1 := 0, x2 := 10, y2 := 10 } = none :=
  resized_other_handle_null (3 : ℚ) 4 "inside" { x1 := 0, y1 := 0, x2 := 10, y2 := 10 }
    (by decide)

/-- C13. For every pointer position `(px, py)` and coordinates
`(x1, y1, x2, y2)`, `resizedCoordinates` puts the pointer in exactly two
coordinates and keeps the other two: `tl` and `start` set `(x1, y1)`, `tr` sets
`y1` and `x2`, `bl` sets `x1` and `y2`, `br` and `end` set `(x2, y2)`. -/
theorem resized_coordinates_frame {V : Type} (px py : V) (c : Coordinates V) :
    resizedCoordinates px py "tl" c = some { x1 := px, y1 := py, x2 := c.x2, y2 := c.y2 } ∧
    resizedCoordinates px py "start" c
      = some { x1 := px, y1 := py, x2 := c.x2, y2 := c.y2 } ∧
    resizedCoordinates px py "tr" c = some { x1 := c.x1, y1 := py, x2 := px, y2 := c.y2 } ∧
    resizedCoordinates px py "bl" c = some { x1 := px, y1 := c.y1, x2 := c.x2, y2 := py } ∧
    resizedCoordinates px py "br" c = some { x1 := c.x1, y1 := c.y1, x2 := px, y2 := py } ∧
    resizedCoordinates px py "end" c
      = some { x1 := c.x1, y1 := c.y1, x2 := px, y2 := py } := by
  have h1 : ¬ ("tr" = "tl" ∨ "tr" = "start") := by decide
  have h2 : ¬ ("bl" = "tl" ∨ "bl" = "start") := by decide
  have h3 : ¬ ("bl" = "tr") := by decide
  have h4 : ¬ ("br" = "tl" ∨ "br" = "start") := by decide
  have h5 : ¬ ("br" = "tr") := by decide
  have h6 : ¬ ("br" = "bl") := by decide
  have h7 : ¬ ("end" = "tl" ∨ "end" = "start") := by decide
  have h8 : ¬ ("end" = "tr") := by decide
  have h9 : ¬ ("end" = "bl") := by decide
  refine ⟨?_, ?_, ?_, ?_, ?_, ?_⟩
  · simp only [resizedCoordinates, true_or, if_true]
  · simp only [resizedCoordinates, or_true, if_true]
  · simp only [resizedCoordinates, h1, if_false, if_true]
  · simp only [resizedCoordinates, h2, h3, if_false, if_true]
  · simp only [resizedCoordinates, h4, h5, h6, if_false, true_or, if_true]
  · simp only [resizedCoordinates, h7, h8, h9, if_false, or_true, if_true]

theorem resizeThenAdjust_br {K : Type} [LinearOrderedField K] (px py : K) (e : Element K)
    (ht : e.type = "rectangle") :
    resizeThenAdjust px py "br" e
      = some { x1 := min e.x1 px, y1 := min e.y1 py, x2 := max e.x1 px, y2 := max e.y1 py } := by
  have h4 : ¬ ("br" = "tl" ∨ "br" = "start") := by decide
  have h5 : ¬ ("br" = "tr") := by decide
  have h6 : ¬ ("br" = "bl") := by decide
  simp only [resizeThenAdjust, resizedCoordinates, h4, h5, h6, if_false, true_or, if_true,
    Option.map_some', adjustElementCoordinates, Element.withCoordinates, ht]

/-- C14, as stated, fails: resizing the rectangle (0,0)-(10,10) with handle
`br` to (-5,-5) and normalising does not give (-5,-5)-(0,10). -/
theorem resize_br_inverted_counterexample :
    resizeThenAdjust (-5 : ℚ) (-5) "br" (Element.mk 0 "rectangle" 0 0 10 10 [] "")
      ≠ some { x1 := -5, y1 := -5, x2 := 0, y2 := 10 } := by
  rw [resizeThenAdjust_br _ _ _ rfl]
  norm_num

/-- C14, amended. For the rectangle (0,0)-(10,10), resizing with handle `br` by
dragging to (-5,-5) and then normalising on pointer-up yields the coordinates
(-5,-5)-(0,0): the handle moves both `x2` and `y2`. -/
theorem resize_br_inverted {K : Type} [LinearOrderedField K] (id : Nat)
    (points : List (Point K)) (text : String) :
    resizeThenAdjust (-5 : K) (-5) "br" (Element.mk id "rectangle" 0 0 10 10 points text)
      = some { x1 := -5, y1 := -5, x2 := 0, y2 := 0 } := by
  rw [resizeThenAdjust_br _ _ _ rfl]
  norm_num

/-- C15. For a rectangle with `x1 ≤ x2` and `y1 ≤ y2` and a drag target
`(px, py)` with `px ≥ x1` and `py ≥ y1`, resizing with handle `br` and then
normalising returns the resized coordinates `(x1, y1, px, py)` themselves; for
(0,0)-(10,10) dragged to (3,3) the result is (0,0)-(3,3). -/
theorem resize_br_no_inversion {K : Type} [LinearOrderedField K] (px py : K) (e : Element K)
    (ht : e.type = "rectangle") (_hx : e.x1 ≤ e.x2) (_hy : e.y1 ≤ e.y2)
    (hpx : px ≥ e.x1) (hpy : py ≥ e.y1) :
    resizedCoordinates px py "br" { x1 := e.x1, y1 := e.y1, x2 := e.x2, y2 := e.y2 }
      = some { x1 := e.x1, y1 := e.y1, x2 := px, y2 := py } ∧
    resizeThenAdjust px py "br" e = some { x1 := e.x1, y1 := e.y1, x2 := px, y2 := py } ∧
    (e.x1 = 0 → e.y1 = 0 → e.x2 = 10 → e.y2 = 10 →
      resizeThenAdjust 3 3 "br" e = some { x1 := 0, y1 := 0, x2 := 3, y2 := 3 }) := by
  have h4 : ¬ ("br" = "tl" ∨ "br" = "start") := by decide
  have h5 : ¬ ("br" = "tr") := by decide
  have h6 : ¬ ("br" = "bl") := by decide
  refine ⟨?_, ?_, ?_⟩
  · simp only [resizedCoordinates, h4, h5, h6, if_false, true_or, if_true]
  · rw [resizeThenAdjust_br _ _ _ ht, min_eq_left hpx, min_eq_left hpy, max_eq_right hpx,
      max_eq_right hpy]
  · intro h1 h2 _ _
    rw [resizeThenAdjust_br _ _ _ ht, h1, h2]
    norm_num

theorem resize_br_no_inversion_witness :
    resizeThenAdjust (3 : ℚ) 3 "br" (Element.mk 0 "rectangle" 0 0 10 10 [] "")
      = some { x1 := 0, y1 := 0, x2 := 3, y2 := 3 } :=
  (resize_br_no_inversion (3 : ℚ) 3 (Element.mk 0 "rectangle" 0 0 10 10 [] "") rfl
    (by norm_num) (by norm_num) (by norm_num) (by norm_num)).2.1

theorem createElement_cases {K : Type} (id : Option Nat) (x1 y1 x2 y2 : JsNum K)
    (type : String) :
    (type = "line" ∨ type = "rectangle" ∨ type = "pencil" ∨ type = "text" →
      ∃ o : Obj K, createElement id x1 y1 x2 y2 type = .ok o ∧ o.id = id ∧
        o.type = some type) ∧
    (¬ (type = "line" ∨ type = "rectangle" ∨ type = "pencil" ∨ type = "text") →
      createElement id x1 y1 x2 y2 type = .error ("Tipo não reconhecido: " ++ type)) := by
  by_cases h1 : type = "line"
  · subst h1
    have hc : createElement id x1 y1 x2 y2 "line"
        = .ok { id := id, x1 := x1, y1 := y1, x2 := x2, y2 := y2, type := some "line" } := by
      simp only [createElement, true_or, if_true]
    exact ⟨fun _ => ⟨_, hc, rfl, rfl⟩, fun hn => absurd (Or.inl rfl) hn⟩
  by_cases h2 : type = "rectangle"
  · subst h2
    have hc : createElement id x1 y1 x2 y2 "rectangle"
        = .ok { id := id, x1 := x1, y1 := y1, x2 := x2, y2 := y2,
                type := some "rectangle" } := by
      simp only [createElement, or_true, if_true]
    exact ⟨fun _ => ⟨_, hc, rfl, rfl⟩, fun hn => absurd (Or.inr (Or.inl rfl)) hn⟩
  by_cases h3 : type = "pencil"
  · subst h3
    have hc : createElement id x1 y1 x2 y2 "pencil"
        = .ok { id := id, type := some "pencil", points := some [{ x := x1, y := y1 }] } := by
      simp only [createElement, h1, h2, or_self, if_false, if_true]
    exact ⟨fun _ => ⟨_, hc, rfl, rfl⟩, fun hn => absurd (Or.inr (Or.inr (Or.inl rfl))) hn⟩
  by_cases h4 : type = "text"
  · subst h4
    have hc : createElement id x1 y1 x2 y2 "text"
        = .ok { id := id, type := some "text", x1 := x1, y1 := y1, x2 := x2, y2 := y2,
                text := some "" } := by
      simp only [createElement, h1, h2, h3, or_self, if_false, if_true]
    exact ⟨fun _ => ⟨_, hc, rfl, rfl⟩, fun hn => absurd (Or.inr (Or.inr (Or.inr rfl))) hn⟩
  refine ⟨fun hk => ?_, fun _ => ?_⟩
  · rcases hk with h | h | h | h
    · exact absurd h h1
    · exact absurd h h2
    · exact absurd h h3
    · exact absurd h h4
  · simp only [createElement, h1, h2, h3, h4, or_self, if_false]

theorem position_error_of_unknown {K : Type} [LinearOrderedField K] (sqrt : K → K) (x y : K)
    (e : Element K)
    (hn : ¬ (e.type = "line" ∨ e.type = "rectangle" ∨ e.type = "pencil" ∨ e.type = "text")) :
    positionWithinElement sqrt x y e = .error ("Type not recognised: " ++ e.type) := by
  have h1 : ¬ e.type = "line" := fun h => hn (Or.inl h)
  have h2 : ¬ e.type = "rectangle" := fun h => hn (Or.inr (Or.inl h))
  have h3 : ¬ e.type = "pencil" := fun h => hn (Or.inr (Or.inr (Or.inl h)))
  have h4 : ¬ e.type = "text" := fun h => hn (Or.inr (Or.inr (Or.inr h)))
  simp only [positionWithinElement, h1, h2, h3, h4, if_false]

/-- C17. The functions `createElement` and `positionWithinElement` throw the
unrecognised-type error exactly when the variant is not one of `line`,
`rectangle`, `pencil`, `text`; for each of the four variants and all
coordinates they return a value. -/
theorem unrecognised_type_iff {K : Type} [LinearOrderedField K] :
    (∀ (id : Option Nat) (x1 y1 x2 y2 : JsNum K) (type : String),
      ((∃ msg, createElement id x1 y1 x2 y2 type = .error msg) ↔
        ¬ (type = "line" ∨ type = "rectangle" ∨ type = "pencil" ∨ type = "text")) ∧
      ((∃ o, createElement id x1 y1 x2 y2 type = .ok o) ↔
        (type = "line" ∨ type = "rectangle" ∨ type = "pencil" ∨ type = "text")) ∧
      (¬ (type = "line" ∨ type = "rectangle" ∨ type = "pencil" ∨ type = "text") →
        createElement id x1 y1 x2 y2 type = .error ("Tipo não reconhecido: " ++ type))) ∧
    (∀ (sqrt : K → K) (x y : K) (e : Element K),
      ((∃ msg, positionWithinElement sqrt x y e = .error msg) ↔
        ¬ (e.type = "line" ∨ e.type = "rectangle" ∨ e.type = "pencil" ∨ e.type = "text")) ∧
      ((∃ p, positionWithinElement sqrt x y e = .ok p) ↔
        (e.type = "line" ∨ e.type = "rectangle" ∨ e.type = "pencil" ∨ e.type = "text")) ∧
      (¬ (e.type = "line" ∨ e.type = "rectangle" ∨ e.type = "pencil" ∨ e.type = "text") →
        positionWithinElement sqrt x y e = .error ("Type not recognised: " ++ e.type))) := by
  constructor
  · intro id x1 y1 x2 y2 type
    obtain ⟨hk, hu⟩ := createElement_cases id x1 y1 x2 y2 type
    refine ⟨⟨?_, fun hn => ⟨_, hu hn⟩⟩, ⟨?_, fun h => ?_⟩, hu⟩
    · rintro ⟨msg, hmsg⟩ hkn
      obtain ⟨o, ho, -⟩ := hk hkn
      rw [ho] at hmsg
      cases hmsg
    · rintro ⟨o, ho⟩
      by_contra hn
      rw [hu hn] at ho
      cases ho
    · obtain ⟨o, ho, -⟩ := hk h
      exact ⟨o, ho⟩
  · intro sqrt x y e
    refine ⟨⟨?_, fun hn => ⟨_, position_error_of_unknown sqrt x y e hn⟩⟩, ⟨?_, fun h => ?_⟩,
      position_error_of_unknown sqrt x y e⟩
    · rintro ⟨msg, hmsg⟩ hkn
      obtain ⟨p, hp⟩ := position_ok_of_known sqrt x y e hkn
      rw [hp] at hmsg
      cases hmsg
    · rintro ⟨p, hp⟩
      by_contra hn
      rw [position_error_of_unknown sqrt x y e hn] at hp
      cases hp
    · exact position_ok_of_known sqrt x y e h

/-! ## The component: event sequences -/

theorem run_append_events {K : Type} [LinearOrderedField K] (sqrt : K → K)
    (measureText : String → K) (s : MuralState K) (xs ys : List (Event K)) :
    s.run sqrt measureText (xs ++ ys) = (s.run sqrt measureText xs).run sqrt measureText ys := by
  simp [MuralState.run, List.foldl_append]

theorem undoWhileDrawing_state (measureText : String → ℝ) :
    MuralState.initial.run Real.sqrt measureText undoWhileDrawing
      = { heap := [{ id := some 0, type := some "pencil",
                     points := some [{ x := .num 10, y := .num 10 },
                                     { x := .num 20, y := .num 10 }] },
                   { id := some 1, type := some "pencil",
                     points := some [{ x := .num 50, y := .num 50 }] }],
          store := { history := [[], [.ref 0], [.ref 0, .ref 1]], index := 1 },
          action := "drawing", tool := "pencil",
          selectedElement := some
            { obj := { id := some 1, type := some "pencil",
                       points := some [{ x := .num 50, y := .num 50 }] } } } := by
  simp [undoWhileDrawing, mouseAt, MuralState.run, MuralState.step, settle, handleToolClick,
    handleMouseDown, handleMouseMove, handleMouseUp, MuralState.initial, createElement,
    updateElement, MuralState.elements, History.current, History.setState, History.undo,
    useHistory, jsGet, jsSet, jsSlice0, spread, deref, setSlot, adjustmentRequired, jsStrictEq,
    jsSub, JsNum.toNumber]

theorem undoWhileDrawing_move (measureText : String → ℝ) :
    (MuralState.initial.run Real.sqrt measureText undoWhileDrawing).step Real.sqrt measureText
        (.mouseMove (mouseAt 60 50))
      = { heap := [{ id := some 0, type := some "pencil",
                     points := some [{ x := .num 10, y := .num 10 },
                                     { x := .num 20, y := .num 10 },
                                     { x := .num 60, y := .num 50 }] },
                   { id := some 1, type := some "pencil",
                     points := some [{ x := .num 50, y := .num 50 }] }],
          store := { history := [[], [.ref 0], [.ref 0, .ref 1]], index := 1 },
          action := "drawing", tool := "pencil",
          selectedElement := some
            { obj := { id := some 1, type := some "pencil",
                       points := some [{ x := .num 50, y := .num 50 }] } } } := by
  rw [undoWhileDrawing_state]
  simp [MuralState.step, settle, handleMouseMove, mouseAt, MuralState.elements,
    History.current, jsGet, jsSet, History.setState, spread, setSlot, deref, updateElement]

/-- C19, the failing input. After a first stroke is drawn and a second one is
started, `undo` is pressed with the button down; the next pointer-move, in
state `drawing`, leaves the length of the history and the index (1) as they are
but appends its point to the first stroke object, which the snapshot at
index 2 holds too: that snapshot, not the current one, shows a different
stroke after the move. -/
theorem undo_while_drawing_changes_other_snapshot (measureText : String → ℝ) :
    (MuralState.initial.run Real.sqrt measureText undoWhileDrawing).action = "drawing" ∧
    (MuralState.initial.run Real.sqrt measureText undoWhileDrawing).store.index = 1 ∧
    ((MuralState.initial.run Real.sqrt measureText undoWhileDrawing).step Real.sqrt
        measureText (.mouseMove (mouseAt 60 50))).store
      = (MuralState.initial.run Real.sqrt measureText undoWhileDrawing).store ∧
    snapshotView (MuralState.initial.run Real.sqrt measureText undoWhileDrawing).heap
        (jsGet (MuralState.initial.run Real.sqrt measureText undoWhileDrawing).store.history 2)
      = [some { id := some 0, type := some "pencil",
                points := some [{ x := .num 10, y := .num 10 },
                                { x := .num 20, y := .num 10 }] },
         some { id := some 1, type := some "pencil",
                points := some [{ x := .num 50, y := .num 50 }] }] ∧
    snapshotView
        ((MuralState.initial.run Real.sqrt measureText undoWhileDrawing).step Real.sqrt
          measureText (.mouseMove (mouseAt 60 50))).heap
        (jsGet ((MuralState.initial.run Real.sqrt measureText undoWhileDrawing).step Real.sqrt
          measureText (.mouseMove (mouseAt 60 50))).store.history 2)
      = [some { id := some 0, type := some "pencil",
                points := some [{ x := .num 10, y := .num 10 },
                                { x := .num 20, y := .num 10 },
                                { x := .num 60, y := .num 50 }] },
         some { id := some 1, type := some "pencil",
                points := some [{ x := .num 50, y := .num 50 }] }] := by
  rw [undoWhileDrawing_move, undoWhileDrawing_state]
  simp [snapshotView, jsGet, deref]

theorem stroke_drawn (measureText : String → ℝ) :
    MuralState.initial.run Real.sqrt measureText
        [.toolClick "pencil", .mouseDown (mouseAt 10 10), .mouseMove (mouseAt 20 10),
         .mouseUp (mouseAt 20 10), .toolClick "selection"]
      = { heap := [{ id := some 0, type := some "pencil",
                     points := some [{ x := .num 10, y := .num 10 },
                                     { x := .num 20, y := .num 10 }] }],
          store := { history := [[], [.ref 0]], index := 1 },
          action := "none", tool := "selection", selectedElement := none } := by
  simp [mouseAt, MuralState.run, MuralState.step, settle, handleToolClick,
    handleMouseDown, handleMouseMove, handleMouseUp, MuralState.initial, createElement,
    updateElement, MuralState.elements, History.current, History.setState, History.undo,
    useHistory, jsGet, jsSet, jsSlice0, spread, deref, setSlot, adjustmentRequired, jsStrictEq,
    jsSub, JsNum.toNumber]

theorem stroke_hit :
    getObjectAtPosition Real.sqrt
        [({ id := some 0, type := some "pencil",
            points := some [{ x := .num 10, y := .num 10 },
                            { x := .num 20, y := .num 10 }] } : Obj ℝ)]
        15 10 [.ref 0]
      = .ok (some { obj := { id := some 0, type := some "pencil",
                             points := some [{ x := .num 10, y := .num 10 },
                                             { x := .num 20, y := .num 10 }] },
                    position := some "inside" }) := by
  have h100 : Real.sqrt 100 = 10 := by
    rw [show (100 : ℝ) = 10 ^ 2 by norm_num]
    exact Real.sqrt_sq (by norm_num)
  have h25 : Real.sqrt 25 = 5 := by
    rw [show (25 : ℝ) = 5 ^ 2 by norm_num]
    exact Real.sqrt_sq (by norm_num)
  have hon : onLineJs Real.sqrt (.num 10) (.num 10) (.num 20) (.num 10) 15 10 5
      = some "inside" := by
    simp only [onLineJs, JsNum.toNumber, onLine, distance]
    norm_num [h100, h25]
  simp [getObjectAtPosition, mapPositionsJs, findPositioned, positionWithinObject, hon,
    List.enum, List.enumFrom]

theorem undoWhileMoving_state (measureText : String → ℝ) :
    MuralState.initial.run Real.sqrt measureText undoWhileMoving
      = { heap := [{ id := some 0, type := some "pencil",
                     points := some [{ x := .num 10, y := .num 10 },
                                     { x := .num 20, y := .num 10 }] }],
          store := { history := [[], [.ref 0], [.ref 0]], index := 0 },
          action := "moving", tool := "selection",
          selectedElement := some
            { obj := { id := some 0, type := some "pencil",
                       points := some [{ x := .num 10, y := .num 10 },
                                       { x := .num 20, y := .num 10 }] },
              position := some "inside",
              xOffsets := some [.num 5, .num (-5)], yOffsets := some [.num 0, .num 0] } } := by
  have hsplit : (undoWhileMoving : List (Event ℝ))
      = [.toolClick "pencil", .mouseDown (mouseAt 10 10), .mouseMove (mouseAt 20 10),
         .mouseUp (mouseAt 20 10), .toolClick "selection"]
        ++ [.mouseDown (mouseAt 15 10), .undo, .undo] := rfl
  rw [hsplit, run_append_events, stroke_drawn]
  simp [MuralState.run, MuralState.step, settle, handleMouseDown, mouseAt,
    MuralState.elements, History.current, jsGet, stroke_hit, History.setState, History.undo,
    jsSlice0, jsSub, JsNum.toNumber]
  norm_num

theorem undoWhileMoving_move (measureText : String → ℝ) :
    (MuralState.initial.run Real.sqrt measureText undoWhileMoving).step Real.sqrt measureText
        (.mouseMove (mouseAt 16 10))
      = { heap := [{ id := some 0, type := some "pencil",
                     points := some [{ x := .num 10, y := .num 10 },
                                     { x := .num 20, y := .num 10 }] },
                   { points := some [{ x := .num 11, y := .num 10 },
                                     { x := .num 21, y := .num 10 }] }],
          store := { history := [[.ref 1], [.ref 0], [.ref 0]], index := 0 },
          action := "moving", tool := "selection",
          selectedElement := some
            { obj := { id := some 0, type := some "pencil",
                       points := some [{ x := .num 10, y := .num 10 },
                                       { x := .num 20, y := .num 10 }] },
              position := some "inside",
              xOffsets := some [.num 5, .num (-5)], yOffsets := some [.num 0, .num 0] } } := by
  rw [undoWhileMoving_state]
  simp [MuralState.step, settle, handleMouseMove, mouseAt, MuralState.elements,
    History.current, jsGet, jsSet, getObjectAtPosition, mapPositionsJs, findPositioned,
    History.setState, spread, setSlot, deref, jsSub, JsNum.toNumber, List.enum, List.enumFrom]
  norm_num

/-- C18, the failing input. A stroke is drawn and grabbed with the selection
tool; with the button down `undo` is pressed twice, so the current collection
is the empty one.  Before the next pointer-move every element of the current
collection has its index as `id`; the pointer-move, in state `moving`, stores
at index 0 the object `{ ...undefined, points }`, which has no `id`. -/
theorem undo_while_moving_breaks_ids (measureText : String → ℝ) :
    idsMatchIndex (MuralState.initial.run Real.sqrt measureText undoWhileMoving).heap
      (MuralState.initial.run Real.sqrt measureText undoWhileMoving).elements ∧
    deref ((MuralState.initial.run Real.sqrt measureText undoWhileMoving).step Real.sqrt
          measureText (.mouseMove (mouseAt 16 10))).heap
        (jsGet ((MuralState.initial.run Real.sqrt measureText undoWhileMoving).step Real.sqrt
          measureText (.mouseMove (mouseAt 16 10))).elements 0)
      = some { points := some [{ x := .num 11, y := .num 10 },
                               { x := .num 21, y := .num 10 }] } ∧
    ¬ idsMatchIndex
        ((MuralState.initial.run Real.sqrt measureText undoWhileMoving).step Real.sqrt
          measureText (.mouseMove (mouseAt 16 10))).heap
        ((MuralState.initial.run Real.sqrt measureText undoWhileMoving).step Real.sqrt
          measureText (.mouseMove (mouseAt 16 10))).elements := by
  rw [undoWhileMoving_move, undoWhileMoving_state]
  have hslot : deref
      [({ id := some 0, type := some "pencil",
          points := some [{ x := .num 10, y := .num 10 },
                          { x := .num 20, y := .num 10 }] } : Obj ℝ),
       { points := some [{ x := .num 11, y := .num 10 }, { x := .num 21, y := .num 10 }] }]
      (jsGet [Entry.ref 1] 0)
      = some { points := some [{ x := .num 11, y := .num 10 },
                               { x := .num 21, y := .num 10 }] } := by
    simp [jsGet, deref]
  refine ⟨?_, ?_, ?_⟩
  · intro i element h
    simp [MuralState.elements, History.current, jsGet, deref] at h
  · simpa [MuralState.elements, History.current, jsGet] using hslot
  · intro hall
    have h0 := hall 0 _ (by simpa [MuralState.elements, History.current, jsGet] using hslot)
    simp at h0

/-! ## The component: single handlers -/

theorem jsGet_jsSet_same {σ : Type} [Inhabited σ] (xs : List σ) (i : Nat) (v : σ) :
    jsGet (jsSet xs i v) i = v := by
  unfold jsGet jsSet
  by_cases h : i < xs.length
  · rw [if_pos h, List.getD_eq_getElem?_getD, List.getElem?_set_self (by simpa using h)]
    rfl
  · have hlen : (xs ++ List.replicate (i - xs.length) default).length = i := by
      simp only [List.length_append, List.length_replicate]
      omega
    rw [if_neg h, List.getD_eq_getElem?_getD, List.getElem?_append_right (by omega), hlen]
    simp

theorem store_overwrite {σ : Type} [Inhabited σ] (st : History σ) (v : σ)
    (hidx : st.index < st.history.length) :
    st.setState (.value v) true = { history := st.history.set st.index v, index := st.index } :=
  commit_true_eq st v hidx

theorem current_after_overwrite {σ : Type} [Inhabited σ] (st : History σ) (v : σ)
    (hidx : st.index < st.history.length) :
    (st.setState (.value v) true).current = v := by
  rw [store_overwrite st v hidx]
  apply current_eq_of_getElem?
  simp [hidx]

theorem updateElement_shape {K : Type} [LinearOrderedField K] (measureText : String → K)
    (s : MuralState K) (id : Option Nat) (x1 y1 x2 y2 : JsNum K) (type : String)
    (options : Option (Option String)) (ht : type = "line" ∨ type = "rectangle") :
    updateElement measureText s id x1 y1 x2 y2 (some type) options
      = .ok { s with
          heap := s.heap ++ [{ id := id, type := some type, x1 := x1, y1 := y1, x2 := x2,
                               y2 := y2 }]
          store := s.store.setState
            (.value (setSlot (spread s.elements) id (.ref s.heap.length))) true } := by
  have h1 : some type = some "line" ∨ some type = some "rectangle" := by
    rcases ht with h | h
    · exact Or.inl (by rw [h])
    · exact Or.inr (by rw [h])
  simp only [updateElement, h1, if_true, Option.getD_some, createElement, ht]

theorem adjustObject_numeric {K : Type} [LinearOrderedField K] (o : Obj K) (type : String)
    (id : Nat) (a b c d : K) (ht : o.type = some type)
    (hx1 : o.x1 = .num a) (hy1 : o.y1 = .num b) (hx2 : o.x2 = .num c) (hy2 : o.y2 = .num d) :
    adjustObjectCoordinates o
      = (adjustElementCoordinates (Element.mk id type a b c d [] "")).toJs := by
  simp only [adjustObjectCoordinates, adjustElementCoordinates, ht, hx1, hy1, hx2, hy2,
    Option.some.injEq, jsMin, jsMax, jsLt, jsStrictEq, JsNum.toNumber, Coordinates.toJs]
  by_cases hr : type = "rectangle"
  · simp only [hr, if_true]
  · simp only [hr, if_false]
    by_cases h1 : a < c <;> by_cases h2 : a = c <;> by_cases h3 : b < d <;>
      simp [h1, h2, h3]

/-- C20, as stated, fails: with the initial tool `rectangle`, after a
pointer-down at (10,10) and a pointer-move to (5,40) the state is `drawing`,
and the pointer-up neither lengthens the history nor advances the index. -/
theorem pointer_up_keeps_history_counterexample :
    (MuralState.initial.run Real.sqrt (fun _ => 0) drawingRectangle).action = "drawing" ∧
    (MuralState.initial.run Real.sqrt (fun _ => 0) drawingRectangle).tool = "rectangle" ∧
    ¬ (((MuralState.initial.run Real.sqrt (fun _ => 0) drawingRectangle).step Real.sqrt
          (fun _ => 0) (.mouseUp (mouseAt 5 40))).store.history.length
        = (MuralState.initial.run Real.sqrt (fun _ => 0) drawingRectangle).store.history.length
          + 1) := by
  have hs : MuralState.initial.run Real.sqrt (fun _ => (0 : ℝ)) drawingRectangle
      = { heap := [{ id := some 0, type := some "rectangle", x1 := .num 10, y1 := .num 10,
                     x2 := .num 10, y2 := .num 10 },
                   { id := some 0, type := some "rectangle", x1 := .num 10, y1 := .num 10,
                     x2 := .num 5, y2 := .num 40 }],
          store := { history := [[], [.ref 1]], index := 1 },
          action := "drawing", tool := "rectangle",
          selectedElement := some
            { obj := { id := some 0, type := some "rectangle", x1 := .num 10, y1 := .num 10,
                       x2 := .num 10, y2 := .num 10 } } } := by
    simp [drawingRectangle, mouseAt, MuralState.run, MuralState.step, settle,
      handleMouseDown, handleMouseMove, MuralState.initial, createElement,
      updateElement, MuralState.elements, History.current, History.setState,
      useHistory, jsGet, jsSet, jsSlice0, spread, deref, setSlot]
  rw [hs]
  simp [mouseAt, MuralState.step, settle, handleMouseUp, createElement,
    updateElement, MuralState.elements, History.current, History.setState,
    jsGet, jsSet, spread, deref, setSlot, adjustmentRequired, adjustObjectCoordinates]

/-- C20, amended. In state `drawing` with tool `line` or `rectangle`, a
pointer-up replaces the element being drawn by one with the same `id` and type
and the normalised coordinates, commits the resulting collection with
`overwrite = true` (the length of the history, the index and every other
snapshot stay as they are), and moves the interaction state to `none`. -/
theorem pointer_up_normalizes_in_place {K : Type} [LinearOrderedField K]
    (measureText : String → K) (s : MuralState K) (event : MouseEvent K)
    (sel : Selected K) (i : Nat) (o : Obj K)
    (haction : s.action = "drawing")
    (htool : s.tool = "line" ∨ s.tool = "rectangle")
    (hsel : s.selectedElement = some sel)
    (hselid : sel.obj.id = some i) (hseltype : sel.obj.type = some s.tool)
    (ho : deref s.heap (jsGet s.elements i) = some o)
    (hoid : o.id = some i) (hotype : o.type = some s.tool)
    (hidx : s.store.index < s.store.history.length) :
    ∃ s', handleMouseUp measureText s event = .ok s' ∧
      s'.action = "none" ∧ s'.selectedElement = none ∧ s'.tool = s.tool ∧
      s'.store.history.length = s.store.history.length ∧
      s'.store.index = s.store.index ∧
      (∀ k : Nat, k ≠ s.store.index → s'.store.history[k]? = s.store.history[k]?) ∧
      s'.elements = jsSet (spread s.elements) i (.ref s.heap.length) ∧
      deref s'.heap (jsGet s'.elements i)
        = some { id := some i, type := some s.tool,
                 x1 := (adjustObjectCoordinates o).x1, y1 := (adjustObjectCoordinates o).y1,
                 x2 := (adjustObjectCoordinates o).x2, y2 := (adjustObjectCoordinates o).y2 } ∧
      (∀ a b c d : K, o.x1 = .num a → o.y1 = .num b → o.x2 = .num c → o.y2 = .num d →
        adjustObjectCoordinates o
          = (adjustElementCoordinates (Element.mk i s.tool a b c d [] "")).toJs) := by
  have hnt : ¬ (sel.obj.type = some "text" ∧
      jsStrictEq (jsSub (.num (event.clientX - event.left)) sel.offsetX) sel.obj.x1 = true ∧
      jsStrictEq (jsSub (.num (event.clientY - event.top)) sel.offsetY) sel.obj.y1 = true) := by
    rintro ⟨h, -⟩
    rw [hseltype] at h
    rcases htool with ht | ht <;> rw [ht] at h <;> revert h <;> decide
  have hadj : adjustmentRequired (some s.tool) = true := by
    rcases htool with ht | ht <;> rw [ht] <;> decide
  have hnw : ¬ ("drawing" = "writing") := by decide
  have hup := updateElement_shape measureText s o.id (adjustObjectCoordinates o).x1
    (adjustObjectCoordinates o).y1 (adjustObjectCoordinates o).x2
    (adjustObjectCoordinates o).y2 s.tool none htool
  have hres : handleMouseUp measureText s event
      = .ok { heap := s.heap ++ [{ id := o.id, type := some s.tool,
                                   x1 := (adjustObjectCoordinates o).x1,
                                   y1 := (adjustObjectCoordinates o).y1,
                                   x2 := (adjustObjectCoordinates o).x2,
                                   y2 := (adjustObjectCoordinates o).y2 }],
              store := s.store.setState
                (.value (setSlot (spread s.elements) o.id (.ref s.heap.length))) true,
              action := "none", tool := s.tool, selectedElement := none } := by
    simp only [handleMouseUp, hsel, hnt, if_false, hselid, ho, haction, true_or, hadj,
      and_self, true_and, if_true, hotype, hup, hnw]
  have hcur : (s.store.setState
      (.value (setSlot (spread s.elements) o.id (.ref s.heap.length))) true).current
      = jsSet (spread s.elements) i (.ref s.heap.length) := by
    rw [current_after_overwrite _ _ hidx, hoid]
    rfl
  refine ⟨_, hres, rfl, rfl, rfl, ?_, ?_, ?_, hcur, ?_, ?_⟩
  · rw [store_overwrite _ _ hidx]
    simp
  · rw [store_overwrite _ _ hidx]
  · intro k hk
    rw [store_overwrite _ _ hidx]
    simp only
    rw [List.getElem?_set_ne (Ne.symm hk)]
  · simp only [MuralState.elements] at hcur ⊢
    rw [hcur, jsGet_jsSet_same, hoid]
    simp [deref]
  · intro a b c d h1 h2 h3 h4
    exact adjustObject_numeric o s.tool i a b c d hotype h1 h2 h3 h4

theorem store_grab {σ : Type} [Inhabited σ] (st : History σ) (f : σ → σ) :
    st.setState (.update f) false
      = { history := st.history.take (st.index + 1) ++ [f st.current],
          index := st.index + 1 } := by
  simp [History.setState, jsSlice0, History.current]

theorem store_grab_facts {σ : Type} [Inhabited σ] (st : History σ) (f : σ → σ)
    (hidx : st.index < st.history.length) :
    (st.setState (.update f) false).current = f st.current ∧
    (st.setState (.update f) false).index < (st.setState (.update f) false).history.length := by
  have hlen : (st.history.take (st.index + 1)).length = st.index + 1 := by
    rw [List.length_take]; omega
  rw [store_grab]
  constructor
  · apply current_eq_of_getElem?
    simp only
    rw [List.getElem?_append_right (by omega)]
    simp [hlen]
  · simp [hlen]

theorem enum_map_lookup {α β γ : Type} [Inhabited β] (l : List α) (fx fy : α → β)
    (g : β → β → γ) :
    (l.enum.map fun (index, _) => g (jsGet (l.map fx) index) (jsGet (l.map fy) index))
      = l.map fun a => g (fx a) (fy a) := by
  apply List.ext_getElem?
  intro n
  simp only [List.getElem?_map, List.getElem?_enum]
  cases h : l[n]? with
  | none => simp
  | some a =>
    simp [jsGet, List.getD_eq_getElem?_getD, List.getElem?_map, h]

theorem grab_move_pencil {K : Type} [LinearOrderedField K] (sqrt : K → K)
    (measureText : String → K) (s : MuralState K) (d m : MouseEvent K) (hit : Selected K)
    (i : Nat) (pts : List (Point K))
    (hw : s.action ≠ "writing") (htool : s.tool = "selection")
    (hhit : getObjectAtPosition sqrt s.heap (d.clientX - d.left) (d.clientY - d.top) s.elements
      = .ok (some hit))
    (hpos : hit.position = some "inside") (hid : hit.obj.id = some i)
    (hmove : ∃ r, getObjectAtPosition sqrt s.heap (m.clientX - m.left) (m.clientY - m.top)
      s.elements = .ok r)
    (hidx : s.store.index < s.store.history.length)
    (htype : hit.obj.type = some "pencil") (hpts : hit.obj.points = some (pts.map Point.toJs)) :
    ∃ s1 s2 o', handleMouseDown sqrt s d = .ok s1 ∧ s1.action = "moving" ∧
      handleMouseMove sqrt measureText s1 m = .ok s2 ∧
      deref s2.heap (jsGet s2.elements i) = some o' ∧
      o'.points = some (pts.map fun p => Point.toJs
        { x := p.x + ((m.clientX - m.left) - (d.clientX - d.left)),
          y := p.y + ((m.clientY - m.top) - (d.clientY - d.top)) }) := by
  obtain ⟨r, hr⟩ := hmove
  obtain ⟨hcur, hidx'⟩ := store_grab_facts s.store (fun prevState => prevState) hidx
  have hdown : handleMouseDown sqrt s d
      = .ok { s with
          selectedElement := some { hit with
            xOffsets := some ((pts.map Point.toJs).map fun point =>
              jsSub (.num (d.clientX - d.left)) point.x)
            yOffsets := some ((pts.map Point.toJs).map fun point =>
              jsSub (.num (d.clientY - d.top)) point.y) }
          store := s.store.setState (.update fun prevState => prevState) false
          action := "moving" } := by
    simp only [handleMouseDown, hw, if_false, htool, if_true, hhit, htype, hpts, hpos]
  have hnd : ¬ ("moving" = "drawing") := by decide
  have hnew : (pts.map Point.toJs).enum.map (fun (index, _) =>
        ({ x := jsSub (.num (m.clientX - m.left))
                (jsGet ((pts.map Point.toJs).map fun point =>
                  jsSub (.num (d.clientX - d.left)) point.x) index),
           y := jsSub (.num (m.clientY - m.top))
                (jsGet ((pts.map Point.toJs).map fun point =>
                  jsSub (.num (d.clientY - d.top)) point.y) index) } : Point (JsNum K)))
      = pts.map fun p => Point.toJs
        { x := p.x + ((m.clientX - m.left) - (d.clientX - d.left)),
          y := p.y + ((m.clientY - m.top) - (d.clientY - d.top)) } := by
    rw [enum_map_lookup (pts.map Point.toJs)
      (fun point => jsSub (.num (d.clientX - d.left)) point.x)
      (fun point => jsSub (.num (d.clientY - d.top)) point.y)
      (fun a b => ({ x := jsSub (.num (m.clientX - m.left)) a,
                     y := jsSub (.num (m.clientY - m.top)) b } : Point (JsNum K)))]
    rw [List.map_map]
    apply List.map_congr_left
    intro p _
    simp only [Function.comp, Point.toJs, jsSub, JsNum.toNumber, Point.mk.injEq,
      JsNum.num.injEq]
    constructor <;> ring
  apply Exists.intro
  apply Exists.intro
  apply Exists.intro
  refine ⟨hdown, rfl, ?hm, ?hd, ?hp⟩
  case hm =>
    simp only [handleMouseMove, htool, if_true, MuralState.elements, hcur]
    simp only [MuralState.elements] at hr
    simp only [hr, hnd, if_false, htype, hpts, hnew, hid]
    simp only [if_true]
    rfl
  case hd =>
    simp only [MuralState.elements]
    rw [current_after_overwrite _ _ hidx']
    simp only [setSlot, jsGet_jsSet_same, deref]
    simp
    rfl
  case hp => rfl

theorem grab_move_shape {K : Type} [LinearOrderedField K] (sqrt : K → K)
    (measureText : String → K) (s : MuralState K) (d m : MouseEvent K) (hit : Selected K)
    (i : Nat) (t : String) (a b c e : K)
    (hw : s.action ≠ "writing") (htool : s.tool = "selection")
    (hhit : getObjectAtPosition sqrt s.heap (d.clientX - d.left) (d.clientY - d.top) s.elements
      = .ok (some hit))
    (hpos : hit.position = some "inside") (hid : hit.obj.id = some i)
    (hleft : m.left = d.left) (htop : m.top = d.top)
    (hmove : ∃ r, getObjectAtPosition sqrt s.heap (m.clientX - m.left) (m.clientY - m.top)
      s.elements = .ok r)
    (hidx : s.store.index < s.store.history.length)
    (htype : hit.obj.type = some t) (ht : t = "line" ∨ t = "rectangle")
    (hx1 : hit.obj.x1 = .num a) (hy1 : hit.obj.y1 = .num b)
    (hx2 : hit.obj.x2 = .num c) (hy2 : hit.obj.y2 = .num e) :
    ∃ s1 s2 o', handleMouseDown sqrt s d = .ok s1 ∧ s1.action = "moving" ∧
      handleMouseMove sqrt measureText s1 m = .ok s2 ∧
      deref s2.heap (jsGet s2.elements i) = some o' ∧
      o'.id = some i ∧ o'.type = some t ∧
      o'.x1 = .num (a + ((m.clientX - m.left) - (d.clientX - d.left))) ∧
      o'.y1 = .num (b + ((m.clientY - m.top) - (d.clientY - d.top))) ∧
      o'.x2 = .num (a + ((m.clientX - m.left) - (d.clientX - d.left)) + (c - a)) ∧
      o'.y2 = .num (b + ((m.clientY - m.top) - (d.clientY - d.top)) + (e - b)) := by
  obtain ⟨r, hr⟩ := hmove
  obtain ⟨hcur, hidx'⟩ := store_grab_facts s.store (fun prevState => prevState) hidx
  have hnp : ¬ (some t = some "pencil") := by
    rcases ht with h | h <;> rw [h] <;> decide
  have hnt : ¬ (some t = some "text") := by
    rcases ht with h | h <;> rw [h] <;> decide
  have hdown : handleMouseDown sqrt s d
      = .ok { s with
          selectedElement := some { hit with
            offsetX := jsSub (.num d.clientX) (.num a)
            offsetY := jsSub (.num d.clientY) (.num b) }
          store := s.store.setState (.update fun prevState => prevState) false
          action := "moving" } := by
    simp only [handleMouseDown, hw, if_false, htool, if_true, hhit, htype, hnp, hpos, hx1, hy1]
  have hnd : ¬ ("moving" = "drawing") := by decide
  apply Exists.intro
  apply Exists.intro
  apply Exists.intro
  refine ⟨hdown, rfl, ?hm, ?hd, ?hrest⟩
  case hm =>
    simp only [handleMouseMove, htool, if_true, MuralState.elements, hcur]
    simp only [MuralState.elements] at hr
    simp only [hr, hnd, if_false, htype, hnp, hnt, hid, hx1, hy1, hx2, hy2]
    rw [updateElement_shape _ _ _ _ _ _ _ _ _ ht]
  case hd =>
    simp only [MuralState.elements]
    rw [current_after_overwrite _ _ hidx']
    simp only [setSlot, jsGet_jsSet_same, deref]
    simp
    rfl
  case hrest =>
    refine ⟨rfl, rfl, ?_, ?_, ?_, ?_⟩ <;>
      simp only [jsSub, jsAdd, JsNum.toNumber, JsNum.num.injEq, hleft, htop] <;> ring

theorem grab_move_text {K : Type} [LinearOrderedField K] (sqrt : K → K)
    (measureText : String → K) (s : MuralState K) (d m : MouseEvent K) (hit : Selected K)
    (i : Nat) (a b c e : K)
    (hw : s.action ≠ "writing") (htool : s.tool = "selection")
    (hhit : getObjectAtPosition sqrt s.heap (d.clientX - d.left) (d.clientY - d.top) s.elements
      = .ok (some hit))
    (hpos : hit.position = some "inside") (hid : hit.obj.id = some i)
    (hleft : m.left = d.left) (htop : m.top = d.top)
    (hmove : ∃ r, getObjectAtPosition sqrt s.heap (m.clientX - m.left) (m.clientY - m.top)
      s.elements = .ok r)
    (hidx : s.store.index < s.store.history.length)
    (htype : hit.obj.type = some "text")
    (hx1 : hit.obj.x1 = .num a) (hy1 : hit.obj.y1 = .num b)
    (hx2 : hit.obj.x2 = .num c) (hy2 : hit.obj.y2 = .num e) :
    ∃ s1 s2 o', handleMouseDown sqrt s d = .ok s1 ∧ s1.action = "moving" ∧
      handleMouseMove sqrt measureText s1 m = .ok s2 ∧
      deref s2.heap (jsGet s2.elements i) = some o' ∧
      o'.id = some i ∧ o'.type = some "text" ∧ o'.text = hit.obj.text ∧
      o'.x1 = .num (a + ((m.clientX - m.left) - (d.clientX - d.left))) ∧
      o'.y1 = .num (b + ((m.clientY - m.top) - (d.clientY - d.top))) ∧
      o'.x2 = .num (a + ((m.clientX - m.left) - (d.clientX - d.left))
        + measureText (hit.obj.text.getD "undefined")) ∧
      o'.y2 = .num (b + ((m.clientY - m.top) - (d.clientY - d.top)) + 24) := by
  obtain ⟨r, hr⟩ := hmove
  obtain ⟨hcur, hidx'⟩ := store_grab_facts s.store (fun prevState => prevState) hidx
  have hnp : ¬ (some "text" = some "pencil") := by decide
  have hnl : ¬ (some "text" = some "line" ∨ some "text" = some "rectangle") := by decide
  have hdown : handleMouseDown sqrt s d
      = .ok { s with
          selectedElement := some { hit with
            offsetX := jsSub (.num d.clientX) (.num a)
            offsetY := jsSub (.num d.clientY) (.num b) }
          store := s.store.setState (.update fun prevState => prevState) false
          action := "moving" } := by
    simp only [handleMouseDown, hw, if_false, htool, if_true, hhit, htype, hnp, hpos, hx1, hy1]
  have hnd : ¬ ("moving" = "drawing") := by decide
  have hce : ¬ ("text" = "line" ∨ "text" = "rectangle") := by decide
  have hcp : ¬ ("text" = "pencil") := by decide
  apply Exists.intro
  apply Exists.intro
  apply Exists.intro
  refine ⟨hdown, rfl, ?hm, ?hd, ?hrest⟩
  case hm =>
    simp only [handleMouseMove, htool, if_true, MuralState.elements, hcur]
    simp only [MuralState.elements] at hr
    simp only [hr, hnd, if_false, htype, hnp, hid, hx1, hy1, hx2, hy2]
    simp only [if_true, updateElement, hnl, if_false, createElement, hce, hcp]
    rfl
  case hd =>
    simp only [MuralState.elements]
    rw [current_after_overwrite _ _ hidx']
    simp only [setSlot, jsGet_jsSet_same, deref]
    simp
    rfl
  case hrest =>
    refine ⟨rfl, rfl, rfl, ?_, ?_, ?_, ?_⟩ <;>
      simp only [jsSub, jsAdd, JsNum.toNumber, JsNum.num.injEq, hleft, htop] <;> ring

theorem pointer_up_normalizes_in_place_witness :
    ∃ s', handleMouseUp (fun _ => (0 : ℚ)) rectangleBeingDrawn (mouseAt 5 40) = .ok s' ∧
      s'.action = "none" ∧
      s'.store.history.length = (rectangleBeingDrawn : MuralState ℚ).store.history.length ∧
      deref s'.heap (jsGet s'.elements 0)
        = some { id := some 0, type := some "rectangle", x1 := .num 5, y1 := .num 10,
                 x2 := .num 10, y2 := .num 40 } := by
  obtain ⟨s', h1, h2, -, -, h5, -, -, -, h9, -⟩ :=
    pointer_up_normalizes_in_place (fun _ => (0 : ℚ)) rectangleBeingDrawn (mouseAt 5 40)
      { obj := { id := some 0, type := some "rectangle", x1 := .num 10, y1 := .num 10,
                 x2 := .num 10, y2 := .num 10 } }
      0
      { id := some 0, type := some "rectangle", x1 := .num 10, y1 := .num 10,
        x2 := .num 5, y2 := .num 40 }
      rfl (Or.inr rfl) rfl rfl rfl (by simp [rectangleBeingDrawn, MuralState.elements,
        History.current, jsGet, deref]) rfl rfl (by simp [rectangleBeingDrawn])
  refine ⟨s', h1, h2, h5, ?_⟩
  rw [h9]
  simp [rectangleBeingDrawn, adjustObjectCoordinates, jsMin, jsMax, JsNum.toNumber]
  norm_num

/-- C16, amended. When an element is grabbed with the selection tool at the pointer
position `g` (region `inside`) and the pointer then moves to `m`, with the canvas
at the same place for both events, the element stored under its `id` is the
grabbed one translated by `m - g`: for a pencil stroke every point is its
original plus `m - g`, in the same number and order; for a line or rectangle
`(x1, y1)` is translated by `m - g` and `x2 - x1`, `y2 - y1` keep their values;
for a text element `(x1, y1)` is translated by `m - g` and the box is set to the
measured width of the text and the line height 24. -/
theorem grab_then_move_translates {K : Type} [LinearOrderedField K] (sqrt : K → K)
    (measureText : String → K) (s : MuralState K) (d m : MouseEvent K) (hit : Selected K)
    (i : Nat)
    (hw : s.action ≠ "writing") (htool : s.tool = "selection")
    (hhit : getObjectAtPosition sqrt s.heap (d.clientX - d.left) (d.clientY - d.top) s.elements
      = .ok (some hit))
    (hpos : hit.position = some "inside") (hid : hit.obj.id = some i)
    (hleft : m.left = d.left) (htop : m.top = d.top)
    (hmove : ∃ r, getObjectAtPosition sqrt s.heap (m.clientX - m.left) (m.clientY - m.top)
      s.elements = .ok r)
    (hidx : s.store.index < s.store.history.length) :
    (∀ pts : List (Point K), hit.obj.type = some "pencil" →
      hit.obj.points = some (pts.map Point.toJs) →
      ∃ s1 s2 o', handleMouseDown sqrt s d = .ok s1 ∧ s1.action = "moving" ∧
        handleMouseMove sqrt measureText s1 m = .ok s2 ∧
        deref s2.heap (jsGet s2.elements i) = some o' ∧
        o'.points = some (pts.map fun p => Point.toJs
          { x := p.x + ((m.clientX - m.left) - (d.clientX - d.left)),
            y := p.y + ((m.clientY - m.top) - (d.clientY - d.top)) })) ∧
    (∀ (t : String) (a b c e : K), hit.obj.type = some t → (t = "line" ∨ t = "rectangle") →
      hit.obj.x1 = .num a → hit.obj.y1 = .num b → hit.obj.x2 = .num c → hit.obj.y2 = .num e →
      ∃ s1 s2 o', handleMouseDown sqrt s d = .ok s1 ∧ s1.action = "moving" ∧
        handleMouseMove sqrt measureText s1 m = .ok s2 ∧
        deref s2.heap (jsGet s2.elements i) = some o' ∧
        o'.id = some i ∧ o'.type = some t ∧
        o'.x1 = .num (a + ((m.clientX - m.left) - (d.clientX - d.left))) ∧
        o'.y1 = .num (b + ((m.clientY - m.top) - (d.clientY - d.top))) ∧
        o'.x2 = .num (a + ((m.clientX - m.left) - (d.clientX - d.left)) + (c - a)) ∧
        o'.y2 = .num (b + ((m.clientY - m.top) - (d.clientY - d.top)) + (e - b))) ∧
    (∀ a b c e : K, hit.obj.type = some "text" →
      hit.obj.x1 = .num a → hit.obj.y1 = .num b → hit.obj.x2 = .num c → hit.obj.y2 = .num e →
      ∃ s1 s2 o', handleMouseDown sqrt s d = .ok s1 ∧ s1.action = "moving" ∧
        handleMouseMove sqrt measureText s1 m = .ok s2 ∧
        deref s2.heap (jsGet s2.elements i) = some o' ∧
        o'.id = some i ∧ o'.type = some "text" ∧ o'.text = hit.obj.text ∧
        o'.x1 = .num (a + ((m.clientX - m.left) - (d.clientX - d.left))) ∧
        o'.y1 = .num (b + ((m.clientY - m.top) - (d.clientY - d.top))) ∧
        o'.x2 = .num (a + ((m.clientX - m.left) - (d.clientX - d.left))
          + measureText (hit.obj.text.getD "undefined")) ∧
        o'.y2 = .num (b + ((m.clientY - m.top) - (d.clientY - d.top)) + 24)) := by
  refine ⟨?_, ?_, ?_⟩
  · intro pts htype hpts
    exact grab_move_pencil sqrt measureText s d m hit i pts hw htool hhit hpos hid hmove hidx
      htype hpts
  · intro t a b c e htype ht hx1 hy1 hx2 hy2
    exact grab_move_shape sqrt measureText s d m hit i t a b c e hw htool hhit hpos hid hleft
      htop hmove hidx htype ht hx1 hy1 hx2 hy2
  · intro a b c e htype hx1 hy1 hx2 hy2
    exact grab_move_text sqrt measureText s d m hit i a b c e hw htool hhit hpos hid hleft
      htop hmove hidx htype hx1 hy1 hx2 hy2

theorem oneRectangle_hit (x y : ℚ) (hx : 5 ≤ x ∧ x ≤ 95) (hy : 5 ≤ y ∧ y ≤ 95) :
    getObjectAtPosition (fun v : ℚ => v) (oneRectangle : MuralState ℚ).heap x y
        (oneRectangle : MuralState ℚ).elements
      = .ok (some { obj := { id := some 0, type := some "rectangle", x1 := .num 0,
                             y1 := .num 0, x2 := .num 100, y2 := .num 100 },
                    position := some "inside" }) := by
  obtain ⟨hx1, hx2⟩ := hx
  obtain ⟨hy1, hy2⟩ := hy
  have hnl : ¬ (some "rectangle" = some "line") := by decide
  have n1 : ¬ (|x| < 5) := by rw [abs_lt]; intro h; linarith [h.2]
  have n2 : ¬ (|x - 100| < 5) := by rw [abs_lt]; intro h; linarith [h.1]
  have n3 : ¬ (|y| < 5) := by rw [abs_lt]; intro h; linarith [h.2]
  have n4 : ¬ (|y - 100| < 5) := by rw [abs_lt]; intro h; linarith [h.1]
  have hin : insideJs x y (.num 0) (.num 0) (.num 100) (.num 100) = true := by
    simp only [insideJs, jsLe, JsNum.toNumber, Bool.and_eq_true, decide_eq_true_eq]
    exact ⟨⟨⟨by linarith, by linarith⟩, by linarith⟩, by linarith⟩
  simp [oneRectangle, MuralState.elements, History.current, jsGet, getObjectAtPosition,
    mapPositionsJs, findPositioned, positionWithinObject, hnl, nearPointJs, nearPoint,
    JsNum.toNumber, hin, n1, n2, n3, n4, jsOr]

theorem grab_then_move_translates_witness :
    ∃ s1 s2 o', handleMouseDown (fun v : ℚ => v) oneRectangle (mouseAt 50 50) = .ok s1 ∧
      handleMouseMove (fun v : ℚ => v) (fun _ => 0) s1 (mouseAt 60 70) = .ok s2 ∧
      deref s2.heap (jsGet s2.elements 0) = some o' ∧
      o'.x1 = .num 10 ∧ o'.y1 = .num 20 ∧ o'.x2 = .num 110 ∧ o'.y2 = .num 120 := by
  obtain ⟨s1, s2, o', h1, -, h3, h4, -, -, h7, h8, h9, h10⟩ :=
    (grab_then_move_translates (fun v : ℚ => v) (fun _ => 0) oneRectangle (mouseAt 50 50)
      (mouseAt 60 70)
      { obj := { id := some 0, type := some "rectangle", x1 := .num 0, y1 := .num 0,
                 x2 := .num 100, y2 := .num 100 },
        position := some "inside" }
      0 (by decide) rfl
      (by simpa [mouseAt] using oneRectangle_hit 50 50 (by norm_num) (by norm_num))
      rfl rfl rfl rfl
      ⟨_, by simpa [mouseAt] using oneRectangle_hit 60 70 (by norm_num) (by norm_num)⟩
      (by simp [oneRectangle])).2.1 "rectangle" 0 0 100 100 rfl (Or.inr rfl) rfl rfl rfl rfl
  refine ⟨s1, s2, o', h1, h3, h4, ?_, ?_, ?_, ?_⟩
  · rw [h7]; simp [mouseAt]; norm_num
  · rw [h8]; simp [mouseAt]; norm_num
  · rw [h9]; simp [mouseAt]; norm_num
  · rw [h10]; simp [mouseAt]; norm_num

theorem textPlacedThenRedone_state :
    MuralState.initial.run Real.sqrt (fun _ => 0) textPlacedThenRedone
      = { heap := [{ id := some 0, type := some "text", x1 := .num 30, y1 := .num 40,
                     x2 := .num 30, y2 := .num 40, text := some "" },
                   { id := some 0, type := some "text", x1 := .num 30, y1 := .num 40,
                     x2 := .num 30, y2 := .num 64, text := some "" }],
          store := { history := [[.ref 1], [.ref 0]], index := 1 },
          action := "none", tool := "selection", selectedElement := none } := by
  simp [textPlacedThenRedone, mouseAt, MuralState.run, MuralState.step, settle,
    handleToolClick, handleMouseDown, handleBlur, MuralState.initial, createElement,
    updateElement, MuralState.elements, History.current, History.setState, History.undo,
    History.redo, useHistory, jsGet, jsSet, jsSlice0, spread, deref, setSlot, jsAdd,
    JsNum.toNumber]
  norm_num

theorem textPlacedThenRedone_grab :
    (MuralState.initial.run Real.sqrt (fun _ => 0) textPlacedThenRedone).step Real.sqrt
        (fun _ => 0) (.mouseDown (mouseAt 30 40))
      = { heap := [{ id := some 0, type := some "text", x1 := .num 30, y1 := .num 40,
                     x2 := .num 30, y2 := .num 40, text := some "" },
                   { id := some 0, type := some "text", x1 := .num 30, y1 := .num 40,
                     x2 := .num 30, y2 := .num 64, text := some "" }],
          store := { history := [[.ref 1], [.ref 0], [.ref 0]], index := 2 },
          action := "moving", tool := "selection",
          selectedElement := some
            { obj := { id := some 0, type := some "text", x1 := .num 30, y1 := .num 40,
                       x2 := .num 30, y2 := .num 40, text := some "" },
              position := some "inside", offsetX := .num 0, offsetY := .num 0 } } := by
  rw [textPlacedThenRedone_state]
  simp [mouseAt, MuralState.step, settle, handleMouseDown, MuralState.elements,
    History.current, History.setState, jsGet, jsSlice0, getObjectAtPosition, mapPositionsJs,
    findPositioned, positionWithinObject, insideJs, jsLe, jsSub, JsNum.toNumber]

/-- C16, as stated, fails for a text element. The text element placed at
(30,40) and brought back by `redo` has the box (30,40)-(30,40); it is grabbed at
(30,40) and the pointer moves to (35,45). The moved element is at (35,45), but
its box is (35,45)-(35,69): `y2 - y1` is 24 and no longer 0, its value at the
moment of the grab. -/
theorem moved_text_box_counterexample :
    deref (MuralState.initial.run Real.sqrt (fun _ => 0) textPlacedThenRedone).heap
        (jsGet (MuralState.initial.run Real.sqrt (fun _ => 0) textPlacedThenRedone).elements 0)
      = some { id := some 0, type := some "text", x1 := .num 30, y1 := .num 40,
               x2 := .num 30, y2 := .num 40, text := some "" } ∧
    ((MuralState.initial.run Real.sqrt (fun _ => 0) textPlacedThenRedone).step Real.sqrt
        (fun _ => 0) (.mouseDown (mouseAt 30 40))).action = "moving" ∧
    deref ((MuralState.initial.run Real.sqrt (fun _ => 0) textPlacedThenRedone).run Real.sqrt
          (fun _ => 0) [.mouseDown (mouseAt 30 40), .mouseMove (mouseAt 35 45)]).heap
        (jsGet ((MuralState.initial.run Real.sqrt (fun _ => 0) textPlacedThenRedone).run
          Real.sqrt (fun _ => 0)
          [.mouseDown (mouseAt 30 40), .mouseMove (mouseAt 35 45)]).elements 0)
      = some { id := some 0, type := some "text", x1 := .num 35, y1 := .num 45,
               x2 := .num 35, y2 := .num 69, text := some "" } := by
  have hrun : (MuralState.initial.run Real.sqrt (fun _ => 0) textPlacedThenRedone).run
        Real.sqrt (fun _ => 0) [.mouseDown (mouseAt 30 40), .mouseMove (mouseAt 35 45)]
      = ((MuralState.initial.run Real.sqrt (fun _ => 0) textPlacedThenRedone).step Real.sqrt
          (fun _ => 0) (.mouseDown (mouseAt 30 40))).step Real.sqrt (fun _ => 0)
          (.mouseMove (mouseAt 35 45)) := rfl
  rw [hrun, textPlacedThenRedone_grab]
  refine ⟨?_, rfl, ?_⟩
  · rw [textPlacedThenRedone_state]
    simp [MuralState.elements, History.current, jsGet, deref]
  · simp [mouseAt, MuralState.step, settle, handleMouseMove, MuralState.elements,
      History.current, History.setState, jsGet, jsSet, getObjectAtPosition, mapPositionsJs,
      findPositioned, positionWithinObject, insideJs, jsLe, jsSub, jsAdd, JsNum.toNumber,
      updateElement, createElement, spread, setSlot, deref]
    norm_num

/-! ## The store of the component stays in range -/

theorem setState_index_lt {σ : Type} [Inhabited σ] (st : History σ) (action : Action σ)
    (overwrite : Bool) (hidx : st.index < st.history.length) :
    (st.setState action overwrite).index < (st.setState action overwrite).history.length := by
  have hlen : (st.history.take (st.index + 1)).length = st.index + 1 := by
    rw [List.length_take]; omega
  cases overwrite with
  | false => simp [History.setState, jsSlice0, hlen]
  | true => simp [History.setState, jsSet, hidx]

theorem updateElement_store {K : Type} [LinearOrderedField K] (measureText : String → K)
    (s s' : MuralState K) (id : Option Nat) (x1 y1 x2 y2 : JsNum K) (type : Option String)
    (options : Option (Option String))
    (h : updateElement measureText s id x1 y1 x2 y2 type options = .ok s') :
    ∃ v, s'.store = s.store.setState (.value v) true := by
  unfold updateElement at h
  simp only at h
  split at h
  · split at h
    · cases h
    · cases h; exact ⟨_, rfl⟩
  · split at h
    · split at h
      · cases h
      · split at h
        · split at h
          · cases h
          · split at h
            · cases h
            · cases h; exact ⟨_, rfl⟩
        · cases h
        · cases h
    · split at h
      · split at h
        · cases h
        · split at h
          · cases h
          · cases h; exact ⟨_, rfl⟩
      · cases h

theorem handleMouseDown_store {K : Type} [LinearOrderedField K] (sqrt : K → K)
    (s s' : MuralState K) (event : MouseEvent K)
    (hidx : s.store.index < s.store.history.length)
    (h : handleMouseDown sqrt s event = .ok s') :
    s'.store.index < s'.store.history.length := by
  unfold handleMouseDown at h
  simp only at h
  repeat' split at h
  all_goals try cases h
  all_goals first
    | exact hidx
    | exact setState_index_lt _ _ _ hidx

theorem handleMouseMove_store {K : Type} [LinearOrderedField K] (sqrt : K → K)
    (measureText : String → K) (s s' : MuralState K) (event : MouseEvent K)
    (hidx : s.store.index < s.store.history.length)
    (h : handleMouseMove sqrt measureText s event = .ok s') :
    s'.store.index < s'.store.history.length := by
  unfold handleMouseMove at h
  simp only at h
  repeat' split at h
  all_goals try cases h
  all_goals first
    | exact hidx
    | exact setState_index_lt _ _ _ hidx
    | (obtain ⟨v, hv⟩ := updateElement_store _ _ _ _ _ _ _ _ _ _ h
       rw [hv]
       exact setState_index_lt _ _ _ hidx)

theorem handleMouseUp_store {K : Type} [LinearOrderedField K]
    (measureText : String → K) (s s' : MuralState K) (event : MouseEvent K)
    (hidx : s.store.index < s.store.history.length)
    (h : handleMouseUp measureText s event = .ok s') :
    s'.store.index < s'.store.history.length := by
  unfold handleMouseUp at h
  simp only at h
  split at h
  · split at h
    · cases h; exact hidx
    · split at h
      · cases h
      · split at h
        · cases h
        · rename_i _ sel hsel hnt _ index hid _ element hel
          generalize hu :
            (if (s.action = "drawing" ∨ s.action = "resizing") ∧
                adjustmentRequired element.type = true then
              updateElement measureText s element.id (adjustObjectCoordinates element).x1
                (adjustObjectCoordinates element).y1 (adjustObjectCoordinates element).x2
                (adjustObjectCoordinates element).y2 element.type none
            else Except.ok s) = u at h
          cases u with
          | error err => cases h
          | ok s'' =>
            have hs'' : s''.store.index < s''.store.history.length := by
              split at hu
              · obtain ⟨v, hv⟩ := updateElement_store _ _ _ _ _ _ _ _ _ _ hu
                rw [hv]
                exact setState_index_lt _ _ _ hidx
              · cases hu; exact hidx
            simp only at h
            split at h
            · cases h; exact hs''
            · cases h; exact hs''
  · split at h
    · cases h; exact hidx
    · cases h; exact hidx

theorem handleBlur_store {K : Type} [LinearOrderedField K]
    (measureText : String → K) (s s' : MuralState K) (value : String)
    (hidx : s.store.index < s.store.history.length)
    (h : handleBlur measureText s value = .ok s') :
    s'.store.index < s'.store.history.length := by
  unfold handleBlur at h
  repeat' split at h
  all_goals try cases h
  all_goals first
    | exact hidx
    | (rename_i heq
       obtain ⟨v, hv⟩ := updateElement_store _ _ _ _ _ _ _ _ _ _ heq
       simp only [hv]
       exact setState_index_lt _ _ _ hidx)

theorem settle_store {K : Type} (s : MuralState K) (result : Except String (MuralState K))
    (hidx : s.store.index < s.store.history.length)
    (h : ∀ s', result = .ok s' → s'.store.index < s'.store.history.length) :
    (settle s result).store.index < (settle s result).store.history.length := by
  cases result with
  | error err => exact hidx
  | ok s' => exact h s' rfl

theorem step_store_in_range {K : Type} [LinearOrderedField K] (sqrt : K → K)
    (measureText : String → K) (s : MuralState K) (event : Event K)
    (hidx : s.store.index < s.store.history.length) :
    (s.step sqrt measureText event).store.index
      < (s.step sqrt measureText event).store.history.length := by
  cases event with
  | mouseDown e =>
    exact settle_store s _ hidx fun s' h => handleMouseDown_store sqrt s s' e hidx h
  | mouseMove e =>
    exact settle_store s _ hidx fun s' h => handleMouseMove_store sqrt measureText s s' e hidx h
  | mouseUp e =>
    exact settle_store s _ hidx fun s' h => handleMouseUp_store measureText s s' e hidx h
  | blur value =>
    simp only [MuralState.step]
    split
    · exact settle_store s _ hidx fun s' h => handleBlur_store measureText s s' value hidx h
    · exact hidx
  | clear => exact setState_index_lt _ _ _ hidx
  | undo =>
    simp only [MuralState.step]
    rw [undo_eq]
    simp only
    omega
  | redo =>
    simp only [MuralState.step]
    rw [redo_eq]
    simp only
    split <;> omega
  | toolClick tool => exact hidx

/-- In every state of the component reached from the initial one, the index of
the store is below the length of its history: `elements` is always one of the
stored snapshots, never `undefined`. -/
theorem run_store_in_range {K : Type} [LinearOrderedField K] (sqrt : K → K)
    (measureText : String → K) (events : List (Event K)) :
    (MuralState.initial.run sqrt measureText events).store.index
      < (MuralState.initial.run sqrt measureText events).store.history.length := by
  have hgen : ∀ (s : MuralState K), s.store.index < s.store.history.length →
      (s.run sqrt measureText events).store.index
        < (s.run sqrt measureText events).store.history.length := by
    induction events with
    | nil => intro s hs; exact hs
    | cons event events ih =>
      intro s hs
      exact ih (s.step sqrt measureText event) (step_store_in_range sqrt measureText s event hs)
  exact hgen _ (by simp [MuralState.initial, useHistory])

/-! ## The two forms of the hit test agree -/

theorem insideJs_num {K : Type} [LinearOrderedField K] (x y a b c d : K) :
    insideJs x y (.num a) (.num b) (.num c) (.num d) = true ↔
      (x ≥ a ∧ x ≤ c ∧ y ≥ b ∧ y ≤ d) := by
  simp only [insideJs, jsLe, JsNum.toNumber, Bool.and_eq_true, decide_eq_true_eq, ge_iff_le]
  constructor
  · rintro ⟨⟨⟨h1, h2⟩, h3⟩, h4⟩
    exact ⟨h1, h2, h3, h4⟩
  · rintro ⟨h1, h2, h3, h4⟩
    exact ⟨⟨⟨h1, h2⟩, h3⟩, h4⟩

theorem between_points_toJs {K : Type} [LinearOrderedField K] (sqrt : K → K) (x y : K)
    (pts : List (Point K)) :
    ((pts.map Point.toJs).enum.any fun (index, point) =>
      match (pts.map Point.toJs).get? (index + 1) with
      | none => false
      | some nextPoint =>
        (onLineJs sqrt point.x point.y nextPoint.x nextPoint.y x y 5).isSome)
    = (pts.enum.any fun (index, point) =>
      match pts.get? (index + 1) with
      | none => false
      | some nextPoint =>
        (onLine sqrt point.x point.y nextPoint.x nextPoint.y x y 5).isSome) := by
  rw [Bool.eq_iff_iff, List.any_eq_true, List.any_eq_true]
  constructor
  · rintro ⟨⟨i, p⟩, hmem, hp⟩
    rw [List.mk_mem_enum_iff_getElem?, List.getElem?_map] at hmem
    cases hpi : pts[i]? with
    | none => rw [hpi] at hmem; cases hmem
    | some q =>
      rw [hpi] at hmem
      simp only [Option.map_some', Option.some.injEq] at hmem
      subst hmem
      refine ⟨(i, q), List.mk_mem_enum_iff_getElem?.mpr hpi, ?_⟩
      simp only [List.get?_eq_getElem?, List.getElem?_map] at hp ⊢
      cases hn : pts[i + 1]? with
      | none => rw [hn] at hp; simp at hp
      | some n =>
        rw [hn] at hp
        simpa [Point.toJs, onLineJs, JsNum.toNumber] using hp
  · rintro ⟨⟨i, q⟩, hmem, hp⟩
    rw [List.mk_mem_enum_iff_getElem?] at hmem
    refine ⟨(i, q.toJs), List.mk_mem_enum_iff_getElem?.mpr (by simp [hmem]), ?_⟩
    simp only [List.get?_eq_getElem?, List.getElem?_map] at hp ⊢
    cases hn : pts[i + 1]? with
    | none => rw [hn] at hp; simp at hp
    | some n =>
      rw [hn] at hp
      simpa [Point.toJs, onLineJs, JsNum.toNumber] using hp

/-- On an object that has the properties of its variant, with numbers as
coordinates, the hit test on objects gives what `positionWithinElement` gives
on the element with these values. -/
theorem positionWithinObject_eq {K : Type} [LinearOrderedField K] (sqrt : K → K) (x y : K)
    (o : Obj K) (e : Element K) (ht : o.type = some e.type)
    (hc : e.type ≠ "pencil" →
      o.x1 = .num e.x1 ∧ o.y1 = .num e.y1 ∧ o.x2 = .num e.x2 ∧ o.y2 = .num e.y2)
    (hp : e.type = "pencil" → o.points = some (e.points.map Point.toJs)) :
    positionWithinObject sqrt x y o = positionWithinElement sqrt x y e := by
  by_cases h1 : e.type = "line"
  · have hnp : e.type ≠ "pencil" := by rw [h1]; decide
    obtain ⟨hx1, hy1, hx2, hy2⟩ := hc hnp
    simp only [positionWithinObject, positionWithinElement, ht, h1, if_true, hx1, hy1, hx2,
      hy2, nearPointJs, onLineJs, JsNum.toNumber]
  by_cases h2 : e.type = "rectangle"
  · have hnp : e.type ≠ "pencil" := by rw [h2]; decide
    have hnl : ¬ ("rectangle" = "line") := by decide
    obtain ⟨hx1, hy1, hx2, hy2⟩ := hc hnp
    simp only [positionWithinObject, positionWithinElement, ht, h2, hnl, Option.some.injEq,
      if_false, if_true, hx1, hy1, hx2, hy2, nearPointJs, JsNum.toNumber, insideJs_num]
  by_cases h3 : e.type = "pencil"
  · have hnl : ¬ ("pencil" = "line") := by decide
    have hnr : ¬ ("pencil" = "rectangle") := by decide
    simp only [positionWithinObject, positionWithinElement, ht, h3, hnl, hnr,
      Option.some.injEq, if_false, if_true, hp h3, between_points_toJs]
  by_cases h4 : e.type = "text"
  · have hnl : ¬ ("text" = "line") := by decide
    have hnr : ¬ ("text" = "rectangle") := by decide
    have hnp' : ¬ ("text" = "pencil") := by decide
    obtain ⟨hx1, hy1, hx2, hy2⟩ := hc h3
    simp only [positionWithinObject, positionWithinElement, ht, h4, hnl, hnr, hnp',
      Option.some.injEq, if_false, if_true, hx1, hy1, hx2, hy2, insideJs_num]
  · simp only [positionWithinObject, positionWithinElement, ht, h1, h2, h3, h4,
      Option.some.injEq, if_false, Option.getD_some]

/-! ## The on-segment test and the distance to the segment -/

theorem ellipse_product_bound (L d1 d2 s0 s1 dot X : ℝ) (hd1 : 0 ≤ d1)
    (hd2 : 0 ≤ d2) (hL2 : L ^ 2 = s0) (hs1 : d1 ^ 2 = s1) (hs2 : d2 ^ 2 = s1 - 2 * dot + s0)
    (hlag : s1 * s0 = dot ^ 2 + X) (hsum : d1 + d2 < L + 1) :
    X < (L + 1 / 2) ^ 2 - 2 * (L + 1 / 2) * (s1 - dot) := by
  have hP : 0 ≤ d1 * d2 := mul_nonneg hd1 hd2
  have hsq : (d1 + d2) ^ 2 < (L + 1) ^ 2 :=
    pow_lt_pow_left₀ hsum (add_nonneg hd1 hd2) (by norm_num)
  have hPlt : d1 * d2 < L + 1 / 2 - (s1 - dot) := by nlinarith
  have hPsq : (d1 * d2) ^ 2 = (s1 - dot) ^ 2 + X := by
    have h1 : (d1 * d2) ^ 2 = d1 ^ 2 * d2 ^ 2 := by ring
    rw [h1, hs1, hs2]
    nlinarith
  have hlt : (d1 * d2) ^ 2 < (L + 1 / 2 - (s1 - dot)) ^ 2 :=
    pow_lt_pow_left₀ hPlt hP (by norm_num)
  nlinarith

theorem ellipse_line_bound (L d1 d2 s0 s1 dot X : ℝ) (hL : 0 ≤ L) (hd1 : 0 ≤ d1)
    (hd2 : 0 ≤ d2) (hL2 : L ^ 2 = s0) (hs1 : d1 ^ 2 = s1) (hs2 : d2 ^ 2 = s1 - 2 * dot + s0)
    (hlag : s1 * s0 = dot ^ 2 + X) (hsum : d1 + d2 < L + 1) (hpos : 0 < s0) :
    4 * X < (2 * L + 1) * s0 := by
  have hX := ellipse_product_bound L d1 d2 s0 s1 dot X hd1 hd2 hL2 hs1 hs2 hlag hsum
  have hM : 0 < L + 1 / 2 := by linarith
  have h1 : X * s0 < ((L + 1 / 2) ^ 2 - 2 * (L + 1 / 2) * (s1 - dot)) * s0 :=
    mul_lt_mul_of_pos_right hX hpos
  have h2 : X * (s0 + 2 * (L + 1 / 2))
      < (L + 1 / 2) ^ 2 * s0 + 2 * (L + 1 / 2) * (dot * s0 - dot ^ 2) := by
    have : ((L + 1 / 2) ^ 2 - 2 * (L + 1 / 2) * (s1 - dot)) * s0
        = (L + 1 / 2) ^ 2 * s0 - 2 * (L + 1 / 2) * (s1 * s0 - dot * s0) := by ring
    rw [this, hlag] at h1
    nlinarith
  have h3 : dot * s0 - dot ^ 2 ≤ s0 ^ 2 / 4 := by nlinarith [sq_nonneg (dot - s0 / 2)]
  have h4 : X * (L + 1) ^ 2 < (L + 1 / 2) * s0 * ((L + 1) ^ 2 / 2) := by
    have e1 : s0 + 2 * (L + 1 / 2) = (L + 1) ^ 2 := by rw [← hL2]; ring
    have e2 : (L + 1 / 2) ^ 2 * s0 + 2 * (L + 1 / 2) * (s0 ^ 2 / 4)
        = (L + 1 / 2) * s0 * ((L + 1) ^ 2 / 2) := by rw [← hL2]; ring
    rw [e1] at h2
    have h5 : 2 * (L + 1 / 2) * (dot * s0 - dot ^ 2) ≤ 2 * (L + 1 / 2) * (s0 ^ 2 / 4) :=
      mul_le_mul_of_nonneg_left h3 (by linarith)
    linarith
  have hpos2 : 0 < (L + 1) ^ 2 := by positivity
  have h6 : X < (L + 1 / 2) * s0 / 2 := by
    by_contra hcon
    push_neg at hcon
    have : (L + 1 / 2) * s0 / 2 * (L + 1) ^ 2 ≤ X * (L + 1) ^ 2 :=
      mul_le_mul_of_nonneg_right hcon hpos2.le
    nlinarith
  linarith

theorem ellipse_end_bound (L d1 d2 : ℝ) (hL : 0 ≤ L) (hd1 : 0 ≤ d1) (hd2 : 0 ≤ d2)
    (hfar : d1 ^ 2 + L ^ 2 ≤ d2 ^ 2) (hsum : d1 + d2 < L + 1) :
    4 * d1 ^ 2 < 2 * L + 1 := by
  have hlt : d2 < L + 1 - d1 := by linarith
  have hsq : d2 ^ 2 < (L + 1 - d1) ^ 2 := pow_lt_pow_left₀ hlt hd2 (by norm_num)
  have h1 : 2 * d1 * (L + 1) < 2 * L + 1 := by nlinarith
  have h2 : (2 * d1 * (L + 1)) ^ 2 < (2 * L + 1) ^ 2 :=
    pow_lt_pow_left₀ h1 (by positivity) (by norm_num)
  have h3 : (2 * L + 1) ^ 2 ≤ (2 * L + 1) * (L + 1) ^ 2 := by nlinarith [sq_nonneg L]
  have hpos2 : 0 < (L + 1) ^ 2 := by positivity
  by_contra hcon
  push_neg at hcon
  have : (2 * L + 1) * (L + 1) ^ 2 ≤ 4 * d1 ^ 2 * (L + 1) ^ 2 :=
    mul_le_mul_of_nonneg_right hcon hpos2.le
  nlinarith

theorem onLine_inside_sum (x1 y1 x2 y2 x y : ℝ)
    (h : onLine Real.sqrt x1 y1 x2 y2 x y 1 = some "inside") :
    Real.sqrt ((x1 - x) ^ 2 + (y1 - y) ^ 2) + Real.sqrt ((x2 - x) ^ 2 + (y2 - y) ^ 2)
      < Real.sqrt ((x1 - x2) ^ 2 + (y1 - y2) ^ 2) + 1 := by
  simp only [onLine, distance] at h
  split at h
  · rename_i habs
    have := (abs_lt.mp habs).1
    linarith
  · cases h

theorem sq_bound_to_sqrt (D L : ℝ) (hD : 0 ≤ D) (h : 4 * D ^ 2 < 2 * L + 1) :
    D < Real.sqrt (2 * L + 1) / 2 := by
  have h2 : 2 * D < Real.sqrt (2 * L + 1) := by
    rw [Real.lt_sqrt (by linarith)]
    nlinarith
  linarith

theorem perpendicular_sq_bound (x1 y1 x2 y2 x y : ℝ)
    (h : onLine Real.sqrt x1 y1 x2 y2 x y 1 = some "inside") :
    4 * (perpendicularDistance Real.sqrt { x := x1, y := y1 } { x := x2, y := y2 }
        { x := x, y := y }) ^ 2
      < 2 * distance Real.sqrt { x := x1, y := y1 } { x := x2, y := y2 } + 1 := by
  have hsum := onLine_inside_sum x1 y1 x2 y2 x y h
  simp only [perpendicularDistance, distance]
  have hs0 : 0 ≤ (x1 - x2) ^ 2 + (y1 - y2) ^ 2 := by positivity
  have hL := Real.sqrt_nonneg ((x1 - x2) ^ 2 + (y1 - y2) ^ 2)
  rcases hs0.eq_or_lt with h0 | hpos
  · rw [← h0, Real.sqrt_zero, div_zero]
    norm_num
  · have hLpos : 0 < Real.sqrt ((x1 - x2) ^ 2 + (y1 - y2) ^ 2) := Real.sqrt_pos.mpr hpos
    have hb := ellipse_line_bound (Real.sqrt ((x1 - x2) ^ 2 + (y1 - y2) ^ 2))
      (Real.sqrt ((x1 - x) ^ 2 + (y1 - y) ^ 2)) (Real.sqrt ((x2 - x) ^ 2 + (y2 - y) ^ 2))
      ((x1 - x2) ^ 2 + (y1 - y2) ^ 2) ((x1 - x) ^ 2 + (y1 - y) ^ 2)
      ((x - x1) * (x2 - x1) + (y - y1) * (y2 - y1))
      (((x2 - x1) * (y - y1) - (y2 - y1) * (x - x1)) ^ 2)
      hL (Real.sqrt_nonneg _) (Real.sqrt_nonneg _) (Real.sq_sqrt hs0)
      (Real.sq_sqrt (by positivity))
      (by rw [Real.sq_sqrt (by positivity)]; ring) (by ring) hsum hpos
    rw [div_pow, sq_abs, Real.sq_sqrt hs0, mul_div_assoc', div_lt_iff₀ hpos]
    exact hb

theorem segment_sq_bound (x1 y1 x2 y2 x y : ℝ)
    (h : onLine Real.sqrt x1 y1 x2 y2 x y 1 = some "inside") :
    4 * (segmentDistance Real.sqrt { x := x1, y := y1 } { x := x2, y := y2 }
        { x := x, y := y }) ^ 2
      < 2 * distance Real.sqrt { x := x1, y := y1 } { x := x2, y := y2 } + 1 := by
  have hsum := onLine_inside_sum x1 y1 x2 y2 x y h
  have hs0 : 0 ≤ (x1 - x2) ^ 2 + (y1 - y2) ^ 2 := by positivity
  have hL := Real.sqrt_nonneg ((x1 - x2) ^ 2 + (y1 - y2) ^ 2)
  have hd1 := Real.sqrt_nonneg ((x1 - x) ^ 2 + (y1 - y) ^ 2)
  have hd2 := Real.sqrt_nonneg ((x2 - x) ^ 2 + (y2 - y) ^ 2)
  have hL2 := Real.sq_sqrt hs0
  have hd1sq : Real.sqrt ((x1 - x) ^ 2 + (y1 - y) ^ 2) ^ 2 = (x1 - x) ^ 2 + (y1 - y) ^ 2 :=
    Real.sq_sqrt (by positivity)
  have hd2sq : Real.sqrt ((x2 - x) ^ 2 + (y2 - y) ^ 2) ^ 2 = (x2 - x) ^ 2 + (y2 - y) ^ 2 :=
    Real.sq_sqrt (by positivity)
  have hseq : (x2 - x1) ^ 2 + (y2 - y1) ^ 2 = (x1 - x2) ^ 2 + (y1 - y2) ^ 2 := by ring
  simp only [segmentDistance, distance]
  by_cases hz : (x2 - x1) ^ 2 + (y2 - y1) ^ 2 = 0
  · rw [if_pos hz]
    have hz' : (x1 - x2) ^ 2 + (y1 - y2) ^ 2 = 0 := by rw [← hseq]; exact hz
    have hx : x2 = x1 := by nlinarith [sq_nonneg (x2 - x1), sq_nonneg (y2 - y1)]
    have hy : y2 = y1 := by nlinarith [sq_nonneg (x2 - x1), sq_nonneg (y2 - y1)]
    have := ellipse_end_bound (Real.sqrt ((x1 - x2) ^ 2 + (y1 - y2) ^ 2))
      (Real.sqrt ((x1 - x) ^ 2 + (y1 - y) ^ 2)) (Real.sqrt ((x2 - x) ^ 2 + (y2 - y) ^ 2))
      hL hd1 hd2 (by rw [hL2, hd1sq, hd2sq, hz', hx, hy]; linarith) hsum
    exact this
  · rw [if_neg hz]
    have hpos : 0 < (x2 - x1) ^ 2 + (y2 - y1) ^ 2 :=
      lt_of_le_of_ne (by positivity) (Ne.symm hz)
    have hpos' : 0 < (x1 - x2) ^ 2 + (y1 - y2) ^ 2 := by rw [← hseq]; exact hpos
    rw [Real.sq_sqrt (by positivity)]
    by_cases hlow : (x - x1) * (x2 - x1) + (y - y1) * (y2 - y1) ≤ 0
    · have ht : max 0 (min 1 (((x - x1) * (x2 - x1) + (y - y1) * (y2 - y1))
          / ((x2 - x1) ^ 2 + (y2 - y1) ^ 2))) = 0 := by
        apply max_eq_left
        exact le_trans (min_le_right _ _) (div_nonpos_of_nonpos_of_nonneg hlow hpos.le)
      rw [ht]
      have := ellipse_end_bound (Real.sqrt ((x1 - x2) ^ 2 + (y1 - y2) ^ 2))
        (Real.sqrt ((x1 - x) ^ 2 + (y1 - y) ^ 2)) (Real.sqrt ((x2 - x) ^ 2 + (y2 - y) ^ 2))
        hL hd1 hd2 (by rw [hL2, hd1sq, hd2sq]; linarith) hsum
      rw [hd1sq] at this
      linarith
    · push_neg at hlow
      by_cases hhigh : (x2 - x1) ^ 2 + (y2 - y1) ^ 2
          ≤ (x - x1) * (x2 - x1) + (y - y1) * (y2 - y1)
      · have ht : max 0 (min 1 (((x - x1) * (x2 - x1) + (y - y1) * (y2 - y1))
            / ((x2 - x1) ^ 2 + (y2 - y1) ^ 2))) = 1 := by
          rw [min_eq_left ((one_le_div hpos).mpr hhigh)]
          exact max_eq_right zero_le_one
        rw [ht]
        have := ellipse_end_bound (Real.sqrt ((x1 - x2) ^ 2 + (y1 - y2) ^ 2))
          (Real.sqrt ((x2 - x) ^ 2 + (y2 - y) ^ 2)) (Real.sqrt ((x1 - x) ^ 2 + (y1 - y) ^ 2))
          hL hd2 hd1 (by rw [hL2, hd1sq, hd2sq]; linarith) (by linarith)
        rw [hd2sq] at this
        linarith
      · push_neg at hhigh
        have ht : max 0 (min 1 (((x - x1) * (x2 - x1) + (y - y1) * (y2 - y1))
            / ((x2 - x1) ^ 2 + (y2 - y1) ^ 2)))
            = ((x - x1) * (x2 - x1) + (y - y1) * (y2 - y1))
              / ((x2 - x1) ^ 2 + (y2 - y1) ^ 2) := by
          rw [min_eq_right ((div_le_one hpos).mpr hhigh.le)]
          exact max_eq_right (div_pos hlow hpos).le
        rw [ht]
        have hb := ellipse_line_bound (Real.sqrt ((x1 - x2) ^ 2 + (y1 - y2) ^ 2))
          (Real.sqrt ((x1 - x) ^ 2 + (y1 - y) ^ 2)) (Real.sqrt ((x2 - x) ^ 2 + (y2 - y) ^ 2))
          ((x1 - x2) ^ 2 + (y1 - y2) ^ 2) ((x1 - x) ^ 2 + (y1 - y) ^ 2)
          ((x - x1) * (x2 - x1) + (y - y1) * (y2 - y1))
          (((x2 - x1) * (y - y1) - (y2 - y1) * (x - x1)) ^ 2)
          hL (Real.sqrt_nonneg _) (Real.sqrt_nonneg _) hL2 hd1sq
          (by rw [hd2sq]; ring) (by ring) hsum hpos'
        have hfoot : (x - (x1 + ((x - x1) * (x2 - x1) + (y - y1) * (y2 - y1))
              / ((x2 - x1) ^ 2 + (y2 - y1) ^ 2) * (x2 - x1))) ^ 2
            + (y - (y1 + ((x - x1) * (x2 - x1) + (y - y1) * (y2 - y1))
              / ((x2 - x1) ^ 2 + (y2 - y1) ^ 2) * (y2 - y1))) ^ 2
            = ((x2 - x1) * (y - y1) - (y2 - y1) * (x - x1)) ^ 2
              / ((x1 - x2) ^ 2 + (y1 - y2) ^ 2) := by
          rw [← hseq]
          field_simp
          ring
        rw [hfoot, mul_div_assoc', div_lt_iff₀ hpos']
        exact hb

theorem sqrt_of_sq (r v : ℝ) (hr : 0 ≤ r) (h : r ^ 2 = v) : Real.sqrt v = r := by
  rw [← h, Real.sqrt_sq hr]

theorem perpendicularDistance_nonneg (a b c : Point ℝ) :
    0 ≤ perpendicularDistance Real.sqrt a b c := by
  simp only [perpendicularDistance, distance]
  exact div_nonneg (abs_nonneg _) (Real.sqrt_nonneg _)

theorem segmentDistance_nonneg (a b c : Point ℝ) :
    0 ≤ segmentDistance Real.sqrt a b c := by
  simp only [segmentDistance, distance]
  split
  · exact Real.sqrt_nonneg _
  · exact Real.sqrt_nonneg _

theorem onLine_far_point_inside :
    onLine Real.sqrt 0 0 20 0 10 (9 / 4) 1 = some "inside" := by
  have hab : Real.sqrt ((0 - 20) ^ 2 + (0 - 0) ^ 2) = 20 :=
    sqrt_of_sq 20 _ (by norm_num) (by norm_num)
  have hac : Real.sqrt ((0 - 10) ^ 2 + (0 - 9 / 4) ^ 2) = 41 / 4 :=
    sqrt_of_sq (41 / 4) _ (by norm_num) (by norm_num)
  have hbc : Real.sqrt ((20 - 10) ^ 2 + (0 - 9 / 4) ^ 2) = 41 / 4 :=
    sqrt_of_sq (41 / 4) _ (by norm_num) (by norm_num)
  simp only [onLine, distance, hab, hac, hbc]
  rw [if_pos]
  rw [abs_lt]
  constructor <;> norm_num

theorem perpendicularDistance_far_point :
    perpendicularDistance Real.sqrt { x := 0, y := 0 } { x := 20, y := 0 }
      { x := 10, y := 9 / 4 } = 9 / 4 := by
  have hab : Real.sqrt ((0 - 20) ^ 2 + (0 - 0) ^ 2) = 20 :=
    sqrt_of_sq 20 _ (by norm_num) (by norm_num)
  simp only [perpendicularDistance, distance, hab]
  rw [abs_of_nonneg (by norm_num)]
  norm_num

theorem segmentDistance_far_point :
    segmentDistance Real.sqrt { x := 0, y := 0 } { x := 20, y := 0 }
      { x := 10, y := 9 / 4 } = 9 / 4 := by
  have ht : max (0 : ℝ) (min 1 (((10 - 0) * (20 - 0) + (9 / 4 - 0) * (0 - 0))
      / ((20 - 0) ^ 2 + (0 - 0) ^ 2))) = 1 / 2 := by
    have e : ((10 - 0) * (20 - 0) + (9 / 4 - 0) * (0 - 0))
      / ((20 - 0) ^ 2 + (0 - 0) ^ 2) = (1 / 2 : ℝ) := by norm_num
    rw [e, min_eq_right (by norm_num), max_eq_right (by norm_num)]
  have hne : ¬ ((20 - 0 : ℝ) ^ 2 + (0 - 0) ^ 2 = 0) := by norm_num
  simp only [segmentDistance, distance]
  rw [if_neg hne, ht]
  exact sqrt_of_sq (9 / 4) _ (by norm_num) (by norm_num)

theorem onLine_short_segment_inside :
    onLine Real.sqrt 0 0 (6 / 5) 0 0 (1 / 2) 1 = some "inside" := by
  have hab : Real.sqrt ((0 - 6 / 5) ^ 2 + (0 - 0) ^ 2) = 6 / 5 :=
    sqrt_of_sq (6 / 5) _ (by norm_num) (by norm_num)
  have hac : Real.sqrt ((0 - 0) ^ 2 + (0 - 1 / 2) ^ 2) = 1 / 2 :=
    sqrt_of_sq (1 / 2) _ (by norm_num) (by norm_num)
  have hbc : Real.sqrt ((6 / 5 - 0) ^ 2 + (0 - 1 / 2) ^ 2) = 13 / 10 :=
    sqrt_of_sq (13 / 10) _ (by norm_num) (by norm_num)
  simp only [onLine, distance, hab, hac, hbc]
  rw [if_pos]
  rw [abs_lt]
  constructor <;> norm_num

theorem distance_short_segment :
    distance Real.sqrt ({ x := 0, y := 0 } : Point ℝ) { x := 6 / 5, y := 0 } = 6 / 5 := by
  simp only [distance]
  exact sqrt_of_sq (6 / 5) _ (by norm_num) (by norm_num)

/-- C21, as stated, fails: for the segment from (0, 0) to (20, 0) and the point
(10, 9/4) both distances to the endpoints are 41/4, so the offset is
20 - 41/2 = -1/2 and the on-segment test with tolerance 1 reports inside, while
the perpendicular distance from the point to the segment is 9/4, more than
1 unit. -/
theorem onLine_inside_far_counterexample :
    onLine Real.sqrt 0 0 20 0 10 (9 / 4) 1 = some "inside"
      ∧ ¬ (perpendicularDistance Real.sqrt { x := 0, y := 0 } { x := 20, y := 0 }
            { x := 10, y := 9 / 4 } ≤ 1)
      ∧ ¬ (segmentDistance Real.sqrt { x := 0, y := 0 } { x := 20, y := 0 }
            { x := 10, y := 9 / 4 } ≤ 1) := by
  refine ⟨onLine_far_point_inside, ?_, ?_⟩
  · rw [perpendicularDistance_far_point]
    norm_num
  · rw [segmentDistance_far_point]
    norm_num

/-- C21, amended. When the on-segment test with tolerance 1 reports inside, the
sum of the distances from the point to the two endpoints is less than the
length of the segment plus 1, and both the perpendicular distance from the
point to the line through the endpoints and the distance from the point to the
segment are less than half the square root of twice the length plus 1; they
are at most 1 unit when the segment is at most 3/2 long. -/
theorem onLine_inside_distance_bound (x1 y1 x2 y2 x y : ℝ)
    (h : onLine Real.sqrt x1 y1 x2 y2 x y 1 = some "inside") :
    distance Real.sqrt { x := x1, y := y1 } { x := x, y := y }
        + distance Real.sqrt { x := x2, y := y2 } { x := x, y := y }
      < distance Real.sqrt { x := x1, y := y1 } { x := x2, y := y2 } + 1
    ∧ perpendicularDistance Real.sqrt { x := x1, y := y1 } { x := x2, y := y2 }
        { x := x, y := y }
      < Real.sqrt (2 * distance Real.sqrt { x := x1, y := y1 } { x := x2, y := y2 } + 1) / 2
    ∧ segmentDistance Real.sqrt { x := x1, y := y1 } { x := x2, y := y2 }
        { x := x, y := y }
      < Real.sqrt (2 * distance Real.sqrt { x := x1, y := y1 } { x := x2, y := y2 } + 1) / 2
    ∧ (distance Real.sqrt { x := x1, y := y1 } { x := x2, y := y2 } ≤ 3 / 2 →
        perpendicularDistance Real.sqrt { x := x1, y := y1 } { x := x2, y := y2 }
            { x := x, y := y } ≤ 1
          ∧ segmentDistance Real.sqrt { x := x1, y := y1 } { x := x2, y := y2 }
            { x := x, y := y } ≤ 1) := by
  have hp := perpendicular_sq_bound x1 y1 x2 y2 x y h
  have hs := segment_sq_bound x1 y1 x2 y2 x y h
  have hp0 := perpendicularDistance_nonneg { x := x1, y := y1 } { x := x2, y := y2 }
    { x := x, y := y }
  have hs0 := segmentDistance_nonneg { x := x1, y := y1 } { x := x2, y := y2 }
    { x := x, y := y }
  refine ⟨onLine_inside_sum x1 y1 x2 y2 x y h, sq_bound_to_sqrt _ _ hp0 hp,
    sq_bound_to_sqrt _ _ hs0 hs, ?_⟩
  intro hshort
  constructor
  · nlinarith
  · nlinarith

/-- C21, amended, at the segment from (0, 0) to (6/5, 0) and the point
(0, 1/2): the test reports inside, the segment is shorter than 3/2, and the
point is within 1 unit of the line and of the segment. -/
theorem onLine_inside_distance_bound_witness :
    onLine Real.sqrt 0 0 (6 / 5) 0 0 (1 / 2) 1 = some "inside"
      ∧ perpendicularDistance Real.sqrt { x := 0, y := 0 } { x := 6 / 5, y := 0 }
          { x := 0, y := 1 / 2 } ≤ 1
      ∧ segmentDistance Real.sqrt { x := 0, y := 0 } { x := 6 / 5, y := 0 }
          { x := 0, y := 1 / 2 } ≤ 1 :=
  ⟨onLine_short_segment_inside,
    (onLine_inside_distance_bound 0 0 (6 / 5) 0 0 (1 / 2) onLine_short_segment_inside).2.2.2
      (by rw [distance_short_segment]; norm_num)⟩

/-! ## Normalisation of element objects -/

theorem jsMin_min_max {K : Type} [LinearOrderedField K] (a b : JsNum K) :
    jsMin (jsMin a b) (jsMax a b) = jsMin a b := by
  unfold jsMin jsMax
  cases ha : a.toNumber <;> cases hb : b.toNumber <;> simp [JsNum.toNumber]

theorem jsMax_min_max {K : Type} [LinearOrderedField K] (a b : JsNum K) :
    jsMax (jsMin a b) (jsMax a b) = jsMax a b := by
  unfold jsMin jsMax
  cases ha : a.toNumber <;> cases hb : b.toNumber <;> simp [JsNum.toNumber]

/-- The element at index 0 after `lineAfterPencilDown` is the line with
coordinates (undefined, undefined, 20, 20). -/
theorem lineAfterPencilDown_element {K : Type} [LinearOrderedField K] (sqrt : K → K)
    (measureText : String → K) :
    deref (MuralState.initial.run sqrt measureText lineAfterPencilDown).heap
        (jsGet (MuralState.initial.run sqrt measureText lineAfterPencilDown).elements 0)
      = some lineFromPencil := by
  simp [lineAfterPencilDown, lineFromPencil, mouseAt, MuralState.run, MuralState.step, settle,
    handleToolClick, handleMouseDown, handleMouseMove, MuralState.initial, createElement,
    updateElement, MuralState.elements, History.current, History.setState,
    useHistory, jsGet, jsSet, jsSlice0, spread, deref, setSlot]

theorem adjust_lineFromPencil :
    adjustObjectCoordinates (lineFromPencil : Obj ℚ)
      = { x1 := .num 20, y1 := .num 20, x2 := .undefined, y2 := .undefined } := by
  simp [adjustObjectCoordinates, lineFromPencil, jsLt, jsStrictEq, JsNum.toNumber]

theorem adjust_twice_lineFromPencil :
    adjustObjectCoordinates
        ((lineFromPencil : Obj ℚ).withCoordinates (adjustObjectCoordinates lineFromPencil))
      = { x1 := .undefined, y1 := .undefined, x2 := .num 20, y2 := .num 20 } := by
  rw [adjust_lineFromPencil]
  simp [adjustObjectCoordinates, Obj.withCoordinates, lineFromPencil, jsLt, jsStrictEq,
    JsNum.toNumber]

/-- C10, as stated, fails: for the line with coordinates
(undefined, undefined, 20, 20) neither `x1 < x2` nor `x1 === x2` holds, in
either order of the endpoints, so `adjustElementCoordinates` swaps the endpoints
on every call: it returns (20, 20, undefined, undefined), and on the line with
these coordinates it returns (undefined, undefined, 20, 20). -/
theorem adjust_twice_undefined_counterexample :
    adjustObjectCoordinates (lineFromPencil : Obj ℚ)
        = { x1 := .num 20, y1 := .num 20, x2 := .undefined, y2 := .undefined } ∧
      adjustObjectCoordinates
          ((lineFromPencil : Obj ℚ).withCoordinates (adjustObjectCoordinates lineFromPencil))
        = { x1 := .undefined, y1 := .undefined, x2 := .num 20, y2 := .num 20 } ∧
      adjustObjectCoordinates
          ((lineFromPencil : Obj ℚ).withCoordinates (adjustObjectCoordinates lineFromPencil))
        ≠ adjustObjectCoordinates (lineFromPencil : Obj ℚ) := by
  refine ⟨adjust_lineFromPencil, adjust_twice_lineFromPencil, ?_⟩
  rw [adjust_twice_lineFromPencil, adjust_lineFromPencil]
  simp

/-- C10, amended. For every rectangle element, and for every line element whose
four coordinates are numbers, `adjustElementCoordinates` applied to the element
with its coordinates replaced by the normalised ones returns the same
coordinates as on the element itself. -/
theorem adjust_idempotent {K : Type} [LinearOrderedField K] (o : Obj K) :
    (o.type = some "rectangle" →
      adjustObjectCoordinates (o.withCoordinates (adjustObjectCoordinates o))
        = adjustObjectCoordinates o) ∧
    (o.type = some "line" → ∀ a b c d : K,
      o.x1 = .num a → o.y1 = .num b → o.x2 = .num c → o.y2 = .num d →
      adjustObjectCoordinates (o.withCoordinates (adjustObjectCoordinates o))
        = adjustObjectCoordinates o) := by
  constructor
  · intro ht
    simp only [adjustObjectCoordinates, Obj.withCoordinates, ht, if_true, jsMin_min_max,
      jsMax_min_max]
  · intro ht a b c d hx1 hy1 hx2 hy2
    have hnr : ¬ ((some "line" : Option String) = some "rectangle") := by decide
    simp only [adjustObjectCoordinates, Obj.withCoordinates, ht, hnr, if_false, hx1, hy1, hx2,
      hy2, jsLt, jsStrictEq, JsNum.toNumber]
    rcases lt_trichotomy a c with h | h | h
    · simp [h, h.not_lt, h.ne]
    · subst h
      rcases lt_trichotomy b d with h' | h' | h'
      · simp [h', h'.not_lt]
      · simp [h']
      · simp [h', h'.not_lt]
    · simp [h, h.not_lt, h.ne']

/-- C10, amended, on the line from (7,3) to (2,9): normalising gives
(2, 9, 7, 3), and normalising the line with these coordinates gives the same. -/
theorem adjust_idempotent_witness :
    adjustObjectCoordinates
        (({ id := some 0, type := some "line", x1 := .num 7, y1 := .num 3, x2 := .num 2,
            y2 := .num 9 } : Obj ℚ).withCoordinates
          (adjustObjectCoordinates
            { id := some 0, type := some "line", x1 := .num 7, y1 := .num 3, x2 := .num 2,
              y2 := .num 9 }))
      = adjustObjectCoordinates
          ({ id := some 0, type := some "line", x1 := .num 7, y1 := .num 3, x2 := .num 2,
             y2 := .num 9 } : Obj ℚ) :=
  (adjust_idempotent
    ({ id := some 0, type := some "line", x1 := .num 7, y1 := .num 3, x2 := .num 2,
       y2 := .num 9 } : Obj ℚ)).2 rfl 7 3 2 9 rfl rfl rfl rfl

/-- C11, as stated, fails: on the line with coordinates
(undefined, undefined, 20, 20) `adjustElementCoordinates` returns the endpoints
swapped, (20, 20, undefined, undefined), which is not the input, although neither
`x1 > x2` nor (`x1 === x2` and `y1 > y2`) holds; and the result does not
satisfy `x1 <= x2`. -/
theorem adjust_swaps_undefined_counterexample :
    adjustObjectCoordinates (lineFromPencil : Obj ℚ)
        = { x1 := (lineFromPencil : Obj ℚ).x2, y1 := (lineFromPencil : Obj ℚ).y2,
            x2 := (lineFromPencil : Obj ℚ).x1, y2 := (lineFromPencil : Obj ℚ).y1 } ∧
      adjustObjectCoordinates (lineFromPencil : Obj ℚ)
        ≠ { x1 := (lineFromPencil : Obj ℚ).x1, y1 := (lineFromPencil : Obj ℚ).y1,
            x2 := (lineFromPencil : Obj ℚ).x2, y2 := (lineFromPencil : Obj ℚ).y2 } ∧
      jsLt (lineFromPencil : Obj ℚ).x2 (lineFromPencil : Obj ℚ).x1 = false ∧
      jsStrictEq (lineFromPencil : Obj ℚ).x1 (lineFromPencil : Obj ℚ).x2 = false ∧
      jsLe (adjustObjectCoordinates (lineFromPencil : Obj ℚ)).x1
        (adjustObjectCoordinates (lineFromPencil : Obj ℚ)).x2 = false := by
  rw [adjust_lineFromPencil]
  simp [lineFromPencil, jsLt, jsLe, jsStrictEq, JsNum.toNumber]

/-- C11, amended. On a rectangle `adjustElementCoordinates` returns
`(Math.min(x1,x2), Math.min(y1,y2), Math.max(x1,x2), Math.max(y1,y2))`; on a line
it returns the two endpoints either unchanged or swapped as whole points.  When
the four coordinates are numbers, the rectangle's result is the per-axis
minimum and maximum and has `x1 <= x2` and `y1 <= y2`; the line's result is the
swapped endpoints when `x1 > x2` or (`x1 === x2` and `y1 > y2`) and the unchanged
ones otherwise, and it has `x1 <= x2`, and `y1 <= y2` when its `x1 === x2`. -/
theorem adjust_coordinates_spec {K : Type} [LinearOrderedField K] (o : Obj K) :
    (o.type = some "rectangle" →
      adjustObjectCoordinates o
        = { x1 := jsMin o.x1 o.x2, y1 := jsMin o.y1 o.y2,
            x2 := jsMax o.x1 o.x2, y2 := jsMax o.y1 o.y2 }) ∧
    (o.type = some "line" →
      adjustObjectCoordinates o = { x1 := o.x1, y1 := o.y1, x2 := o.x2, y2 := o.y2 } ∨
      adjustObjectCoordinates o = { x1 := o.x2, y1 := o.y2, x2 := o.x1, y2 := o.y1 }) ∧
    (∀ a b c d : K, o.x1 = .num a → o.y1 = .num b → o.x2 = .num c → o.y2 = .num d →
      (o.type = some "rectangle" →
        adjustObjectCoordinates o
          = { x1 := .num (min a c), y1 := .num (min b d),
              x2 := .num (max a c), y2 := .num (max b d) } ∧
        jsLe (adjustObjectCoordinates o).x1 (adjustObjectCoordinates o).x2 = true ∧
        jsLe (adjustObjectCoordinates o).y1 (adjustObjectCoordinates o).y2 = true) ∧
      (o.type = some "line" →
        adjustObjectCoordinates o
          = (if jsLt o.x2 o.x1 || (jsStrictEq o.x1 o.x2 && jsLt o.y2 o.y1) then
              { x1 := o.x2, y1 := o.y2, x2 := o.x1, y2 := o.y1 }
            else { x1 := o.x1, y1 := o.y1, x2 := o.x2, y2 := o.y2 }) ∧
        jsLe (adjustObjectCoordinates o).x1 (adjustObjectCoordinates o).x2 = true ∧
        (jsStrictEq (adjustObjectCoordinates o).x1 (adjustObjectCoordinates o).x2 = true →
          jsLe (adjustObjectCoordinates o).y1 (adjustObjectCoordinates o).y2 = true))) := by
  have hnr : ¬ ((some "line" : Option String) = some "rectangle") := by decide
  refine ⟨?_, ?_, ?_⟩
  · intro ht
    simp only [adjustObjectCoordinates, ht, if_true]
  · intro ht
    simp only [adjustObjectCoordinates, ht, hnr, if_false]
    cases jsLt o.x1 o.x2 || (jsStrictEq o.x1 o.x2 && jsLt o.y1 o.y2)
    · exact Or.inr (by simp)
    · exact Or.inl (by simp)
  · intro a b c d hx1 hy1 hx2 hy2
    constructor
    · intro ht
      simp only [adjustObjectCoordinates, ht, if_true, hx1, hy1, hx2, hy2, jsMin, jsMax, jsLe,
        JsNum.toNumber]
      simp
    · intro ht
      simp only [adjustObjectCoordinates, ht, hnr, if_false, hx1, hy1, hx2, hy2, jsLt, jsLe,
        jsStrictEq, JsNum.toNumber]
      rcases lt_trichotomy a c with h | h | h
      · simp [h, h.not_lt, h.ne, h.le]
      · subst h
        rcases lt_trichotomy b d with h' | h' | h'
        · simp [h', h'.not_lt, h'.le]
        · simp [h']
        · simp [h', h'.not_lt, h'.le]
      · simp [h, h.not_lt, h.ne, h.ne', h.le]

/-- C11, amended, on the line from (7,3) to (2,9): `x1 > x2`, and the result is
the endpoints swapped, (2, 9, 7, 3). -/
theorem adjust_coordinates_spec_witness :
    adjustObjectCoordinates
        ({ id := some 0, type := some "line", x1 := .num 7, y1 := .num 3, x2 := .num 2,
           y2 := .num 9 } : Obj ℚ)
      = { x1 := .num 2, y1 := .num 9, x2 := .num 7, y2 := .num 3 } := by
  have h := (((adjust_coordinates_spec
    ({ id := some 0, type := some "line", x1 := .num 7, y1 := .num 3, x2 := .num 2,
       y2 := .num 9 } : Obj ℚ)).2.2 7 3 2 9 rfl rfl rfl rfl).2 rfl).1
  rw [h]
  norm_num [jsLt, jsStrictEq, JsNum.toNumber]

end Mural
